import Mathlib

/-!
GigPanda backend: contract and milestone engine, jobs and proposals

A shallow embedding of `src/controllers/contract.controller.js`, of the job and
proposal controllers (`job.controller.js`, `proposal.controller.js`) and of
`src/utils/validation.js`, together with the Mongoose schemas of
`src/models/contract.model.js`, `proposal.model.js`, `job.model.js` and
`notification.model.js`.

Modelling conventions

* The document store is an explicit value `Db`; every controller is a function
  from the store and the request to a response and the store afterwards.
* `ObjectId`s and dates are natural numbers; `new Date()` is the request
  parameter `now`.
* JavaScript numbers are modelled as exact integers (`Int`); a request field
  that is absent (or, for a number, not numeric) is `none`. The model covers
  whole-number values: a sum or difference of doubles is exact when the
  operands and the result are safe integers (`isSafeInteger`). Fractional
  amounts, on which double addition rounds, are outside the model.
* `document.save()` runs the schema validators (`required`, `min`, `enum`); a
  failed validation throws, which every controller turns into its 500 answer
  without writing anything.
* User documents are never deleted by any controller, so `populate` of the
  `client` and `freelancer` paths always yields a document; jobs can be deleted
  (`deleteJob`), so `populate('job')` may yield `null`.
* Response bodies are reduced to the HTTP status code, the `message` and the
  `warnings.failedFiles` list; notification message texts, timestamps
  (`createdAt`, `updatedAt`) and the `_id` of stored file entries play no role
  in any branch and are omitted.
* `multer` and the file store are libraries outside the repository: the upload
  error handed to the callback of `submitWork` and the outcome of each write to
  the file collection are inputs of the model.
* A MongoDB sort on a string path uses the simple binary collation: strings are
  compared code point by code point (`binaryLt`). Documents with equal sort
  keys keep their stored order.
* The quotient `totalJobs / limit` of the pagination block is a rational
  number, `Math.ceil` the integer ceiling.
-/

namespace GigPanda

abbrev ObjectId := Nat

/-! ## Data model (src/models) -/

/-- File entry of a submission, `submissionSchema.files`. -/
structure FileMeta where
  filename : String
  url : String
  mimetype : String
  size : Nat
  deriving DecidableEq, Repr

/-- The `submissionSchema` of contract.model.js. -/
structure Submission where
  files : List FileMeta := []
  comments : String := ""
  submittedAt : Nat
  status : String := "pending"
  clientFeedback : String := ""
  feedbackAt : Option Nat := none
  deriving DecidableEq, Repr

/-- The `milestoneSchema` of contract.model.js. -/
structure Milestone where
  id : ObjectId
  title : String
  description : String
  amount : Int
  dueDate : Nat
  status : String := "pending"
  escrowFunded : Bool := false
  submissionHistory : List Submission := []
  currentSubmission : Option Submission := none
  deriving DecidableEq, Repr

/-- The `contractSchema` of contract.model.js. -/
structure Contract where
  id : ObjectId
  job : ObjectId
  proposal : ObjectId
  client : ObjectId
  freelancer : ObjectId
  title : String
  scope : String
  totalAmount : Int
  status : String := "draft"
  escrowBalance : Int := 0
  milestones : List Milestone := []
  startDate : Option Nat := none
  endDate : Option Nat := none
  terms : String
  deriving DecidableEq, Repr

/-- The `budget` subdocument of `jobSchema`. -/
structure Budget where
  min : Int := 0
  max : Int := 0
  currency : String := "USD"
  deriving DecidableEq, Repr

/-- The `jobSchema` of job.model.js (`country` and `updatedAt` omitted); `createdAt` is the
timestamp set by `timestamps: true`. -/
structure Job where
  id : ObjectId
  client : ObjectId
  title : String := ""
  status : String := "open"
  description : String := ""
  category : String := "other"
  skillsRequired : List String := []
  budget : Budget := {}
  budgetType : String := "fixed"
  timeline : String := "1-month"
  experienceLevel : String := "intermediate"
  location : String := "remote"
  createdAt : Nat := 0
  deriving DecidableEq, Repr

/-- The fields of `proposalSchema` (proposal.model.js) that a controller reads or changes after
the proposal was created. -/
structure Proposal where
  id : ObjectId
  job : ObjectId
  freelancer : ObjectId
  status : String := "pending"
  clientNotes : Option String := none
  deriving DecidableEq, Repr

/-- The `notificationSchema` of notification.model.js (message text omitted). -/
structure Notification where
  recipient : ObjectId
  sender : ObjectId
  type : String
  job : Option ObjectId := none
  proposal : Option ObjectId := none
  deriving DecidableEq, Repr

/-- The document store: one list per collection, and the next fresh `ObjectId`. -/
structure Db where
  jobs : List Job := []
  proposals : List Proposal := []
  contracts : List Contract := []
  notifications : List Notification := []
  nextId : Nat := 0
  deriving DecidableEq, Repr

/-- The JSON answer of a controller: HTTP status code, `message`, the
`warnings.failedFiles` list of `submitWork` when present, and the `errors` object of
`createJob` (keys in insertion order, each with its message). -/
structure Response where
  code : Nat
  message : String
  failedFiles : Option (List String) := none
  errors : List (String × String) := []
  deriving DecidableEq, Repr

/-- The call `res.status(code).json({ success, message })`. -/
def json (code : Nat) (message : String) : Response :=
  { code := code, message := message }

/-! ## Schema validation run by `save()` -/

/-- The `enum` of `submissionSchema.status`. -/
def submissionStatusEnum : List String := ["pending", "approved", "changes_requested"]

/-- The `enum` of `milestoneSchema.status`. -/
def milestoneStatusEnum : List String :=
  ["pending", "funded", "in_progress", "submitted", "changes_requested", "completed", "paid"]

/-- The `enum` of `contractSchema.status`. -/
def contractStatusEnum : List String :=
  ["draft", "funded", "active", "completed", "closed", "cancelled"]

/-- Validators of one `files` entry: `filename`, `url`, `mimetype` are required strings. -/
def validFile (f : FileMeta) : Bool :=
  f.filename != "" && f.url != "" && f.mimetype != ""

/-- Validators of `submissionSchema`. -/
def validSubmission (s : Submission) : Bool :=
  s.files.all validFile && submissionStatusEnum.contains s.status

/-- Validators of `milestoneSchema`: required title and description, `amount` with `min: 0`,
status enum, and the validators of the embedded submissions. -/
def validMilestone (m : Milestone) : Bool :=
  m.title != "" && m.description != "" && decide (0 ≤ m.amount) &&
  milestoneStatusEnum.contains m.status &&
  m.submissionHistory.all validSubmission &&
  (match m.currentSubmission with
   | none => true
   | some s => validSubmission s)

/-- Validators of `contractSchema`: required strings, `totalAmount` and `escrowBalance`
with `min: 0`, status enum, and the validators of every milestone. -/
def validContract (c : Contract) : Bool :=
  c.title != "" && c.scope != "" && c.terms != "" &&
  decide (0 ≤ c.totalAmount) && contractStatusEnum.contains c.status &&
  decide (0 ≤ c.escrowBalance) && c.milestones.all validMilestone

/-! ## Store access -/

/-- The call `Contract.findById(id)`. -/
def Db.findContract (db : Db) (id : ObjectId) : Option Contract :=
  db.contracts.find? (fun c => c.id == id)

/-- The call `Job.findById(id)`, also used for `populate('job')`. -/
def Db.findJob (db : Db) (id : ObjectId) : Option Job :=
  db.jobs.find? (fun j => j.id == id)

/-- The call `Proposal.findById(id)`. -/
def Db.findProposal (db : Db) (id : ObjectId) : Option Proposal :=
  db.proposals.find? (fun p => p.id == id)

/-- Overwrite the stored contract that has the `_id` of `c`. -/
def updateContract : List Contract → Contract → List Contract
  | [], _ => []
  | x :: xs, c => if x.id == c.id then c :: xs else x :: updateContract xs c

/-- The call `contract.save()` on a loaded contract: validate, then write. `none` is a thrown
ValidationError. -/
def Db.saveContract (db : Db) (c : Contract) : Option Db :=
  if validContract c then some { db with contracts := updateContract db.contracts c } else none

/-- The call `Job.findByIdAndUpdate(id, { status })`. -/
def Db.setJobStatus (db : Db) (id : ObjectId) (status : String) : Db :=
  { db with jobs := db.jobs.map (fun j => if j.id == id then { j with status := status } else j) }

/-- The call `new Notification(n).save()`. -/
def Db.addNotification (db : Db) (n : Notification) : Db :=
  { db with notifications := db.notifications ++ [n] }

/-- The call `contract.milestones.id(milestoneId)`: the first milestone with that `_id`. -/
def findMilestone (ms : List Milestone) (id : ObjectId) : Option Milestone :=
  ms.find? (fun m => m.id == id)

/-- Write back the milestone subdocument returned by `milestones.id(id)`. -/
def setMilestone : List Milestone → ObjectId → Milestone → List Milestone
  | [], _, _ => []
  | x :: xs, id, m => if x.id == id then m :: xs else x :: setMilestone xs id m

/-! ## Request values -/

/-- One element of `req.body.milestones` in `createContract`, also the body of `addMilestone`. -/
structure MilestoneInput where
  title : Option String := none
  description : Option String := none
  amount : Option Int := none
  dueDate : Option Nat := none
  deriving DecidableEq, Repr

/-- The body of `createContract`: `{ title, scope, totalAmount, terms, milestones }`;
`milestones = none` is a missing or non-array value. -/
structure ContractInput where
  title : Option String := none
  scope : Option String := none
  totalAmount : Option Int := none
  terms : Option String := none
  milestones : Option (List MilestoneInput) := none
  deriving DecidableEq, Repr

/-- The error that `upload.array('files', 10)` hands to its callback. -/
inductive UploadError where
  | limitFileSize
  | limitFileCount
  | multerOther (message : String)
  | other (message : String)
  deriving DecidableEq, Repr

/-- One element of `req.files`; `saveOutcome` is the outcome of `newFile.save()` in
`saveFileToStorage`: the `_id` of the stored file, or `none` when the write throws. -/
structure UploadedFile where
  originalname : String
  mimetype : String
  size : Nat
  saveOutcome : Option String
  deriving DecidableEq, Repr

/-! ## JavaScript and Mongoose helpers -/

/-- JavaScript truthiness of a string-valued request field: `!x` holds for a missing field and
for the empty string. -/
def falsyStr : Option String → Bool
  | none => true
  | some s => s == ""

/-- JavaScript truthiness of a numeric request field: `!x` holds for a missing field, `NaN`
and `0`. -/
def falsyNum : Option Int → Bool
  | none => true
  | some n => n == 0

/-- The constant `Number.MAX_SAFE_INTEGER`, `2^53 - 1`. -/
def maxSafeInteger : Int := 9007199254740991

/-- The test `Number.isSafeInteger` on a whole number: between `-(2^53 - 1)` and `2^53 - 1`.
On safe integers whose sum is a safe integer the double addition `a + b` of JavaScript is
the exact sum. -/
def isSafeInteger (n : Int) : Bool :=
  decide (-maxSafeInteger ≤ n) && decide (n ≤ maxSafeInteger)

/-- The characters removed by `String.prototype.trim`: ECMAScript WhiteSpace and
LineTerminator code points. -/
def isJsSpace (c : Char) : Bool :=
  [9, 10, 11, 12, 13, 32, 160, 5760, 8232, 8233, 8239, 8287, 12288, 65279].contains c.toNat ||
  (decide (8192 ≤ c.toNat) && decide (c.toNat ≤ 8202))

/-- The setter of a schema path declared with `trim: true`. -/
def jsTrim (s : String) : String :=
  String.mk ((s.data.dropWhile isJsSpace).reverse.dropWhile isJsSpace).reverse

/-- Insert a submission before the first entry that is not newer than it. -/
def insertByDate (s : Submission) : List Submission → List Submission
  | [] => [s]
  | x :: xs => if x.submittedAt ≤ s.submittedAt then s :: x :: xs else x :: insertByDate s xs

/-- The getter of `milestoneSchema.submissionHistory`:
`submissions.sort((a, b) => b.submittedAt - a.submittedAt)`, a stable sort, newest first. -/
def sortHistory : List Submission → List Submission
  | [] => []
  | x :: xs => insertByDate x (sortHistory xs)

/-- The function `saveFileToStorage` of utils/fileStorage.js: the stored file id, or `none`
when it throws. -/
def saveFileToStorage (file : UploadedFile) : Option String :=
  if file.originalname == "" || file.mimetype == "" then none else file.saveOutcome

/-- The `savedFiles` array built by the upload loop of `submitWork`. -/
def savedFilesOf : List UploadedFile → List FileMeta
  | [] => []
  | file :: rest =>
    match saveFileToStorage file with
    | some fileId =>
      { filename := file.originalname, url := fileId, mimetype := file.mimetype,
        size := file.size } :: savedFilesOf rest
    | none => savedFilesOf rest

/-- The `failedFiles` array built by the upload loop of `submitWork`. -/
def failedFilesOf : List UploadedFile → List String
  | [] => []
  | file :: rest =>
    match saveFileToStorage file with
    | some _ => failedFilesOf rest
    | none => file.originalname :: failedFilesOf rest

/-- The call `Proposal.save()` after `proposal.status = status`. -/
def Db.setProposalStatus (db : Db) (id : ObjectId) (status : String) : Db :=
  { db with
    proposals := db.proposals.map (fun p => if p.id == id then { p with status := status } else p) }

/-- The milestone subdocuments built by `milestones.map(...)` in `createContract`; the `_id`s are
fresh, counted up from `firstId`. `none` when a value cannot be cast (`Number(amount)` is `NaN`,
or the date is missing). -/
def buildMilestones : Nat → List MilestoneInput → Option (List Milestone)
  | _, [] => some []
  | firstId, m :: rest =>
    match m.title, m.description, m.amount, m.dueDate, buildMilestones (firstId + 1) rest with
    | some title, some description, some amount, some dueDate, some built =>
      some ({ id := firstId, title := jsTrim title, description := description,
              amount := amount, dueDate := dueDate, status := "pending" } :: built)
    | _, _, _, _, _ => none

/-! ## Controllers (src/controllers/contract.controller.js) -/

/-- The call `contract.save()` on a new contract: validate, then insert; the fresh `_id`s of
the contract and of its milestones are consumed. -/
def Db.insertContract (db : Db) (c : Contract) : Option Db :=
  if validContract c then
    some { db with contracts := db.contracts ++ [c], nextId := db.nextId + 1 + c.milestones.length }
  else none

/-- The controller `createContract`. -/
def createContract (db : Db) (user proposalId : ObjectId) (body : ContractInput) :
    Response × Db :=
  match body.milestones with
  | none => (json 400 "Missing required fields", db)
  | some milestones =>
    if falsyStr body.title || falsyStr body.scope || falsyStr body.terms then
      (json 400 "Missing required fields", db)
    else if milestones.any (fun milestone =>
        falsyStr milestone.title || falsyStr milestone.description ||
        falsyNum milestone.amount || milestone.dueDate.isNone) then
      (json 400 "Each milestone must have a title, description, amount, and due date", db)
    else
      match db.findProposal proposalId with
      | none => (json 404 "Proposal not found", db)
      | some proposal =>
        match db.findJob proposal.job with
        | none => (json 500 "Error creating contract", db)
        | some job =>
          if job.client != user then
            (json 403 "Only the client can create a contract", db)
          else
            match body.title, body.scope, body.terms, body.totalAmount,
                buildMilestones (db.nextId + 1) milestones with
            | some title, some scope, some terms, some totalAmount, some built =>
              let contract : Contract :=
                { id := db.nextId, job := job.id, proposal := proposalId, client := user,
                  freelancer := proposal.freelancer, title := title, scope := scope,
                  totalAmount := totalAmount, terms := terms, milestones := built }
              match db.insertContract contract with
              | none => (json 500 "Error creating contract", db)
              | some db1 =>
                (json 201 "Contract created successfully",
                  (db1.setProposalStatus proposal.id "accepted").setJobStatus job.id "in-progress")
            | _, _, _, _, _ => (json 500 "Error creating contract", db)

/-- The controller `getContractById`; the second component is the `contract` of the body. -/
def getContractById (db : Db) (user contractId : ObjectId) : Response × Option Contract :=
  match db.findContract contractId with
  | none => (json 404 "Contract not found", none)
  | some contract =>
    if contract.client != user && contract.freelancer != user then
      (json 403 "Access denied", none)
    else
      (json 200 "", some contract)

/-- The controller `fundEscrow`; `amount` is `Number(req.body.amount)`, `none` for `NaN`.
The sum `(contract.escrowBalance || 0) + Number(amount)` is a double addition; it is the
integer sum below when balance, amount and sum are safe integers (`isSafeInteger`). -/
def fundEscrow (db : Db) (user contractId : ObjectId) (amount : Option Int) : Response × Db :=
  match db.findContract contractId with
  | none => (json 404 "Contract not found", db)
  | some contract =>
    if contract.client != user then
      (json 403 "Only the client can fund the escrow", db)
    else
      match amount with
      | none => (json 500 "Error funding escrow", db)
      | some amount =>
        match db.saveContract
            { contract with
              escrowBalance := contract.escrowBalance + amount, status := "funded" } with
        | none => (json 500 "Error funding escrow", db)
        | some db1 => (json 200 "Escrow funded successfully", db1)

/-- The controller `activateContract`. -/
def activateContract (db : Db) (user contractId : ObjectId) (now : Nat) : Response × Db :=
  match db.findContract contractId with
  | none => (json 404 "Contract not found", db)
  | some contract =>
    if contract.client != user then
      (json 403 "Only the client can activate the contract", db)
    else if contract.status != "funded" then
      (json 400 "Contract must be funded before activation", db)
    else
      match db.saveContract { contract with status := "active", startDate := some now } with
      | none => (json 500 "Error activating contract", db)
      | some db1 => (json 200 "Contract activated successfully", db1)

/-- The controller `addMilestone`. -/
def addMilestone (db : Db) (user contractId : ObjectId) (body : MilestoneInput) :
    Response × Db :=
  match db.findContract contractId with
  | none => (json 404 "Contract not found", db)
  | some contract =>
    if contract.client != user then
      (json 403 "Only the client can add milestones", db)
    else
      match buildMilestones db.nextId [body] with
      | none => (json 500 "Error adding milestone", db)
      | some pushed =>
        match db.saveContract { contract with milestones := contract.milestones ++ pushed } with
        | none => (json 500 "Error adding milestone", db)
        | some db1 =>
          (json 200 "Milestone added successfully", { db1 with nextId := db.nextId + 1 })

/-- The milestone update of `submitWork` (the block from `const now = new Date()` to
`milestone.status = "submitted"`): a current submission is moved to the front of the history,
then replaced by the new one. -/
def submitMilestone (milestone : Milestone) (savedFiles : List FileMeta)
    (comments : Option String) (now : Nat) : Milestone :=
  let submissionHistory :=
    match milestone.currentSubmission with
    | none => milestone.submissionHistory
    | some current =>
      { current with
        status := if current.status == "" then "pending" else current.status } ::
        sortHistory milestone.submissionHistory
  { milestone with
    submissionHistory := submissionHistory
    currentSubmission := some
      { files := savedFiles, comments := comments.getD "", submittedAt := now,
        status := "pending", clientFeedback := "", feedbackAt := none }
    status := "submitted" }

/-- The feedback stamp of `reviewSubmission`: `currentSubmission.status = status`, and
`clientFeedback`, `feedbackAt` when `feedback` is truthy. -/
def stampSubmission (current : Submission) (status : String) (feedback : Option String)
    (now : Nat) : Submission :=
  if falsyStr feedback then { current with status := status }
  else { current with
         status := status, clientFeedback := feedback.getD "", feedbackAt := some now }

/-- The milestone update of `reviewSubmission` (from "Update current submission with feedback"
to the end of the `if`/`else if` on `status`). -/
def reviewMilestone (milestone : Milestone) (current : Submission) (status : String)
    (feedback : Option String) (now : Nat) : Milestone :=
  let stamped := stampSubmission current status feedback now
  if status == "approved" then
    { milestone with
      status := "completed"
      submissionHistory :=
        { stamped with status := status, feedbackAt := some now } ::
          sortHistory milestone.submissionHistory
      currentSubmission := none }
  else if status == "changes_requested" then
    { milestone with
      status := "changes_requested"
      submissionHistory :=
        { stamped with status := status, feedbackAt := some now } ::
          sortHistory milestone.submissionHistory
      currentSubmission := none }
  else
    { milestone with currentSubmission := some stamped }

/-- The controller `submitWork`; `err` and `files` are what `upload.array('files', 10)` hands
to its callback. -/
def submitWork (db : Db) (user contractId milestoneId : ObjectId) (err : Option UploadError)
    (files : List UploadedFile) (comments : Option String) (now : Nat) : Response × Db :=
  match err with
  | some .limitFileSize => (json 400 "File too large. Maximum size is 5MB", db)
  | some .limitFileCount => (json 400 "Too many files. Maximum is 10 files", db)
  | some (.multerOther _) => (json 400 "Error uploading files", db)
  | some (.other message) => (json 400 message, db)
  | none =>
    match db.findContract contractId with
    | none => (json 404 "Contract not found", db)
    | some contract =>
      if contract.freelancer != user then
        (json 403 "Only the freelancer can submit work", db)
      else
        match findMilestone contract.milestones milestoneId with
        | none => (json 404 "Milestone not found", db)
        | some milestone =>
          let savedFiles := savedFilesOf files
          let failedFiles := failedFilesOf files
          if decide (files.length > 0) && savedFiles.length == 0 then
            (json 500 "Failed to save any files", db)
          else
            match db.saveContract
                { contract with
                  milestones := setMilestone contract.milestones milestoneId
                    (submitMilestone milestone savedFiles comments now) } with
            | none => (json 500 "Error saving submission", db)
            | some db1 =>
              match db.findJob contract.job with
              | none => (json 500 "Error saving submission", db1)
              | some job =>
                ({ code := 200, message := "Work submitted successfully",
                   failedFiles := if failedFiles.length > 0 then some failedFiles else none },
                  db1.addNotification
                    { recipient := contract.client, sender := user,
                      type := "MILESTONE_SUBMITTED", job := some job.id })

/-- The controller `reviewSubmission`; `feedback` is `none` when the body has none. -/
def reviewSubmission (db : Db) (user contractId milestoneId : ObjectId) (status : String)
    (feedback : Option String) (now : Nat) : Response × Db :=
  match db.findContract contractId with
  | none => (json 404 "Contract not found", db)
  | some contract =>
    if contract.client != user then
      (json 403 "Only the client can review submissions", db)
    else
      match findMilestone contract.milestones milestoneId with
      | none => (json 404 "Milestone not found", db)
      | some milestone =>
        match milestone.currentSubmission with
        | none => (json 404 "No submission found to review", db)
        | some current =>
          match db.saveContract
              { contract with
                milestones := setMilestone contract.milestones milestoneId
                  (reviewMilestone milestone current status feedback now) } with
          | none => (json 500 "Error reviewing submission", db)
          | some db1 =>
            match db.findJob contract.job with
            | none => (json 500 "Error reviewing submission", db1)
            | some job =>
              (json 200 "Submission reviewed successfully",
                db1.addNotification
                  { recipient := contract.freelancer, sender := user,
                    type := if status == "approved" then "MILESTONE_APPROVED"
                            else "MILESTONE_CHANGES_REQUESTED",
                    job := some job.id })

/-- The controller `releasePayment`. -/
def releasePayment (db : Db) (user contractId milestoneId : ObjectId) : Response × Db :=
  match db.findContract contractId with
  | none => (json 404 "Contract not found", db)
  | some contract =>
    if contract.client != user then
      (json 403 "Only the client can release payments", db)
    else
      match findMilestone contract.milestones milestoneId with
      | none => (json 404 "Milestone not found", db)
      | some milestone =>
        if milestone.status != "completed" then
          (json 400 "Milestone must be completed before releasing payment", db)
        else
          let saved : Contract :=
            { contract with
              escrowBalance := contract.escrowBalance - milestone.amount
              milestones :=
                setMilestone contract.milestones milestoneId { milestone with status := "paid" } }
          match db.saveContract saved with
          | none => (json 500 "Error releasing payment", db)
          | some db1 =>
            match db.findJob contract.job with
            | none => (json 500 "Error releasing payment", db1)
            | some job =>
              (json 200 "Payment released successfully",
                db1.addNotification
                  { recipient := contract.freelancer, sender := user,
                    type := "PAYMENT_RELEASED", job := some job.id })

/-- The controller `completeContract`. -/
def completeContract (db : Db) (user contractId : ObjectId) (now : Nat) : Response × Db :=
  match db.findContract contractId with
  | none => (json 404 "Contract not found", db)
  | some contract =>
    if contract.client != user then
      (json 403 "Only the client can complete the contract", db)
    else
      let allMilestonesCompleted := contract.milestones.all (fun milestone => milestone.status == "paid")
      if !allMilestonesCompleted then
        (json 400 "All milestones must be completed and paid before completing the contract", db)
      else
        match db.saveContract { contract with status := "completed", endDate := some now } with
        | none => (json 500 "Error completing contract", db)
        | some db1 =>
          match db.findJob contract.job with
          | none => (json 500 "Error completing contract", db1)
          | some job =>
            (json 200 "Contract completed successfully",
              (db1.setJobStatus job.id "completed").addNotification
                { recipient := contract.freelancer, sender := user,
                  type := "CONTRACT_COMPLETED", job := some job.id })

/-- The history loop of `downloadSubmissionFile`: the first submission holding a file with
the requested url, and that file. -/
def findInHistory (fileUrl : String) : List Submission → Option FileMeta
  | [] => none
  | submission :: rest =>
    match submission.files.find? (fun f => f.url == fileUrl) with
    | some f => some f
    | none => findInHistory fileUrl rest

/-- The lookup of `fileMetadata` in `downloadSubmissionFile`: the current submission first,
then the submission history. -/
def findSubmissionFile (milestone : Milestone) (fileUrl : String) : Option FileMeta :=
  let fromCurrent :=
    match milestone.currentSubmission with
    | none => none
    | some current => current.files.find? (fun f => f.url == fileUrl)
  match fromCurrent with
  | some f => some f
  | none => findInHistory fileUrl (sortHistory milestone.submissionHistory)

/-- The controller `downloadSubmissionFile`; `inStorage url` tells whether
`getFileFromStorage(url)` finds the stored bytes. The second component is the file sent. -/
def downloadSubmissionFile (db : Db) (user contractId milestoneId : ObjectId)
    (fileId : String) (inStorage : String → Bool) : Response × Option FileMeta :=
  match db.findContract contractId with
  | none => (json 404 "Contract not found", none)
  | some contract =>
    if contract.client != user && contract.freelancer != user then
      (json 403 "Access denied", none)
    else
      match findMilestone contract.milestones milestoneId with
      | none => (json 404 "Milestone not found", none)
      | some milestone =>
        match findSubmissionFile milestone fileId with
        | none => (json 404 "File not found", none)
        | some fileMetadata =>
          if inStorage fileMetadata.url then (json 200 "", some fileMetadata)
          else (json 500 "Error sending file", none)

/-! ## Job input validation (src/utils/validation.js) -/

/-- The `budget` object of a `createJob` body. -/
structure BudgetInput where
  min : Option Int := none
  max : Option Int := none
  currency : Option String := none
  deriving DecidableEq, Repr

/-- The body of `createJob`; a field is `none` when it is absent. -/
structure JobInput where
  title : Option String := none
  description : Option String := none
  category : Option String := none
  skillsRequired : Option (List String) := none
  budget : Option BudgetInput := none
  budgetType : Option String := none
  timeline : Option String := none
  experienceLevel : Option String := none
  location : Option String := none
  deriving DecidableEq, Repr

/-- The result `{ isValid, errors }` of `validateJobInput`; `errors` lists the keys of the
object in insertion order, each with its message. -/
structure Validation where
  isValid : Bool
  errors : List (String × String)
  deriving DecidableEq, Repr

/-- The assignment `errors[field] = message` on a JavaScript object: an existing key keeps its
place and gets the new message, a new key is added at the end. -/
def setError (errors : List (String × String)) (field message : String) :
    List (String × String) :=
  if errors.any (fun e => e.1 == field) then
    errors.map (fun e => if e.1 == field then (field, message) else e)
  else errors ++ [(field, message)]

/-- The array `requiredFields` of `validateJobInput`, each name with the value of
`!jobData[field]`. -/
def requiredFields (jobData : JobInput) : List (String × Bool) :=
  [("title", falsyStr jobData.title), ("description", falsyStr jobData.description),
   ("category", falsyStr jobData.category), ("budget", jobData.budget.isNone),
   ("budgetType", falsyStr jobData.budgetType), ("timeline", falsyStr jobData.timeline),
   ("experienceLevel", falsyStr jobData.experienceLevel)]

/-- JavaScript `a < b` on numeric request values; a comparison with a missing value is
false. -/
def numLt : Option Int → Option Int → Bool
  | some a, some b => decide (a < b)
  | _, _ => false

/-- The test `value && !allowed.includes(value)`. -/
def truthyNotIn (value : Option String) (allowed : List String) : Bool :=
  match value with
  | none => false
  | some v => v != "" && !allowed.contains v

/-- The array `validCategories` of `validateJobInput`; also the `enum` of
`jobSchema.category`. -/
def validCategories : List String :=
  ["web-development", "mobile-development", "ui-ux-design", "graphic-design",
   "content-writing", "digital-marketing", "data-analysis", "video-editing", "translation",
   "virtual-assistant", "other"]

/-- The allowed values of `budgetType`. -/
def budgetTypes : List String := ["fixed", "hourly"]

/-- The allowed values of `experienceLevel`. -/
def experienceLevels : List String := ["beginner", "intermediate", "expert"]

/-- The allowed values of `timeline`. -/
def timelines : List String :=
  ["urgent", "1-week", "2-weeks", "1-month", "2-months", "3+ months"]

/-- The "Budget validation" block of `validateJobInput`. -/
def budgetErrors (errors : List (String × String)) : Option BudgetInput →
    List (String × String)
  | none => errors
  | some budget =>
    if falsyNum budget.min || falsyNum budget.max then
      setError errors "budget" "Both minimum and maximum budget are required"
    else if numLt budget.min (some 0) || numLt budget.max (some 0) then
      setError errors "budget" "Budget values cannot be negative"
    else if numLt budget.max budget.min then
      setError errors "budget" "Minimum budget cannot be greater than maximum budget"
    else errors

/-- One `if (value && !allowed.includes(value)) errors[field] = message` block. -/
def enumErrors (errors : List (String × String)) (field : String) (value : Option String)
    (allowed : List String) (message : String) : List (String × String) :=
  if truthyNotIn value allowed then setError errors field message else errors

/-- The function `validateJobInput` of utils/validation.js. -/
def validateJobInput (jobData : JobInput) : Validation :=
  let errors : List (String × String) :=
    (requiredFields jobData).foldl
      (fun errors field =>
        if field.2 then setError errors field.1 (field.1 ++ " is required") else errors) []
  let errors := budgetErrors errors jobData.budget
  let errors := enumErrors errors "budgetType" jobData.budgetType budgetTypes
    "Budget type must be either fixed or hourly"
  let errors := enumErrors errors "experienceLevel" jobData.experienceLevel experienceLevels
    "Invalid experience level"
  let errors := enumErrors errors "timeline" jobData.timeline timelines "Invalid timeline"
  let errors := enumErrors errors "category" jobData.category validCategories
    "Invalid category"
  { isValid := errors.length == 0, errors := errors }

/-- The budget test of `validateJobInput` fires for a present budget exactly when a bound is
missing or zero, a bound is negative, or the minimum exceeds the maximum. -/
def budgetRejected (budget : BudgetInput) : Bool :=
  falsyNum budget.min || falsyNum budget.max || numLt budget.min (some 0) ||
    numLt budget.max (some 0) || numLt budget.max budget.min

/-! ## Call sequences -/

/-- One request to the contract engine. -/
inductive Call where
  | createContract (user proposalId : ObjectId) (body : ContractInput)
  | fundEscrow (user contractId : ObjectId) (amount : Option Int)
  | activateContract (user contractId : ObjectId) (now : Nat)
  | addMilestone (user contractId : ObjectId) (body : MilestoneInput)
  | submitWork (user contractId milestoneId : ObjectId) (err : Option UploadError)
      (files : List UploadedFile) (comments : Option String) (now : Nat)
  | reviewSubmission (user contractId milestoneId : ObjectId) (status : String)
      (feedback : Option String) (now : Nat)
  | releasePayment (user contractId milestoneId : ObjectId)
  | completeContract (user contractId : ObjectId) (now : Nat)
  deriving DecidableEq, Repr

/-- The store after one request. -/
def step (db : Db) : Call → Db
  | .createContract user proposalId body => (createContract db user proposalId body).2
  | .fundEscrow user contractId amount => (fundEscrow db user contractId amount).2
  | .activateContract user contractId now => (activateContract db user contractId now).2
  | .addMilestone user contractId body => (addMilestone db user contractId body).2
  | .submitWork user contractId milestoneId err files comments now =>
    (submitWork db user contractId milestoneId err files comments now).2
  | .reviewSubmission user contractId milestoneId status feedback now =>
    (reviewSubmission db user contractId milestoneId status feedback now).2
  | .releasePayment user contractId milestoneId =>
    (releasePayment db user contractId milestoneId).2
  | .completeContract user contractId now => (completeContract db user contractId now).2

/-- The store after a sequence of requests, served one after the other. -/
def run (db : Db) (calls : List Call) : Db :=
  calls.foldl step db

/-- Every stored contract passes the validators of `contractSchema`. -/
def StoreValid (db : Db) : Prop :=
  ∀ c ∈ db.contracts, validContract c = true

/-! ## Jobs and proposals (src/controllers/job.controller.js, proposal.controller.js) -/

/-- The authenticated caller `req.user`. -/
structure User where
  id : ObjectId
  role : String
  deriving DecidableEq, Repr

/-- The `enum` of `jobSchema.status`. -/
def jobStatusEnum : List String := ["open", "in-progress", "completed", "cancelled", "closed"]

/-- The `enum` of `jobSchema.location`. -/
def jobLocations : List String := ["remote", "on-site", "hybrid"]

/-- The `enum` of `jobSchema.budget.currency`. -/
def jobCurrencies : List String := ["USD", "EUR", "GBP", "INR", "CAD", "AUD"]

/-- The `enum` of `proposalSchema.status`. -/
def proposalStatusEnum : List String := ["pending", "accepted", "declined", "interviewing"]

/-- The `enum` of `proposalSchema.bidAmount.currency`. -/
def proposalCurrencies : List String := ["USD", "EUR", "GBP"]

/-- The `enum` of `proposalSchema.estimatedDuration`. -/
def estimatedDurations : List String :=
  ["less-than-1-month", "1-3-months", "3-6-months", "more-than-6-months"]

/-- The `enum` of `notificationSchema.type`. -/
def notificationTypeEnum : List String :=
  ["NEW_PROPOSAL", "PROPOSAL_ACCEPTED", "PROPOSAL_REJECTED", "NEW_MESSAGE", "CONTRACT_CREATED",
   "CONTRACT_FUNDED", "CONTRACT_ACTIVATED", "MILESTONE_SUBMITTED", "MILESTONE_APPROVED",
   "MILESTONE_CHANGES_REQUESTED", "PAYMENT_RELEASED", "CONTRACT_COMPLETED", "POST_LIKED",
   "POST_COMMENTED", "POST_REACTION"]

/-- Validators of `jobSchema` (string lengths counted in characters). -/
def validJob (j : Job) : Bool :=
  j.title != "" && decide (j.title.length ≤ 100) &&
  j.description != "" && decide (j.description.length ≤ 3000) &&
  validCategories.contains j.category &&
  j.skillsRequired.all (fun skill => decide (skill.length ≤ 50)) &&
  decide (0 ≤ j.budget.min) && decide (0 ≤ j.budget.max) &&
  jobCurrencies.contains j.budget.currency && budgetTypes.contains j.budgetType &&
  timelines.contains j.timeline && experienceLevels.contains j.experienceLevel &&
  jobStatusEnum.contains j.status && jobLocations.contains j.location

/-- Validators of the `proposalSchema` paths a controller can change on a stored proposal:
the `status` enum and `clientNotes` with `maxlength: 1000`. -/
def validProposal (p : Proposal) : Bool :=
  proposalStatusEnum.contains p.status &&
  (match p.clientNotes with
   | none => true
   | some notes => decide (notes.length ≤ 1000))

/-- Validators of `notificationSchema`: the `type` enum. -/
def validNotification (n : Notification) : Bool :=
  notificationTypeEnum.contains n.type

/-- The call `notification.save()` with validation; `none` is a thrown ValidationError. -/
def Db.saveNotification (db : Db) (n : Notification) : Option Db :=
  if validNotification n then some (db.addNotification n) else none

/-- The call `proposal.save()` on a loaded proposal with validation. -/
def Db.saveProposal (db : Db) (p : Proposal) : Option Db :=
  if validProposal p then
    some { db with proposals := db.proposals.map (fun q => if q.id == p.id then p else q) }
  else none

/-- The `bidAmount` object of a `createProposal` body. -/
structure BidInput where
  amount : Option Int := none
  currency : Option String := none
  deriving DecidableEq, Repr

/-- The body of `createProposal`. -/
structure ProposalInput where
  coverLetter : Option String := none
  bidAmount : Option BidInput := none
  estimatedDuration : Option String := none
  deriving DecidableEq, Repr

/-- The body of `applyToJob`. -/
structure ApplicationInput where
  proposalText : Option String := none
  proposedBudget : Option Int := none
  estimatedDuration : Option String := none
  deriving DecidableEq, Repr

/-- Validators of `proposalSchema` on a new proposal built from the body: `coverLetter`
required with `maxlength: 3000`, `bidAmount.amount` required with `min: 0`, the currency and
`estimatedDuration` enums. -/
def validProposalInput (body : ProposalInput) : Bool :=
  match body.coverLetter, body.bidAmount, body.estimatedDuration with
  | some coverLetter, some bidAmount, some estimatedDuration =>
    coverLetter != "" && decide (coverLetter.length ≤ 3000) &&
    (match bidAmount.amount with
     | some amount => decide (0 ≤ amount)
     | none => false) &&
    (match bidAmount.currency with
     | none => true
     | some currency => proposalCurrencies.contains currency) &&
    estimatedDurations.contains estimatedDuration
  | _, _, _ => false

/-- The controller `createJob`. -/
def createJob (db : Db) (user : User) (body : JobInput) (now : Nat) : Response × Db :=
  let validation := validateJobInput body
  if !validation.isValid then
    ({ code := 400, message := "Validation failed", errors := validation.errors }, db)
  else if user.role != "client" then
    (json 403 "Only clients can post jobs", db)
  else
    match body.title, body.description, body.category, body.budget, body.budgetType,
        body.timeline, body.experienceLevel with
    | some title, some description, some category, some budget, some budgetType,
        some timeline, some experienceLevel =>
      match budget.min, budget.max with
      | some min, some max =>
        let job : Job :=
          { id := db.nextId, client := user.id, title := jsTrim title,
            description := jsTrim description, category := category,
            skillsRequired := (body.skillsRequired.getD []).map jsTrim,
            budget := { min := min, max := max, currency := budget.currency.getD "USD" },
            budgetType := budgetType, timeline := timeline,
            experienceLevel := experienceLevel,
            location := if falsyStr body.location then "remote" else body.location.getD "remote",
            createdAt := now }
        if validJob job then
          (json 201 "Job posted successfully",
            { db with jobs := db.jobs ++ [job], nextId := db.nextId + 1 })
        else (json 500 "Internal server error", db)
      | _, _ => (json 500 "Internal server error", db)
    | _, _, _, _, _, _, _ => (json 500 "Internal server error", db)

/-- The budget part of the filter of `getJobs`; `budgetMin` and `budgetMax` are
`parseInt` of the query parameters, `none` when the parameter is not supplied. -/
def budgetFilter (budgetMin budgetMax : Option Int) (job : Job) : Bool :=
  (match budgetMin with
   | none => true
   | some fmin => decide (job.budget.max ≥ fmin)) &&
  (match budgetMax with
   | none => true
   | some fmax => decide (job.budget.min ≤ fmax))

/-- The test `if (param && param !== 'all') filter.field = param` of `getJobs`. -/
def fieldFilter (param : Option String) (value : String) : Bool :=
  match param with
  | none => true
  | some p => p == "" || p == "all" || p == value

/-- The query parameters of `getJobs` that select jobs (the free-text `search` is a regular
expression match and is taken as the predicate `searchHit`). -/
structure JobQuery where
  category : Option String := none
  experienceLevel : Option String := none
  location : Option String := none
  budgetType : Option String := none
  timeline : Option String := none
  budgetMin : Option Int := none
  budgetMax : Option Int := none
  deriving DecidableEq, Repr

/-- The `filter` object built by `getJobs`, as a predicate on jobs; `acceptedJobIds` are the
jobs on which the caller holds an accepted proposal. -/
def jobFilter (query : JobQuery) (searchHit : Job → Bool) (acceptedJobIds : List ObjectId)
    (job : Job) : Bool :=
  job.status == "open" && searchHit job &&
  fieldFilter query.category job.category &&
  fieldFilter query.experienceLevel job.experienceLevel &&
  fieldFilter query.location job.location &&
  fieldFilter query.budgetType job.budgetType &&
  fieldFilter query.timeline job.timeline &&
  budgetFilter query.budgetMin query.budgetMax job &&
  !acceptedJobIds.contains job.id

/-- The controller `createProposal`. -/
def createProposal (db : Db) (user : User) (jobId : ObjectId) (body : ProposalInput) :
    Response × Db :=
  if falsyStr body.coverLetter || body.bidAmount.isNone ||
      falsyStr body.estimatedDuration then
    (json 400 "Please provide all required fields", db)
  else if user.role != "freelancer" then
    (json 403 "Only freelancers can submit proposals", db)
  else
    match db.findJob jobId with
    | none => (json 404 "Job not found", db)
    | some job =>
      if job.status != "open" then
        (json 400 "This job is no longer accepting proposals", db)
      else
        match db.proposals.find? (fun p => p.job == jobId && p.freelancer == user.id) with
        | some _ => (json 400 "You have already submitted a proposal for this job", db)
        | none =>
          if validProposalInput body then
            (json 201 "Proposal submitted successfully",
              Db.addNotification
                { db with
                  proposals := db.proposals ++
                    [{ id := db.nextId, job := jobId, freelancer := user.id }]
                  nextId := db.nextId + 1 }
                { recipient := job.client, sender := user.id, type := "NEW_PROPOSAL",
                  job := some jobId, proposal := some db.nextId })
          else (json 500 "Internal server error", db)

/-- The controller `applyToJob`. `jobSchema` declares no `applications` path, so on a loaded
job `job.applications` is `undefined` and `job.applications.find(...)` throws. -/
def applyToJob (db : Db) (user : User) (id : ObjectId) (body : ApplicationInput) :
    Response × Db :=
  if falsyStr body.proposalText || falsyNum body.proposedBudget ||
      falsyStr body.estimatedDuration then
    (json 400 "Please provide all required fields", db)
  else if user.role != "freelancer" then
    (json 403 "Only freelancers can apply to jobs", db)
  else
    match db.findJob id with
    | none => (json 404 "Job not found", db)
    | some job =>
      if job.status != "open" then
        (json 400 "This job is no longer accepting applications", db)
      else (json 500 "Internal server error", db)

/-- The controller `updateProposalStatus`. -/
def updateProposalStatus (db : Db) (user id : ObjectId) (status : String)
    (clientNotes : Option String) : Response × Db :=
  match db.findProposal id with
  | none => (json 404 "Proposal not found", db)
  | some proposal =>
    match db.findJob proposal.job with
    | none => (json 500 "Internal server error", db)
    | some job =>
      if job.client != user then
        (json 403 "You can only update status for proposals on your own jobs", db)
      else
        match db.saveProposal
            { proposal with
              status := status
              clientNotes := if falsyStr clientNotes then proposal.clientNotes
                             else clientNotes } with
        | none => (json 500 "Internal server error", db)
        | some db1 =>
          match db1.saveNotification
              { recipient := proposal.freelancer, sender := user,
                type := if status == "accepted" then "PROPOSAL_ACCEPTED"
                        else if status == "declined" then "PROPOSAL_REJECTED"
                        else "PROPOSAL_STATUS_UPDATED",
                job := some job.id, proposal := some proposal.id } with
          | none => (json 500 "Internal server error", db1)
          | some db2 => (json 200 "Proposal status updated successfully", db2)

/-- The controller `deleteProposal`. -/
def deleteProposal (db : Db) (user id : ObjectId) : Response × Db :=
  match db.findProposal id with
  | none => (json 404 "Proposal not found", db)
  | some proposal =>
    match db.findJob proposal.job with
    | none => (json 500 "Internal server error", db)
    | some job =>
      if job.client != user then
        (json 403 "You can only delete proposals for your own jobs", db)
      else
        (json 200 "Proposal deleted successfully",
          { db with proposals := db.proposals.eraseP (fun p => p.id == id) })

/-- The controller `updateJobStatus`; the save validates the `status` enum (the other paths
of the stored job are unchanged). -/
def updateJobStatus (db : Db) (user id : ObjectId) (status : Option String) :
    Response × Db :=
  match db.findJob id with
  | none => (json 404 "Job not found", db)
  | some job =>
    if job.client != user then
      (json 403 "You can only update your own jobs", db)
    else
      match status with
      | none => (json 200 "Job updated successfully", db)
      | some status =>
        if status == "" then (json 200 "Job updated successfully", db)
        else if jobStatusEnum.contains status then
          (json 200 "Job updated successfully", db.setJobStatus id status)
        else (json 500 "Internal server error", db)

/-- The controller `deleteJob`. -/
def deleteJob (db : Db) (user id : ObjectId) : Response × Db :=
  match db.findJob id with
  | none => (json 404 "Job not found", db)
  | some job =>
    if job.client != user then
      (json 403 "You can only delete your own jobs", db)
    else
      (json 200 "Job and related data deleted successfully",
        { db with
          proposals := db.proposals.filter (fun p => p.job != id)
          jobs := db.jobs.eraseP (fun j => j.id == id) })

/-- One request to the job and proposal controllers or to the contract engine. -/
inductive MarketCall where
  | createJob (user : User) (body : JobInput) (now : Nat)
  | createProposal (user : User) (jobId : ObjectId) (body : ProposalInput)
  | applyToJob (user : User) (id : ObjectId) (body : ApplicationInput)
  | updateProposalStatus (user id : ObjectId) (status : String) (clientNotes : Option String)
  | deleteProposal (user id : ObjectId)
  | updateJobStatus (user id : ObjectId) (status : Option String)
  | deleteJob (user id : ObjectId)
  | contract (call : Call)
  deriving DecidableEq, Repr

/-- The store after one request. -/
def marketStep (db : Db) : MarketCall → Db
  | .createJob user body now => (createJob db user body now).2
  | .createProposal user jobId body => (createProposal db user jobId body).2
  | .applyToJob user id body => (applyToJob db user id body).2
  | .updateProposalStatus user id status clientNotes =>
    (updateProposalStatus db user id status clientNotes).2
  | .deleteProposal user id => (deleteProposal db user id).2
  | .updateJobStatus user id status => (updateJobStatus db user id status).2
  | .deleteJob user id => (deleteJob db user id).2
  | .contract call => step db call

/-- The store after a sequence of requests, served one after the other. -/
def marketRun (db : Db) (calls : List MarketCall) : Db :=
  calls.foldl marketStep db

/-- At most one stored proposal per (job, freelancer) pair. -/
def ProposalsUnique (db : Db) : Prop :=
  (db.proposals.map (fun p => (p.job, p.freelancer))).Nodup

/-- Proposal `_id`s are unique, and each was handed out before `nextId`. -/
def ProposalIdsFresh (db : Db) : Prop :=
  (db.proposals.map (fun p => p.id)).Nodup ∧ ∀ p ∈ db.proposals, p.id < db.nextId

/-- The store `db1` holds the same proposals as `db`, up to their `status` and `clientNotes`,
and no `_id` handed out in `db` is free again in `db1`. -/
def SameProposals (db db1 : Db) : Prop :=
  db1.proposals.map (fun p => (p.id, p.job, p.freelancer)) =
    db.proposals.map (fun p => (p.id, p.job, p.freelancer)) ∧
  db.nextId ≤ db1.nextId

/-- A milestone as `createContract` and `addMilestone` build it: status "pending", an empty
history and no current submission. -/
def IsNewMilestone (m : Milestone) : Prop :=
  m.status = "pending" ∧ m.submissionHistory = [] ∧ m.currentSubmission = none

/-- The ways in which one request changes a stored milestone: not at all, `releasePayment`
on a "completed" milestone, the update of `submitWork`, the update of `reviewSubmission`. -/
inductive MilestoneNext : Call → Milestone → Milestone → Prop where
  | same (call : Call) (m : Milestone) : MilestoneNext call m m
  | paid (user contractId milestoneId : ObjectId) (m : Milestone)
      (h : m.status = "completed") :
      MilestoneNext (.releasePayment user contractId milestoneId) m { m with status := "paid" }
  | submitted (user contractId milestoneId : ObjectId) (files : List UploadedFile)
      (comments : Option String) (now : Nat) (m : Milestone) :
      MilestoneNext (.submitWork user contractId milestoneId none files comments now) m
        (submitMilestone m (savedFilesOf files) comments now)
  | reviewed (user contractId milestoneId : ObjectId) (status : String)
      (feedback : Option String) (now : Nat) (m : Milestone) (current : Submission)
      (h : m.currentSubmission = some current) :
      MilestoneNext (.reviewSubmission user contractId milestoneId status feedback now) m
        (reviewMilestone m current status feedback now)

/-- The request time `new Date()` that a `submitWork` call stamps on its submission. -/
def submitTime : Call → Option Nat
  | .submitWork _ _ _ _ _ _ now => some now
  | _ => none

/-- The request times of the `submitWork` calls of a sequence never go back, starting from
time `t`. -/
def timesOrdered : Nat → List Call → Bool
  | _, [] => true
  | t, call :: rest =>
    match submitTime call with
    | some now => decide (t ≤ now) && timesOrdered now rest
    | none => timesOrdered t rest

/-- A history is ordered newest first: the `submittedAt` of each entry is at least that of the
entry after it. -/
def NewestFirst (history : List Submission) : Prop :=
  List.Chain' (fun a b => b.submittedAt ≤ a.submittedAt) history

/-- The history of a milestone is ordered newest first, and its current submission, if any,
is at least as new as the head of the history. -/
def HistoryOrdered (m : Milestone) : Prop :=
  NewestFirst m.submissionHistory ∧
  ∀ current head, m.currentSubmission = some current →
    m.submissionHistory.head? = some head → head.submittedAt ≤ current.submittedAt

/-- The history of a milestone is ordered newest first, nothing in it is newer than the
current submission, and no submission is newer than time `t`. -/
def OrderedUpTo (t : Nat) (m : Milestone) : Prop :=
  m.submissionHistory.Pairwise (fun a b => b.submittedAt ≤ a.submittedAt) ∧
  (∀ s ∈ m.submissionHistory, s.submittedAt ≤ t) ∧
  ∀ current, m.currentSubmission = some current →
    current.submittedAt ≤ t ∧ ∀ s ∈ m.submissionHistory, s.submittedAt ≤ current.submittedAt

/-- MongoDB's default comparison of two strings (simple binary collation), on their code
points: `ltChars a b` holds when `a` sorts strictly before `b`. -/
def ltChars : List Char → List Char → Bool
  | _, [] => false
  | [], _ :: _ => true
  | x :: xs, y :: ys =>
    decide (x.toNat < y.toNat) || (x.toNat == y.toNat && ltChars xs ys)

/-- The string `a` sorts strictly before the string `b` in an ascending MongoDB sort. -/
def binaryLt (a b : String) : Bool := ltChars a.data b.data

/-- The `sortObject` that `getJobs` builds from `sortBy`, as an order on jobs:
`sortBefore sortBy a b` holds when `a` does not have to stand behind `b`. The value 'deadline'
gives `{ timeline: 1, createdAt: -1 }`; 'newest' and every unknown value give
`{ createdAt: -1 }`. -/
def sortBefore (sortBy : String) (a b : Job) : Bool :=
  if sortBy == "oldest" then decide (a.createdAt ≤ b.createdAt)
  else if sortBy == "budget-high" then decide (b.budget.max ≤ a.budget.max)
  else if sortBy == "budget-low" then decide (a.budget.min ≤ b.budget.min)
  else if sortBy == "deadline" then
    binaryLt a.timeline b.timeline ||
      (a.timeline == b.timeline && decide (b.createdAt ≤ a.createdAt))
  else decide (b.createdAt ≤ a.createdAt)

/-- Insert a job before the first job that it does not have to stand behind. -/
def insertJob (sortBy : String) (j : Job) : List Job → List Job
  | [] => [j]
  | x :: xs => if sortBefore sortBy j x then j :: x :: xs else x :: insertJob sortBy j xs

/-- The call `.sort(sortObject)`; jobs with equal sort keys keep their stored order (MongoDB
leaves their order open). -/
def sortJobs (sortBy : String) : List Job → List Job
  | [] => []
  | x :: xs => insertJob sortBy x (sortJobs sortBy xs)

/-- The `pagination` object in the answers of `getJobs` and `getMyJobs`; `totalPages` is
`none` when `Math.ceil(totalJobs / limit)` is not a finite number. -/
structure Pagination where
  currentPage : Int
  totalPages : Option Int
  totalJobs : Nat
  hasNextPage : Bool
  hasPrevPage : Bool
  deriving DecidableEq, Repr

/-- The value `Math.ceil(totalJobs / parseInt(limit))`: the quotient is a real number; for
`limit = 0` it is `Infinity` or `NaN`, given as `none`. -/
def pageCount (totalJobs : Nat) (limit : Int) : Option Int :=
  if limit = 0 then none else some ⌈(totalJobs : ℚ) / (limit : ℚ)⌉

/-- The `pagination` block of `getJobs` and `getMyJobs`; `page` and `limit` are
`parseInt(page)` and `parseInt(limit)`. With `limit = 0` the comparison
`parseInt(page) < totalPages` is against `Infinity` when there are jobs and against `NaN`
when there are none. -/
def paginationOf (page limit : Int) (totalJobs : Nat) : Pagination :=
  { currentPage := page
    totalPages := pageCount totalJobs limit
    totalJobs := totalJobs
    hasNextPage :=
      match pageCount totalJobs limit with
      | some totalPages => decide (page < totalPages)
      | none => decide (0 < totalJobs)
    hasPrevPage := decide (page > 1) }

/-- The calls `.skip((page - 1) * limit).limit(limit)` on a sorted result: MongoDB rejects a
negative skip (`none`, the controller's 500), takes `limit = 0` as no limit and a negative
limit as its absolute value. -/
def pageOf (page limit : Int) (jobs : List Job) : Option (List Job) :=
  if (page - 1) * limit < 0 then none
  else if limit = 0 then some (jobs.drop ((page - 1) * limit).toNat)
  else some ((jobs.drop ((page - 1) * limit).toNat).take limit.natAbs)

/-- The controller `getJobs`, without the `proposalCount` attached to each job: the jobs of
the requested page and the `pagination` block, or `none` for the answer 500. `user` is
`req.user._id`, `searchHit` the regular expression match of the `search` parameter. -/
def getJobs (db : Db) (user : ObjectId) (query : JobQuery) (searchHit : Job → Bool)
    (sortBy : String) (page limit : Int) : Option (List Job × Pagination) :=
  let acceptedJobIds :=
    (db.proposals.filter (fun p => p.freelancer == user && p.status == "accepted")).map
      (fun p => p.job)
  let matching := db.jobs.filter (jobFilter query searchHit acceptedJobIds)
  match pageOf page limit (sortJobs sortBy matching) with
  | none => none
  | some jobs => some (jobs, paginationOf page limit matching.length)

/-- The controller `getMyJobs`, without the proposals and contracts attached to each job: the
status code, and for 200 the jobs of the requested page and the `pagination` block. `status`
is the `status` query parameter. -/
def getMyJobs (db : Db) (user : User) (status : Option String) (page limit : Int) :
    Nat × Option (List Job × Pagination) :=
  if user.role == "" then (401, none)
  else if user.role != "client" then (403, none)
  else
    let matching := db.jobs.filter (fun job =>
      job.client == user.id && fieldFilter status job.status)
    match pageOf page limit (sortJobs "newest" matching) with
    | none => (500, none)
    | some jobs => (200, some (jobs, paginationOf page limit matching.length))

/-- The answer to one request. -/
def answer (db : Db) : Call → Response
  | .createContract user proposalId body => (createContract db user proposalId body).1
  | .fundEscrow user contractId amount => (fundEscrow db user contractId amount).1
  | .activateContract user contractId now => (activateContract db user contractId now).1
  | .addMilestone user contractId body => (addMilestone db user contractId body).1
  | .submitWork user contractId milestoneId err files comments now =>
    (submitWork db user contractId milestoneId err files comments now).1
  | .reviewSubmission user contractId milestoneId status feedback now =>
    (reviewSubmission db user contractId milestoneId status feedback now).1
  | .releasePayment user contractId milestoneId =>
    (releasePayment db user contractId milestoneId).1
  | .completeContract user contractId now => (completeContract db user contractId now).1

/-- The answers to a sequence of requests, served one after the other. -/
def answers : Db → List Call → List Response
  | _, [] => []
  | db, call :: rest => answer db call :: answers (step db call) rest

/-- A milestone has a current submission exactly when its status is "submitted". -/
def CurrentIffSubmitted (m : Milestone) : Prop :=
  m.currentSubmission ≠ none ↔ m.status = "submitted"

/-! ## Example store -/

/-- A contract with one paid, one completed and one pending milestone. -/
def sampleContract : Contract :=
  { id := 10, job := 1, proposal := 2, client := 100, freelancer := 200,
    title := "Landing page", scope := "Design and build", totalAmount := 150,
    status := "funded", escrowBalance := 150, terms := "Net 30",
    milestones :=
      [{ id := 11, title := "Design", description := "Mockups", amount := 100, dueDate := 500,
         status := "paid" },
       { id := 12, title := "Build", description := "Pages", amount := 50, dueDate := 900,
         status := "completed" },
       { id := 13, title := "Launch", description := "Deploy", amount := 0, dueDate := 950 }] }

/-- A store holding `sampleContract`, its job and its proposal. -/
def sampleDb : Db :=
  { jobs := [{ id := 1, client := 100, title := "Landing page", status := "in-progress" }],
    proposals := [{ id := 2, job := 1, freelancer := 200, status := "accepted" }],
    contracts := [sampleContract],
    nextId := 20 }

/-- A store with one job and one pending proposal, and no contract yet. -/
def freshDb : Db :=
  { jobs := [{ id := 1, client := 100, title := "Landing page" }],
    proposals := [{ id := 2, job := 1, freelancer := 200 }],
    nextId := 10 }

/-- A well-formed `createContract` body with one milestone of amount 50. -/
def sampleBody : ContractInput :=
  { title := some "Landing page", scope := some "Design and build", totalAmount := some 50,
    terms := some "Net 30",
    milestones := some
      [{ title := some "Design", description := some "Mockups", amount := some 50,
         dueDate := some 500 }] }

/-- Create a contract, fund 30, submit and approve the milestone of amount 50, then try to
release it. -/
def overdrawCalls : List Call :=
  [.createContract 100 2 sampleBody, .fundEscrow 100 10 (some 30),
   .submitWork 200 10 11 none [] (some "done") 1000,
   .reviewSubmission 100 10 11 "approved" none 2000, .releasePayment 100 10 11]

/-- The contract stored after `overdrawCalls`: the release was refused, the balance is still
30 and the milestone still "completed". -/
def overdrawnContract : Contract :=
  { id := 10, job := 1, proposal := 2, client := 100, freelancer := 200,
    title := "Landing page", scope := "Design and build", totalAmount := 50,
    status := "funded", escrowBalance := 30, terms := "Net 30",
    milestones :=
      [{ id := 11, title := "Design", description := "Mockups", amount := 50, dueDate := 500,
         status := "completed",
         submissionHistory :=
           [{ files := [], comments := "done", submittedAt := 1000, status := "approved",
              feedbackAt := some 2000 }] }] }

/-- The contract of `freshDb` right after `createContract`: status "draft", balance 0. -/
def draftContract : Contract :=
  { id := 10, job := 1, proposal := 2, client := 100, freelancer := 200,
    title := "Landing page", scope := "Design and build", totalAmount := 50, terms := "Net 30",
    milestones :=
      [{ id := 11, title := "Design", description := "Mockups", amount := 50, dueDate := 500 }] }

/-- The store after `createContract freshDb 100 2 sampleBody`. -/
def draftDb : Db :=
  { jobs := [{ id := 1, client := 100, title := "Landing page", status := "in-progress" }],
    proposals := [{ id := 2, job := 1, freelancer := 200, status := "accepted" }],
    contracts := [draftContract],
    nextId := 12 }

/-- The body `sampleBody` with a space in front of the milestone title. -/
def paddedBody : ContractInput :=
  { sampleBody with
    milestones := some
      [{ title := some " Design", description := some "Mockups", amount := some 50,
         dueDate := some 500 }] }

/-- What `createContract` stores for one requested milestone: the requested values, the title
trimmed by the schema, status "pending", no submission. -/
def MilestoneBuilt (requested : MilestoneInput) (m : Milestone) : Prop :=
  requested.title.map jsTrim = some m.title ∧ requested.description = some m.description ∧
  requested.amount = some m.amount ∧ requested.dueDate = some m.dueDate ∧
  m.status = "pending" ∧ m.currentSubmission = none ∧ m.submissionHistory = []

/-- The submission made by the third call of `overdrawCalls`. -/
def pendingSubmission : Submission :=
  { files := [], comments := "done", submittedAt := 1000 }

/-- The milestone of `draftContract` after that submission. -/
def submittedMilestone : Milestone :=
  { id := 11, title := "Design", description := "Mockups", amount := 50, dueDate := 500,
    status := "submitted", currentSubmission := some pendingSubmission }

/-- The contract stored after the first three calls of `overdrawCalls`. -/
def submittedContract : Contract :=
  { draftContract with
    status := "funded", escrowBalance := 30, milestones := [submittedMilestone] }

/-- The store after the first three calls of `overdrawCalls`. -/
def submittedDb : Db :=
  run freshDb (overdrawCalls.take 3)

/-- A contract with two milestones of which one is paid and the other only completed. -/
def nearlyPaidContract : Contract :=
  { id := 30, job := 1, proposal := 2, client := 100, freelancer := 200,
    title := "Landing page", scope := "Design and build", totalAmount := 150,
    status := "active", escrowBalance := 50, terms := "Net 30",
    milestones :=
      [{ id := 31, title := "Design", description := "Mockups", amount := 100, dueDate := 500,
         status := "paid" },
       { id := 32, title := "Build", description := "Pages", amount := 50, dueDate := 900,
         status := "completed" }] }

/-- The contract `nearlyPaidContract` after the second milestone was paid as well. -/
def paidContract : Contract :=
  { nearlyPaidContract with
    id := 40, escrowBalance := 0,
    milestones :=
      [{ id := 41, title := "Design", description := "Mockups", amount := 100, dueDate := 500,
         status := "paid" },
       { id := 42, title := "Build", description := "Pages", amount := 50, dueDate := 900,
         status := "paid" }] }

/-- A store holding `nearlyPaidContract` and `paidContract`. -/
def paidDb : Db :=
  { jobs := [{ id := 1, client := 100, title := "Landing page", status := "in-progress" }],
    proposals := [{ id := 2, job := 1, freelancer := 200, status := "accepted" }],
    contracts := [nearlyPaidContract, paidContract],
    nextId := 50 }

/-- An upload of two files: the first is stored under the id "f1", the second fails. -/
def mixedUpload : List UploadedFile :=
  [{ originalname := "mockup.png", mimetype := "image/png", size := 2048,
     saveOutcome := some "f1" },
   { originalname := "notes.txt", mimetype := "text/plain", size := 120,
     saveOutcome := none }]

/-- A current submission holding the file "f2". -/
def archiveCurrent : Submission :=
  { files := [{ filename := "final.png", url := "f2", mimetype := "image/png", size := 30 }],
    comments := "third", submittedAt := 3000 }

/-- A milestone whose history has a newer entry with "f1" and an older one with "f1" and
"f2". -/
def archiveMilestone : Milestone :=
  { id := 61, title := "Design", description := "Mockups", amount := 50, dueDate := 500,
    status := "submitted", currentSubmission := some archiveCurrent,
    submissionHistory :=
      [{ files := [{ filename := "second.png", url := "f1", mimetype := "image/png",
                     size := 20 }],
         comments := "second", submittedAt := 2000, status := "changes_requested" },
       { files := [{ filename := "first.png", url := "f1", mimetype := "image/png",
                     size := 10 },
                   { filename := "draft.png", url := "f2", mimetype := "image/png",
                     size := 11 }],
         comments := "first", submittedAt := 1000, status := "changes_requested" }] }

/-- A contract holding `archiveMilestone`. -/
def archiveContract : Contract :=
  { id := 60, job := 1, proposal := 2, client := 100, freelancer := 200,
    title := "Landing page", scope := "Design and build", totalAmount := 50,
    status := "active", escrowBalance := 50, terms := "Net 30",
    milestones := [archiveMilestone] }

/-- A store holding `archiveContract`. -/
def archiveDb : Db :=
  { jobs := [{ id := 1, client := 100, title := "Landing page", status := "in-progress" }],
    proposals := [{ id := 2, job := 1, freelancer := 200, status := "accepted" }],
    contracts := [archiveContract],
    nextId := 70 }

/-- A well-formed `createJob` body whose budget range starts at 0. -/
def zeroMinJob : JobInput :=
  { title := some "Landing page", description := some "Design and build a landing page",
    category := some "web-development", budget := some { min := some 0, max := some 500 },
    budgetType := some "fixed", timeline := some "1-month",
    experienceLevel := some "intermediate" }

/-- A `createJob` body without a title and with the budget range from 0 to 500; the other
fields are well-formed. -/
def untitledJob : JobInput :=
  { description := some "Design and build a landing page", category := some "web-development",
    budget := some { min := some 0, max := some 500 }, budgetType := some "fixed",
    timeline := some "1-month", experienceLevel := some "intermediate" }

/-- A `createContract` body whose only milestone has the amount 0. -/
def zeroAmountBody : ContractInput :=
  { sampleBody with
    totalAmount := some 0
    milestones := some
      [{ title := some "Kickoff", description := some "Meeting", amount := some 0,
         dueDate := some 500 }] }

/-- A store with one open job of client 100 and no proposal. -/
def openJobDb : Db :=
  { jobs := [{ id := 1, client := 100, title := "Landing page" }], nextId := 2 }

/-- The freelancer with `_id` 200. -/
def freelancerF : User := { id := 200, role := "freelancer" }

/-- A complete `createProposal` body. -/
def proposalBody : ProposalInput :=
  { coverLetter := some "I have built many landing pages",
    bidAmount := some { amount := some 400 },
    estimatedDuration := some "less-than-1-month" }

/-- A complete `applyToJob` body. -/
def applicationBody : ApplicationInput :=
  { proposalText := some "I have built many landing pages", proposedBudget := some 400,
    estimatedDuration := some "less-than-1-month" }

/-- The store `openJobDb` after the application of `freelancerF` to job 1. -/
def appliedDb : Db :=
  { jobs := [{ id := 1, client := 100, title := "Landing page" }],
    proposals := [{ id := 2, job := 1, freelancer := 200 }],
    notifications :=
      [{ recipient := 100, sender := 200, type := "NEW_PROPOSAL", job := some 1,
         proposal := some 2 }],
    nextId := 3 }

/-- The freelancer of `draftContract` submits at time 1000, the client asks for changes, the
freelancer submits again at time 2000 and once more at time 3000. -/
def historyCalls : List Call :=
  [.submitWork 200 10 11 none [] (some "first") 1000,
   .reviewSubmission 100 10 11 "changes_requested" (some "more contrast") 1500,
   .submitWork 200 10 11 none [] (some "second") 2000,
   .submitWork 200 10 11 none [] (some "third") 3000]

/-- A job as `createJob` stores it: every required field is set and valid. -/
def postedJob : Job :=
  { id := 1, client := 100, title := "Landing page",
    description := "Design and build a landing page", category := "web-development",
    budget := { min := 100, max := 500 }, budgetType := "fixed", timeline := "1-month",
    experienceLevel := "intermediate", createdAt := 100 }

/-- A store holding `postedJob`, still open, and a pending proposal of freelancer 200. -/
def postedDb : Db :=
  { jobs := [postedJob], proposals := [{ id := 2, job := 1, freelancer := 200 }],
    nextId := 10 }

/-- Another freelancer, with `_id` 300. -/
def freelancerG : User := { id := 300, role := "freelancer" }

/-- An `addMilestone` body whose title has a space in front and behind. -/
def paddedMilestone : MilestoneInput :=
  { title := some " Launch ", description := some "Deploy", amount := some 20,
    dueDate := some 900 }

/-- An open job with timeline "urgent", posted at time 300. -/
def urgentJob : Job := { postedJob with id := 3, timeline := "urgent", createdAt := 300 }

/-- An open job with timeline "1-week", posted at time 200. -/
def weekJob : Job := { postedJob with id := 4, timeline := "1-week", createdAt := 200 }

/-- A store with the two open jobs `urgentJob` and `weekJob`. -/
def deadlineDb : Db := { jobs := [urgentJob, weekJob], nextId := 10 }

/-- Create a contract with one milestone of amount 50, fund 100, then twice: submit work,
approve it and release the payment of the same milestone. -/
def doubleReleaseCalls : List Call :=
  [.createContract 100 2 sampleBody, .fundEscrow 100 10 (some 100),
   .submitWork 200 10 11 none [] (some "done") 1000,
   .reviewSubmission 100 10 11 "approved" none 2000, .releasePayment 100 10 11,
   .submitWork 200 10 11 none [] (some "once more") 3000,
   .reviewSubmission 100 10 11 "approved" none 4000, .releasePayment 100 10 11]

/-- A `createContract` body without milestones. -/
def emptyBody : ContractInput :=
  { title := some "Landing page", scope := some "Design and build", totalAmount := some 50,
    terms := some "Net 30", milestones := some [] }

/-- The store `draftDb` after its client has deleted job 1 with `deleteJob`: the contract 10
is still stored, its job is not. -/
def orphanDb : Db := (deleteJob draftDb 100 1).2

/-! ## Store lemmas -/

theorem find_id_eq {cs : List Contract} {c : Contract} {id : ObjectId}
    (h : cs.find? (fun x => x.id == id) = some c) : c.id = id := by
  have := List.find?_some h
  simpa using this

theorem find_updateContract (cs : List Contract) (c c1 : Contract) (id : ObjectId)
    (h : cs.find? (fun x => x.id == id) = some c) (hid : c1.id = id) :
    (updateContract cs c1).find? (fun x => x.id == id) = some c1 := by
  induction cs with
  | nil => simp at h
  | cons x xs ih =>
    by_cases hx : x.id = id
    · simp [updateContract, hx, hid]
    · have hx1 : ¬ x.id = c1.id := by rw [hid]; exact hx
      have h1 : xs.find? (fun x => x.id == id) = some c := by
        simpa [List.find?_cons, hx] using h
      simp [updateContract, hx, hx1, ih h1]

theorem findContract_setJobStatus (db : Db) (j : ObjectId) (s : String) (id : ObjectId) :
    (db.setJobStatus j s).findContract id = db.findContract id := rfl

theorem findContract_addNotification (db : Db) (n : Notification) (id : ObjectId) :
    (db.addNotification n).findContract id = db.findContract id := rfl

theorem findContract_setProposalStatus (db : Db) (p : ObjectId) (s : String) (id : ObjectId) :
    (db.setProposalStatus p s).findContract id = db.findContract id := rfl

theorem saveContract_of_valid (db : Db) (c : Contract) (hv : validContract c = true) :
    db.saveContract c = some { db with contracts := updateContract db.contracts c } := by
  simp [Db.saveContract, hv]

theorem saveContract_of_invalid (db : Db) (c : Contract) (hv : validContract c = false) :
    db.saveContract c = none := by
  simp [Db.saveContract, hv]

theorem findContract_saved (db : Db) (c c1 : Contract) (id : ObjectId)
    (h : db.findContract id = some c) (hid : c1.id = c.id) :
    Db.findContract { db with contracts := updateContract db.contracts c1 } id = some c1 :=
  find_updateContract db.contracts c c1 id h (hid.trans (find_id_eq h))

theorem saveContract_spec (db : Db) (c c1 : Contract) (id : ObjectId)
    (h : db.findContract id = some c) (hid : c1.id = c.id) (hv : validContract c1 = true) :
    ∃ db1, db.saveContract c1 = some db1 ∧ db1.findContract id = some c1 :=
  ⟨_, saveContract_of_valid db c1 hv, findContract_saved db c c1 id h hid⟩

theorem findMilestone_id_eq {ms : List Milestone} {m : Milestone} {id : ObjectId}
    (h : findMilestone ms id = some m) : m.id = id := by
  have := List.find?_some h
  simpa using this

/-- The milestone found by `milestones.id(id)` splits the list, and writing it back replaces
exactly that element. -/
theorem setMilestone_split (ms : List Milestone) (id : ObjectId) (m : Milestone)
    (h : findMilestone ms id = some m) :
    ∃ pre post, ms = pre ++ m :: post ∧ (∀ x ∈ pre, x.id ≠ id) ∧
      ∀ m1, setMilestone ms id m1 = pre ++ m1 :: post := by
  induction ms with
  | nil => simp [findMilestone] at h
  | cons x xs ih =>
    by_cases hx : x.id = id
    · have hxm : x = m := by simpa [findMilestone, List.find?_cons, hx] using h
      exact ⟨[], xs, by simp [hxm], by simp, fun m1 => by simp [setMilestone, hx]⟩
    · have h1 : findMilestone xs id = some m := by
        simpa [findMilestone, List.find?_cons, hx] using h
      obtain ⟨pre, post, hms, hpre, hset⟩ := ih h1
      refine ⟨x :: pre, post, by simp [hms], ?_, fun m1 => by simp [setMilestone, hx, hset m1]⟩
      intro y hy
      rcases List.mem_cons.mp hy with rfl | hy
      · exact hx
      · exact hpre y hy

theorem findMilestone_setMilestone (ms : List Milestone) (id : ObjectId) (m m1 : Milestone)
    (h : findMilestone ms id = some m) (hid : m1.id = id) :
    findMilestone (setMilestone ms id m1) id = some m1 := by
  induction ms with
  | nil => simp [findMilestone] at h
  | cons x xs ih =>
    by_cases hx : x.id = id
    · simp [setMilestone, findMilestone, hx, hid]
    · have h1 : findMilestone xs id = some m := by
        simpa [findMilestone, List.find?_cons, hx] using h
      have := ih h1
      simp only [findMilestone] at this
      simp [setMilestone, findMilestone, hx, this]

theorem saveContract_some {db db1 : Db} {c1 : Contract} (h : db.saveContract c1 = some db1) :
    validContract c1 = true ∧ db1 = { db with contracts := updateContract db.contracts c1 } := by
  unfold Db.saveContract at h
  split at h
  · rename_i hv
    exact ⟨hv, by simpa using h.symm⟩
  · simp at h

theorem find_updateContract_ne (cs : List Contract) (c1 : Contract) (id : ObjectId)
    (hne : c1.id ≠ id) :
    (updateContract cs c1).find? (fun x => x.id == id) = cs.find? (fun x => x.id == id) := by
  induction cs with
  | nil => rfl
  | cons x xs ih =>
    by_cases hx : x.id = c1.id
    · have hx1 : ¬ x.id = id := by rw [hx]; exact hne
      simp [updateContract, hx, hx1, hne]
    · by_cases hx2 : x.id = id
      · have hx3 : ¬ id = c1.id := fun e => hne e.symm
        simp [updateContract, hx2, hx3]
      · simp [updateContract, hx, hx2, ih]

/-- A successful `save()` of a loaded contract rewrites that contract and nothing else. -/
theorem saveContract_frame (db : Db) (c c1 : Contract) (id : ObjectId)
    (h : db.findContract id = some c) (hid : c1.id = c.id) (hv : validContract c1 = true) :
    ∃ db1, db.saveContract c1 = some db1 ∧ db1.findContract id = some c1 ∧
      (∀ other, other ≠ id → db1.findContract other = db.findContract other) ∧
      db1.jobs = db.jobs ∧ db1.proposals = db.proposals ∧
      db1.notifications = db.notifications ∧ db1.nextId = db.nextId := by
  refine ⟨_, saveContract_of_valid db c1 hv, findContract_saved db c c1 id h hid, ?_,
    rfl, rfl, rfl, rfl⟩
  intro other hne
  have hc1 : c1.id ≠ other := by
    rw [hid, find_id_eq h]
    exact fun e => hne e.symm
  exact find_updateContract_ne db.contracts c1 other hc1

/-! ## completeContract -/

theorem valid_completed (c : Contract) (now : Nat) (hv : validContract c = true) :
    validContract { c with status := "completed", endDate := some now } = true := by
  simp only [validContract, Bool.and_eq_true] at hv ⊢
  refine ⟨⟨⟨hv.1.1.1, ?_⟩, hv.1.2⟩, hv.2⟩
  decide

/-- C1: for an existing (schema-valid) contract and its client as caller, `completeContract`
answers the 400 state error exactly when some milestone is not "paid"; when every milestone
is paid the stored contract becomes the old one with status "completed" and `endDate = now`
(answer 200 when the job document still exists); when some milestone is unpaid, in particular
when all but one are paid, the answer is the 400 state error and the store is unchanged. -/
theorem completeContract_iff_all_paid (db : Db) (user contractId : ObjectId) (now : Nat)
    (c : Contract) (hfind : db.findContract contractId = some c) (hclient : c.client = user)
    (hvalid : validContract c = true) :
    ((completeContract db user contractId now).1.code ≠ 400 ↔
        ∀ m ∈ c.milestones, m.status = "paid") ∧
    ((∀ m ∈ c.milestones, m.status = "paid") →
        (completeContract db user contractId now).2.findContract contractId =
            some { c with status := "completed", endDate := some now } ∧
        (∀ job, db.findJob c.job = some job →
          (completeContract db user contractId now).1 =
            json 200 "Contract completed successfully")) ∧
    ((∃ m ∈ c.milestones, m.status ≠ "paid") →
        completeContract db user contractId now =
          (json 400 "All milestones must be completed and paid before completing the contract",
            db)) := by
  subst hclient
  obtain ⟨db1, hsave, hstored⟩ := saveContract_spec db c
    { c with status := "completed", endDate := some now } contractId hfind rfl
    (valid_completed c now hvalid)
  by_cases hall : ∀ m ∈ c.milestones, m.status = "paid"
  · have hall1 : c.milestones.all (fun milestone => milestone.status == "paid") = true := by
      simpa using hall
    have hrun : completeContract db c.client contractId now =
        match db.findJob c.job with
        | none => (json 500 "Error completing contract", db1)
        | some job => (json 200 "Contract completed successfully",
            (db1.setJobStatus job.id "completed").addNotification
              { recipient := c.freelancer, sender := c.client,
                type := "CONTRACT_COMPLETED", job := some job.id }) := by
      simp [completeContract, hfind, hall1, hsave]
    refine ⟨⟨fun _ => hall, fun _ => ?_⟩, fun _ => ⟨?_, ?_⟩, ?_⟩
    · rw [hrun]; cases db.findJob c.job <;> simp [json]
    · rw [hrun]
      cases db.findJob c.job with
      | none => exact hstored
      | some job =>
        simp only [findContract_addNotification, findContract_setJobStatus]
        exact hstored
    · intro job hjob
      rw [hrun, hjob]
    · rintro ⟨m, hm, hne⟩
      exact absurd (hall m hm) hne
  · have hall1 : c.milestones.all (fun milestone => milestone.status == "paid") = false := by
      rw [Bool.eq_false_iff]
      simpa using hall
    have hrun : completeContract db c.client contractId now =
        (json 400 "All milestones must be completed and paid before completing the contract",
          db) := by
      simp [completeContract, hfind, hall1]
    refine ⟨⟨fun h => ?_, fun h => absurd h hall⟩, fun h => absurd h hall, fun _ => hrun⟩
    rw [hrun] at h
    simp [json] at h

/-- Witness for C1: in `paidDb` the contract 30 has one of its two milestones paid and
completing it is answered with the state error, the store unchanged; the contract 40 has both
paid and is stored as completed. -/
theorem completeContract_iff_all_paid_witness :
    paidDb.findContract 30 = some nearlyPaidContract ∧
    validContract nearlyPaidContract = true ∧
    completeContract paidDb 100 30 7000 =
      (json 400 "All milestones must be completed and paid before completing the contract",
        paidDb) ∧
    paidDb.findContract 40 = some paidContract ∧
    (completeContract paidDb 100 40 7000).2.findContract 40 =
      some { paidContract with status := "completed", endDate := some 7000 } :=
  ⟨by decide, by decide,
    (completeContract_iff_all_paid paidDb 100 30 7000 nearlyPaidContract (by decide) rfl
      (by decide)).2.2
      ⟨{ id := 32, title := "Build", description := "Pages", amount := 50, dueDate := 900,
         status := "completed" }, by simp [nearlyPaidContract], by decide⟩,
    by decide,
    ((completeContract_iff_all_paid paidDb 100 40 7000 paidContract (by decide) rfl
      (by decide)).2.1 (by decide)).1⟩

/-! ## releasePayment -/

/-- C2: for an existing contract, its client as caller and an existing milestone,
`releasePayment` answers 200 only if the milestone's status is "completed"; for every other
status it answers the 400 state error and the store (escrow balance and every milestone
status included) is unchanged. -/
theorem releasePayment_requires_completed (db : Db) (user contractId milestoneId : ObjectId)
    (c : Contract) (m : Milestone) (hfind : db.findContract contractId = some c)
    (hclient : c.client = user) (hm : findMilestone c.milestones milestoneId = some m) :
    ((releasePayment db user contractId milestoneId).1.code = 200 → m.status = "completed") ∧
    (m.status ≠ "completed" →
      releasePayment db user contractId milestoneId =
        (json 400 "Milestone must be completed before releasing payment", db)) := by
  subst hclient
  have hrej : m.status ≠ "completed" →
      releasePayment db c.client contractId milestoneId =
        (json 400 "Milestone must be completed before releasing payment", db) := by
    intro hs
    simp [releasePayment, hfind, hm, hs]
  refine ⟨fun hok => ?_, hrej⟩
  by_contra hs
  rw [hrej hs] at hok
  simp [json] at hok

/-- Witness for C2: milestone 13 of `sampleContract` is "pending"; releasing it is answered
with the state error and nothing is written. -/
theorem releasePayment_requires_completed_witness :
    sampleDb.findContract 10 = some sampleContract ∧
    releasePayment sampleDb 100 10 13 =
      (json 400 "Milestone must be completed before releasing payment", sampleDb) :=
  ⟨by decide,
    (releasePayment_requires_completed sampleDb 100 10 13 sampleContract
      { id := 13, title := "Launch", description := "Deploy", amount := 0, dueDate := 950 }
      (by decide) rfl (by decide)).2 (by decide)⟩

/-- C4: when `releasePayment` answers 200 for milestone `m`, the stored contract afterwards
is the old one except that `escrowBalance` is lowered by `m.amount` and `m` has status
"paid"; the milestones before and after `m`, the contract status and `totalAmount` are as
before. -/
theorem releasePayment_effect (db : Db) (user contractId milestoneId : ObjectId)
    (c : Contract) (m : Milestone) (hfind : db.findContract contractId = some c)
    (hm : findMilestone c.milestones milestoneId = some m)
    (hok : (releasePayment db user contractId milestoneId).1.code = 200) :
    ∃ pre post c1, c.milestones = pre ++ m :: post ∧ (∀ x ∈ pre, x.id ≠ milestoneId) ∧
      (releasePayment db user contractId milestoneId).2.findContract contractId = some c1 ∧
      c1 = { c with
             escrowBalance := c.escrowBalance - m.amount
             milestones := pre ++ { m with status := "paid" } :: post } ∧
      c1.escrowBalance = c.escrowBalance - m.amount ∧ c1.status = c.status ∧
      c1.totalAmount = c.totalAmount ∧
      findMilestone c1.milestones milestoneId = some { m with status := "paid" } := by
  obtain ⟨pre, post, hsplit, hpre, hset⟩ := setMilestone_split c.milestones milestoneId m hm
  have hfm := findMilestone_setMilestone c.milestones milestoneId m { m with status := "paid" }
    hm (findMilestone_id_eq hm : m.id = milestoneId)
  by_cases hcl : c.client = user
  swap
  · simp [releasePayment, hfind, hcl, json] at hok
  subst hcl
  by_cases hs : m.status = "completed"
  swap
  · simp [releasePayment, hfind, hm, hs, json] at hok
  cases hsave : db.saveContract
      { c with
        escrowBalance := c.escrowBalance - m.amount
        milestones := setMilestone c.milestones milestoneId { m with status := "paid" } } with
  | none => simp [releasePayment, hfind, hm, hs, hsave, json] at hok
  | some db1 =>
    cases hjob : db.findJob c.job with
    | none => simp [releasePayment, hfind, hm, hs, hsave, hjob, json] at hok
    | some job =>
      obtain ⟨_, hdb1⟩ := saveContract_some hsave
      have hstored : db1.findContract contractId = some
          { c with
            escrowBalance := c.escrowBalance - m.amount
            milestones := setMilestone c.milestones milestoneId { m with status := "paid" } } := by
        rw [hdb1]
        exact findContract_saved db c _ contractId hfind rfl
      refine ⟨pre, post,
        { c with
          escrowBalance := c.escrowBalance - m.amount
          milestones := setMilestone c.milestones milestoneId { m with status := "paid" } },
        hsplit, hpre, ?_, ?_, rfl, rfl, rfl, hfm⟩
      · simp [releasePayment, hfind, hm, hs, hsave, hjob, findContract_addNotification, hstored]
      · rw [hset]

/-- Witness for C4: releasing the completed milestone 12 (amount 50) of `sampleContract`
lowers the escrow balance from 150 to 100 and marks the milestone "paid". -/
theorem releasePayment_effect_witness :
    (releasePayment sampleDb 100 10 12).1.code = 200 ∧
    ∃ pre post c1, sampleContract.milestones = pre ++
        ({ id := 12, title := "Build", description := "Pages", amount := 50, dueDate := 900,
           status := "completed" } : Milestone) :: post ∧
      (∀ x ∈ pre, x.id ≠ 12) ∧
      (releasePayment sampleDb 100 10 12).2.findContract 10 = some c1 ∧
      c1 = { sampleContract with
             escrowBalance := sampleContract.escrowBalance - 50
             milestones := pre ++
               ({ id := 12, title := "Build", description := "Pages", amount := 50,
                  dueDate := 900, status := "paid" } : Milestone) :: post } ∧
      c1.escrowBalance = sampleContract.escrowBalance - 50 ∧ c1.status = sampleContract.status ∧
      c1.totalAmount = sampleContract.totalAmount ∧
      findMilestone c1.milestones 12 = some
        { id := 12, title := "Build", description := "Pages", amount := 50, dueDate := 900,
          status := "paid" } :=
  ⟨by decide,
    releasePayment_effect sampleDb 100 10 12 sampleContract
      { id := 12, title := "Build", description := "Pages", amount := 50, dueDate := 900,
        status := "completed" } (by decide) (by decide) (by decide)⟩

/-! ## Validity of the stored contracts -/

theorem mem_updateContract {cs : List Contract} {c1 x : Contract}
    (h : x ∈ updateContract cs c1) : x ∈ cs ∨ x = c1 := by
  induction cs with
  | nil => simp [updateContract] at h
  | cons y ys ih =>
    unfold updateContract at h
    split at h
    · rcases List.mem_cons.mp h with rfl | h
      · exact Or.inr rfl
      · exact Or.inl (List.mem_cons_of_mem _ h)
    · rcases List.mem_cons.mp h with rfl | h
      · exact Or.inl (List.mem_cons_self _ _)
      · rcases ih h with h | h
        · exact Or.inl (List.mem_cons_of_mem _ h)
        · exact Or.inr h

theorem storeValid_save {db db1 : Db} {c1 : Contract} (hv : StoreValid db)
    (h : db.saveContract c1 = some db1) : StoreValid db1 := by
  obtain ⟨hc1, rfl⟩ := saveContract_some h
  intro x hx
  rcases mem_updateContract hx with hx | rfl
  · exact hv x hx
  · exact hc1

theorem storeValid_insert {db db1 : Db} {c1 : Contract} (hv : StoreValid db)
    (h : db.insertContract c1 = some db1) : StoreValid db1 := by
  unfold Db.insertContract at h
  split at h
  · rename_i hc1
    have hdb1 : db1.contracts = db.contracts ++ [c1] := by
      simp only [Option.some.injEq] at h
      rw [← h]
    intro x hx
    rw [hdb1] at hx
    rcases List.mem_append.mp hx with hx | hx
    · exact hv x hx
    · rw [List.mem_singleton.mp hx]; exact hc1
  · simp at h

theorem storeValid_of_contracts {db db1 : Db} (hv : StoreValid db)
    (h : db1.contracts = db.contracts) : StoreValid db1 := by
  intro x hx
  rw [h] at hx
  exact hv x hx

theorem storeValid_createContract (db : Db) (user proposalId : ObjectId) (body : ContractInput)
    (hv : StoreValid db) : StoreValid (createContract db user proposalId body).2 := by
  unfold createContract
  repeat' (first | split | dsimp only)
  all_goals first
    | exact hv
    | (have h1 := storeValid_insert hv (by assumption); exact storeValid_of_contracts h1 rfl)

theorem storeValid_fundEscrow (db : Db) (user contractId : ObjectId) (amount : Option Int)
    (hv : StoreValid db) : StoreValid (fundEscrow db user contractId amount).2 := by
  unfold fundEscrow
  repeat' (first | split | dsimp only)
  all_goals first
    | exact hv
    | (have h1 := storeValid_save hv (by assumption); exact storeValid_of_contracts h1 rfl)

theorem storeValid_activateContract (db : Db) (user contractId : ObjectId) (now : Nat)
    (hv : StoreValid db) : StoreValid (activateContract db user contractId now).2 := by
  unfold activateContract
  repeat' (first | split | dsimp only)
  all_goals first
    | exact hv
    | (have h1 := storeValid_save hv (by assumption); exact storeValid_of_contracts h1 rfl)

theorem storeValid_addMilestone (db : Db) (user contractId : ObjectId) (body : MilestoneInput)
    (hv : StoreValid db) : StoreValid (addMilestone db user contractId body).2 := by
  unfold addMilestone
  repeat' (first | split | dsimp only)
  all_goals first
    | exact hv
    | (have h1 := storeValid_save hv (by assumption); exact storeValid_of_contracts h1 rfl)

theorem storeValid_submitWork (db : Db) (user contractId milestoneId : ObjectId)
    (err : Option UploadError) (files : List UploadedFile) (comments : Option String)
    (now : Nat) (hv : StoreValid db) :
    StoreValid (submitWork db user contractId milestoneId err files comments now).2 := by
  unfold submitWork
  repeat' (first | split | dsimp only)
  all_goals first
    | exact hv
    | (have h1 := storeValid_save hv (by assumption); exact storeValid_of_contracts h1 rfl)

theorem storeValid_reviewSubmission (db : Db) (user contractId milestoneId : ObjectId)
    (status : String) (feedback : Option String) (now : Nat) (hv : StoreValid db) :
    StoreValid (reviewSubmission db user contractId milestoneId status feedback now).2 := by
  unfold reviewSubmission
  repeat' (first | split | dsimp only)
  all_goals first
    | exact hv
    | (have h1 := storeValid_save hv (by assumption); exact storeValid_of_contracts h1 rfl)

theorem storeValid_releasePayment (db : Db) (user contractId milestoneId : ObjectId)
    (hv : StoreValid db) : StoreValid (releasePayment db user contractId milestoneId).2 := by
  unfold releasePayment
  repeat' (first | split | dsimp only)
  all_goals first
    | exact hv
    | (have h1 := storeValid_save hv (by assumption); exact storeValid_of_contracts h1 rfl)

theorem storeValid_completeContract (db : Db) (user contractId : ObjectId) (now : Nat)
    (hv : StoreValid db) : StoreValid (completeContract db user contractId now).2 := by
  unfold completeContract
  repeat' (first | split | dsimp only)
  all_goals first
    | exact hv
    | (have h1 := storeValid_save hv (by assumption); exact storeValid_of_contracts h1 rfl)

theorem storeValid_step (db : Db) (call : Call) (hv : StoreValid db) :
    StoreValid (step db call) := by
  cases call with
  | createContract u p b => exact storeValid_createContract db u p b hv
  | fundEscrow u c a => exact storeValid_fundEscrow db u c a hv
  | activateContract u c n => exact storeValid_activateContract db u c n hv
  | addMilestone u c b => exact storeValid_addMilestone db u c b hv
  | submitWork u c m e f k n => exact storeValid_submitWork db u c m e f k n hv
  | reviewSubmission u c m s f n => exact storeValid_reviewSubmission db u c m s f n hv
  | releasePayment u c m => exact storeValid_releasePayment db u c m hv
  | completeContract u c n => exact storeValid_completeContract db u c n hv

theorem storeValid_run (calls : List Call) (db : Db) (hv : StoreValid db) :
    StoreValid (run db calls) := by
  induction calls generalizing db with
  | nil => exact hv
  | cons call rest ih => exact ih (step db call) (storeValid_step db call hv)

/-! ## The escrow balance -/

theorem escrow_nonneg_of_valid (c : Contract) (hv : validContract c = true) :
    0 ≤ c.escrowBalance := by
  simp only [validContract, Bool.and_eq_true, decide_eq_true_eq] at hv
  exact hv.1.2

/-- C3: starting from a store without contracts, after any sequence of `createContract`,
`fundEscrow`, `activateContract`, `addMilestone`, `submitWork`, `reviewSubmission`,
`releasePayment` and `completeContract` requests (any callers, any arguments), every stored
contract has `escrowBalance ≥ 0`: a write that would make it negative fails the `min: 0`
validator of the schema and is not stored. -/
theorem escrowBalance_never_negative (jobs : List Job) (proposals : List Proposal)
    (notifications : List Notification) (nextId : Nat) (calls : List Call) (c : Contract)
    (hc : c ∈ (run { jobs := jobs, proposals := proposals, contracts := [],
                     notifications := notifications, nextId := nextId } calls).contracts) :
    0 ≤ c.escrowBalance := by
  apply escrow_nonneg_of_valid
  refine storeValid_run calls _ ?_ c hc
  intro x hx
  simp at hx

/-- Witness for C3: after `overdrawCalls` the stored contract is `overdrawnContract`; the
release of 50 against a balance of 30 was answered 500 and the balance is still 30. -/
theorem escrowBalance_never_negative_witness :
    overdrawnContract ∈ (run freshDb overdrawCalls).contracts ∧
    (releasePayment (run freshDb (overdrawCalls.take 4)) 100 10 11).1.code = 500 ∧
    0 ≤ overdrawnContract.escrowBalance :=
  ⟨by decide, by decide,
    escrowBalance_never_negative freshDb.jobs freshDb.proposals [] 10 overdrawCalls
      overdrawnContract (by decide)⟩

/-! ## fundEscrow -/

theorem valid_funded (c : Contract) (b : Int) (hv : validContract c = true) (hb : 0 ≤ b) :
    validContract { c with escrowBalance := b, status := "funded" } = true := by
  simp only [validContract, Bool.and_eq_true, decide_eq_true_eq] at hv ⊢
  refine ⟨⟨⟨hv.1.1.1, ?_⟩, hb⟩, hv.2⟩
  decide

theorem fundEscrow_ok (db : Db) (user contractId : ObjectId) (c : Contract) (a : Int)
    (hfind : db.findContract contractId = some c) (hclient : c.client = user)
    (hvalid : validContract c = true) (ha : 0 ≤ c.escrowBalance + a) :
    (fundEscrow db user contractId (some a)).1 = json 200 "Escrow funded successfully" ∧
    (fundEscrow db user contractId (some a)).2.findContract contractId =
      some { c with escrowBalance := c.escrowBalance + a, status := "funded" } := by
  subst hclient
  obtain ⟨db1, hsave, hstored⟩ := saveContract_spec db c
    { c with escrowBalance := c.escrowBalance + a, status := "funded" } contractId hfind rfl
    (valid_funded c _ hvalid ha)
  have hrun : fundEscrow db c.client contractId (some a) =
      (json 200 "Escrow funded successfully", db1) := by
    simp [fundEscrow, hfind, hsave]
  rw [hrun]
  exact ⟨rfl, hstored⟩

/-- Counterexample to C5 as stated: on the fresh contract of `draftDb` (balance 0) the client
funds -10 and then 20. The first call would store the balance -10, which the schema
(`escrowBalance` with `min: 0`) rejects: the call is answered 500 and nothing is stored. The
second call then stores the balance 20, whereas `b + a1 + a2 = 10`, the balance that a single
call with `a1 + a2 = 10` stores. -/
theorem fundEscrow_negative_amount_counterexample :
    draftDb.findContract 10 = some draftContract ∧ draftContract.client = 100 ∧
    draftContract.escrowBalance = 0 ∧
    fundEscrow draftDb 100 10 (some (-10)) = (json 500 "Error funding escrow", draftDb) ∧
    ((fundEscrow (fundEscrow draftDb 100 10 (some (-10))).2 100 10 (some 20)).2.findContract
      10).map (fun c => (c.escrowBalance, c.status)) = some (20, "funded") ∧
    ((fundEscrow draftDb 100 10 (some (-10 + 20))).2.findContract 10).map
      (fun c => (c.escrowBalance, c.status)) = some (10, "funded") ∧
    draftContract.escrowBalance + (-10) + 20 = 10 := by
  decide

/-- C5 (amended): for a stored (schema-valid) contract with balance `b`, its client as caller
and whole-number amounts `a1`, `a2` such that `b`, `a1`, `a2`, `a1 + a2`, `b + a1` and
`b + a1 + a2` are safe integers (so that every addition of the code is exact): a call
`fundEscrow(a1)` with `b + a1 < 0` is answered 500 and stores nothing; when `b + a1 ≥ 0` and
`b + a1 + a2 ≥ 0` (as for every pair of non-negative amounts), `fundEscrow(a1)` followed by
`fundEscrow(a2)` both answer 200, the stored balance is `b + a1` and then `b + a1 + a2`, with
status "funded" after each call, and a single `fundEscrow(a1 + a2)` stores the same
contract. -/
theorem fundEscrow_additive (db : Db) (user contractId : ObjectId) (c : Contract)
    (a1 a2 : Int) (hfind : db.findContract contractId = some c) (hclient : c.client = user)
    (hvalid : validContract c = true)
    (_hsafe : ∀ n ∈ [c.escrowBalance, a1, a2, a1 + a2, c.escrowBalance + a1,
      c.escrowBalance + a1 + a2], isSafeInteger n = true) :
    (c.escrowBalance + a1 < 0 →
      fundEscrow db user contractId (some a1) = (json 500 "Error funding escrow", db)) ∧
    (0 ≤ c.escrowBalance + a1 → 0 ≤ c.escrowBalance + a1 + a2 →
      (fundEscrow db user contractId (some a1)).1 = json 200 "Escrow funded successfully" ∧
      (fundEscrow db user contractId (some a1)).2.findContract contractId =
        some { c with escrowBalance := c.escrowBalance + a1, status := "funded" } ∧
      (fundEscrow (fundEscrow db user contractId (some a1)).2 user contractId (some a2)).1 =
        json 200 "Escrow funded successfully" ∧
      (fundEscrow (fundEscrow db user contractId (some a1)).2 user contractId
          (some a2)).2.findContract contractId =
        some { c with escrowBalance := c.escrowBalance + a1 + a2, status := "funded" } ∧
      (fundEscrow db user contractId (some (a1 + a2))).2.findContract contractId =
        some { c with escrowBalance := c.escrowBalance + a1 + a2, status := "funded" }) := by
  refine ⟨fun hneg => ?_, fun h1 h2 => ?_⟩
  · subst hclient
    have hinv : validContract
        { c with escrowBalance := c.escrowBalance + a1, status := "funded" } = false := by
      rw [Bool.eq_false_iff]
      intro hv
      simp only [validContract, Bool.and_eq_true, decide_eq_true_eq] at hv
      omega
    simp [fundEscrow, hfind, saveContract_of_invalid db _ hinv]
  · obtain ⟨hr1, hs1⟩ := fundEscrow_ok db user contractId c a1 hfind hclient hvalid h1
    obtain ⟨hr2, hs2⟩ := fundEscrow_ok (fundEscrow db user contractId (some a1)).2 user
      contractId { c with escrowBalance := c.escrowBalance + a1, status := "funded" } a2 hs1
      hclient (valid_funded c _ hvalid h1) h2
    have h3 : 0 ≤ c.escrowBalance + (a1 + a2) := by omega
    obtain ⟨_, hs3⟩ := fundEscrow_ok db user contractId c (a1 + a2) hfind hclient hvalid h3
    refine ⟨hr1, hs1, hr2, hs2, ?_⟩
    rw [hs3, add_assoc]

/-- Witness for C5 (amended): on the fresh contract of `draftDb` (balance 0), funding 100 and
then 50 stores balance 150 with status "funded", as does funding 150 at once. -/
theorem fundEscrow_additive_witness :
    draftDb.findContract 10 = some draftContract ∧ draftContract.escrowBalance = 0 ∧
    (fundEscrow (fundEscrow draftDb 100 10 (some 100)).2 100 10 (some 50)).2.findContract 10 =
      some { draftContract with escrowBalance := 150, status := "funded" } ∧
    (fundEscrow draftDb 100 10 (some 150)).2.findContract 10 =
      some { draftContract with escrowBalance := 150, status := "funded" } :=
  ⟨by decide, rfl,
    ((fundEscrow_additive draftDb 100 10 draftContract 100 50 (by decide) rfl (by decide)
      (by decide)).2 (by decide) (by decide)).2.2.2.1,
    by decide⟩

/-! ## activateContract -/

theorem valid_active (c : Contract) (now : Nat) (hv : validContract c = true) :
    validContract { c with status := "active", startDate := some now } = true := by
  simp only [validContract, Bool.and_eq_true] at hv ⊢
  refine ⟨⟨⟨hv.1.1.1, ?_⟩, hv.1.2⟩, hv.2⟩
  decide

/-- C6: for an existing (schema-valid) contract and its client as caller, `activateContract`
answers 200 exactly when the contract's status is "funded"; then the stored contract is the
old one with status "active" and `startDate = now`, and every other contract and collection
is as before; otherwise the answer is the 400 state error and the store is unchanged. -/
theorem activateContract_iff_funded (db : Db) (user contractId : ObjectId) (now : Nat)
    (c : Contract) (hfind : db.findContract contractId = some c) (hclient : c.client = user)
    (hvalid : validContract c = true) :
    ((activateContract db user contractId now).1.code = 200 ↔ c.status = "funded") ∧
    (c.status = "funded" →
      (activateContract db user contractId now).1 =
        json 200 "Contract activated successfully" ∧
      (activateContract db user contractId now).2.findContract contractId =
        some { c with status := "active", startDate := some now } ∧
      (∀ other, other ≠ contractId →
        (activateContract db user contractId now).2.findContract other =
          db.findContract other) ∧
      (activateContract db user contractId now).2.jobs = db.jobs ∧
      (activateContract db user contractId now).2.proposals = db.proposals ∧
      (activateContract db user contractId now).2.notifications = db.notifications) ∧
    (c.status ≠ "funded" →
      activateContract db user contractId now =
        (json 400 "Contract must be funded before activation", db)) := by
  subst hclient
  obtain ⟨db1, hsave, hstored, hothers, hjobs, hprops, hnotes, _⟩ := saveContract_frame db c
    { c with status := "active", startDate := some now } contractId hfind rfl
    (valid_active c now hvalid)
  by_cases hs : c.status = "funded"
  · have hrun : activateContract db c.client contractId now =
        (json 200 "Contract activated successfully", db1) := by
      simp [activateContract, hfind, hs, hsave]
    rw [hrun]
    exact ⟨⟨fun _ => hs, fun _ => rfl⟩,
      fun _ => ⟨rfl, hstored, hothers, hjobs, hprops, hnotes⟩, fun h => absurd hs h⟩
  · have hrun : activateContract db c.client contractId now =
        (json 400 "Contract must be funded before activation", db) := by
      simp [activateContract, hfind, hs]
    rw [hrun]
    refine ⟨⟨fun h => ?_, fun h => absurd h hs⟩, fun h => absurd h hs, fun _ => rfl⟩
    simp [json] at h

/-- Witness for C6: `draftContract` has status "draft", so activation is answered with the
state error and nothing is written; `sampleContract` is "funded" and is stored as "active". -/
theorem activateContract_iff_funded_witness :
    draftDb.findContract 10 = some draftContract ∧ validContract draftContract = true ∧
    activateContract draftDb 100 10 3000 =
      (json 400 "Contract must be funded before activation", draftDb) ∧
    sampleDb.findContract 10 = some sampleContract ∧ validContract sampleContract = true ∧
    (activateContract sampleDb 100 10 3000).2.findContract 10 =
      some { sampleContract with status := "active", startDate := some 3000 } :=
  ⟨by decide, by decide,
    (activateContract_iff_funded draftDb 100 10 3000 draftContract (by decide) rfl
      (by decide)).2.2 (by decide),
    by decide, by decide,
    ((activateContract_iff_funded sampleDb 100 10 3000 sampleContract (by decide) rfl
      (by decide)).2.1 (by decide)).2.1⟩

/-! ## createContract -/

theorem find_map_update {α : Type} (getId : α → ObjectId) (upd : α → α)
    (hupd : ∀ x, getId (upd x) = getId x) (xs : List α) (id : ObjectId) :
    (xs.map (fun x => if getId x == id then upd x else x)).find? (fun x => getId x == id) =
      (xs.find? (fun x => getId x == id)).map upd := by
  induction xs with
  | nil => rfl
  | cons x xs ih =>
    by_cases hx : getId x = id
    · simp [List.find?_cons, hx, hupd]
    · have hb : (getId x == id) = false := by simp [hx]
      simp only [List.map_cons, List.find?_cons, hb, Bool.false_eq_true, if_false]
      exact ih

theorem findProposal_setProposalStatus (db : Db) (id : ObjectId) (status : String) :
    (db.setProposalStatus id status).findProposal id =
      (db.findProposal id).map (fun p => { p with status := status }) :=
  find_map_update (fun p : Proposal => p.id) (fun p => { p with status := status })
    (fun _ => rfl) db.proposals id

theorem findJob_setJobStatus (db : Db) (id : ObjectId) (status : String) :
    (db.setJobStatus id status).findJob id =
      (db.findJob id).map (fun j => { j with status := status }) :=
  find_map_update (fun j : Job => j.id) (fun j => { j with status := status })
    (fun _ => rfl) db.jobs id

theorem buildMilestones_built (ms : List MilestoneInput) (firstId : Nat)
    (built : List Milestone) (h : buildMilestones firstId ms = some built) :
    List.Forall₂ MilestoneBuilt ms built := by
  induction ms generalizing firstId built with
  | nil =>
    simp only [buildMilestones, Option.some.injEq] at h
    subst h
    exact List.Forall₂.nil
  | cons m rest ih =>
    unfold buildMilestones at h
    split at h
    · rename_i title description amount dueDate tail ht hd ha hdue htail
      simp only [Option.some.injEq] at h
      subst h
      refine List.Forall₂.cons ?_ (ih _ _ htail)
      simp [MilestoneBuilt, ht, hd, ha, hdue]
    · simp at h

theorem insertContract_some {db db1 : Db} {c1 : Contract}
    (h : db.insertContract c1 = some db1) :
    db1.contracts = db.contracts ++ [c1] ∧ db1.proposals = db.proposals ∧ db1.jobs = db.jobs := by
  unfold Db.insertContract at h
  split at h
  · simp only [Option.some.injEq] at h
    subst h
    exact ⟨rfl, rfl, rfl⟩
  · simp at h

/-- C7 (amended): for every `createContract` request with milestone list `ms` that is answered
201, the caller is the client of the proposal's job; exactly one contract is added, with
status "draft", escrow balance 0, the caller as client and the proposal's freelancer; its
milestones correspond one by one, in order, to `ms`, each with the requested description,
amount and due date, the requested title with surrounding whitespace trimmed, status
"pending" and no submission; afterwards the proposal has status "accepted" and the job
status "in-progress". -/
theorem createContract_effect (db : Db) (user proposalId : ObjectId) (body : ContractInput)
    (ms : List MilestoneInput) (proposal : Proposal) (job : Job)
    (hms : body.milestones = some ms) (hp : db.findProposal proposalId = some proposal)
    (hj : db.findJob proposal.job = some job)
    (hok : (createContract db user proposalId body).1.code = 201) :
    job.client = user ∧
    ∃ created : Contract,
      (createContract db user proposalId body).2.contracts = db.contracts ++ [created] ∧
      created.status = "draft" ∧ created.escrowBalance = 0 ∧
      created.client = user ∧ created.freelancer = proposal.freelancer ∧
      created.proposal = proposalId ∧ created.job = proposal.job ∧
      List.Forall₂ MilestoneBuilt ms created.milestones ∧
      (createContract db user proposalId body).2.findProposal proposalId =
        some { proposal with status := "accepted" } ∧
      (createContract db user proposalId body).2.findJob proposal.job =
        some { job with status := "in-progress" } := by
  have hpid : proposal.id = proposalId := by
    have := List.find?_some hp
    simpa using this
  have hjid : job.id = proposal.job := by
    have := List.find?_some hj
    simpa using this
  subst hpid
  by_cases c1 : (falsyStr body.title || falsyStr body.scope || falsyStr body.terms) = true
  · simp [createContract, hms, c1, json] at hok
  by_cases c2 : (ms.any (fun milestone =>
        falsyStr milestone.title || falsyStr milestone.description ||
        falsyNum milestone.amount || milestone.dueDate.isNone)) = true
  · simp only [createContract, hms, c1, c2] at hok
    simp [json] at hok
  by_cases c3 : job.client = user
  swap
  · simp only [createContract, hms, c1, c2, hp, hj] at hok
    simp [c3, json] at hok
  have c1b : (falsyStr body.title || falsyStr body.scope || falsyStr body.terms) = false := by
    simpa using c1
  have c2b : (ms.any (fun milestone =>
        falsyStr milestone.title || falsyStr milestone.description ||
        falsyNum milestone.amount || milestone.dueDate.isNone)) = false := by
    simpa using c2
  have c3b : (job.client != user) = false := by simp [c3]
  have hrun0 : createContract db user proposal.id body =
      match body.title, body.scope, body.terms, body.totalAmount,
          buildMilestones (db.nextId + 1) ms with
      | some title, some scope, some terms, some totalAmount, some built =>
        match db.insertContract
            { id := db.nextId, job := job.id, proposal := proposal.id, client := user,
              freelancer := proposal.freelancer, title := title, scope := scope,
              totalAmount := totalAmount, terms := terms, milestones := built } with
        | none => (json 500 "Error creating contract", db)
        | some db1 =>
          (json 201 "Contract created successfully",
            (db1.setProposalStatus proposal.id "accepted").setJobStatus job.id "in-progress")
      | _, _, _, _, _ => (json 500 "Error creating contract", db) := by
    simp only [createContract, hms, c1b, c2b, hp, hj, c3b]
    rfl
  rw [hrun0] at hok ⊢
  cases ht : body.title with
  | none => simp [ht, json] at hok
  | some title =>
  cases hs : body.scope with
  | none => simp [ht, hs, json] at hok
  | some scope =>
  cases hte : body.terms with
  | none => simp [ht, hs, hte, json] at hok
  | some terms =>
  cases hta : body.totalAmount with
  | none => simp [ht, hs, hte, hta, json] at hok
  | some totalAmount =>
  cases hb : buildMilestones (db.nextId + 1) ms with
  | none => simp [ht, hs, hte, hta, hb, json] at hok
  | some built =>
  cases hins : db.insertContract
      { id := db.nextId, job := job.id, proposal := proposal.id, client := user,
        freelancer := proposal.freelancer, title := title, scope := scope,
        totalAmount := totalAmount, terms := terms, milestones := built } with
  | none => simp [ht, hs, hte, hta, hb, hins, json] at hok
  | some db1 =>
    obtain ⟨hcs, hps, hjs⟩ := insertContract_some hins
    simp only [ht, hs, hte, hta, hb, hins]
    refine ⟨c3, _, hcs, rfl, rfl, rfl, rfl, rfl, hjid, buildMilestones_built ms _ built hb, ?_, ?_⟩
    · have h1 : ((db1.setProposalStatus proposal.id "accepted").setJobStatus job.id
          "in-progress").findProposal proposal.id =
          (db1.setProposalStatus proposal.id "accepted").findProposal proposal.id := rfl
      have h2 : db1.findProposal proposal.id = some proposal := by
        unfold Db.findProposal; rw [hps]; exact hp
      rw [h1, findProposal_setProposalStatus, h2]
      rfl
    · have h2 : (db1.setProposalStatus proposal.id "accepted").findJob job.id = some job := by
        unfold Db.findJob Db.setProposalStatus
        simp only
        rw [hjs, hjid]; exact hj
      rw [← hjid, findJob_setJobStatus, h2]
      rfl

/-- Counterexample for C7 as stated: the request `paddedBody` asks for the milestone title
" Design" and is answered 201, but the stored milestone has the title "Design". -/
theorem createContract_title_trimmed_counterexample :
    (createContract freshDb 100 2 paddedBody).1.code = 201 ∧
    paddedBody.milestones.map (List.map (fun m => m.title)) = some [some " Design"] ∧
    (createContract freshDb 100 2 paddedBody).2.contracts.map
      (fun c => c.milestones.map (fun m => m.title)) = [["Design"]] := by
  decide

/-- Witness for C7 (amended): `sampleBody` on `freshDb` is answered 201 and yields `draftDb`. -/
theorem createContract_effect_witness :
    (createContract freshDb 100 2 sampleBody).1.code = 201 ∧
    (createContract freshDb 100 2 sampleBody).2 = draftDb ∧
    (100 : ObjectId) = 100 ∧
    ∃ created : Contract,
      (createContract freshDb 100 2 sampleBody).2.contracts = freshDb.contracts ++ [created] ∧
      created.status = "draft" ∧ created.escrowBalance = 0 ∧
      created.client = 100 ∧ created.freelancer = 200 ∧
      created.proposal = 2 ∧ created.job = 1 ∧
      List.Forall₂ MilestoneBuilt
        [{ title := some "Design", description := some "Mockups", amount := some 50,
           dueDate := some 500 }] created.milestones ∧
      (createContract freshDb 100 2 sampleBody).2.findProposal 2 =
        some { id := 2, job := 1, freelancer := 200, status := "accepted" } ∧
      (createContract freshDb 100 2 sampleBody).2.findJob 1 =
        some { id := 1, client := 100, title := "Landing page", status := "in-progress" } :=
  ⟨by decide, by decide,
    createContract_effect freshDb 100 2 sampleBody
      [{ title := some "Design", description := some "Mockups", amount := some 50,
         dueDate := some 500 }]
      { id := 2, job := 1, freelancer := 200 } { id := 1, client := 100, title := "Landing page" }
      rfl (by decide) (by decide) (by decide)⟩

/-! ## submitWork -/

/-- What a 200 answer of `submitWork` means: the upload was accepted, the caller is the
freelancer, and the stored contract is the old one with the milestone replaced by its
submitted version. -/
theorem submitWork_ok (db : Db) (user contractId milestoneId : ObjectId)
    (err : Option UploadError) (files : List UploadedFile) (comments : Option String)
    (now : Nat) (c : Contract) (m : Milestone)
    (hfind : db.findContract contractId = some c)
    (hm : findMilestone c.milestones milestoneId = some m)
    (hok : (submitWork db user contractId milestoneId err files comments now).1.code = 200) :
    err = none ∧ c.freelancer = user ∧
    (submitWork db user contractId milestoneId err files comments now).2.findContract
        contractId =
      some { c with
             milestones := setMilestone c.milestones milestoneId
               (submitMilestone m (savedFilesOf files) comments now) } ∧
    (submitWork db user contractId milestoneId err files comments now).2.jobs = db.jobs := by
  cases err with
  | some e => cases e <;> simp [submitWork, json] at hok
  | none =>
    by_cases hfr : c.freelancer = user
    swap
    · simp [submitWork, hfind, hfr, json] at hok
    subst hfr
    by_cases hfiles : (decide (files.length > 0) && (savedFilesOf files).length == 0) = true
    · simp only [submitWork, hfind, hm, hfiles] at hok
      simp [json] at hok
    have hfiles1 : (decide (files.length > 0) && (savedFilesOf files).length == 0) = false := by
      simpa using hfiles
    have hrun : submitWork db c.freelancer contractId milestoneId none files comments now =
        match db.saveContract
            { c with
              milestones := setMilestone c.milestones milestoneId
                (submitMilestone m (savedFilesOf files) comments now) } with
        | none => (json 500 "Error saving submission", db)
        | some db1 =>
          match db.findJob c.job with
          | none => (json 500 "Error saving submission", db1)
          | some job =>
            ({ code := 200, message := "Work submitted successfully",
               failedFiles := if (failedFilesOf files).length > 0 then
                 some (failedFilesOf files) else none },
              db1.addNotification
                { recipient := c.client, sender := c.freelancer,
                  type := "MILESTONE_SUBMITTED", job := some job.id }) := by
      simp only [submitWork, hfind, hm, hfiles1]
      simp
    rw [hrun] at hok ⊢
    cases hsave : db.saveContract
        { c with
          milestones := setMilestone c.milestones milestoneId
            (submitMilestone m (savedFilesOf files) comments now) } with
    | none => simp [hsave, json] at hok
    | some db1 =>
      cases hjob : db.findJob c.job with
      | none => simp [hsave, hjob, json] at hok
      | some job =>
        obtain ⟨_, hdb1⟩ := saveContract_some hsave
        refine ⟨rfl, rfl, ?_, ?_⟩
        · simp only [findContract_addNotification]
          rw [hdb1]
          exact findContract_saved db c _ contractId hfind rfl
        · simp only [Db.addNotification]
          rw [hdb1]

theorem submitMilestone_id (m : Milestone) (savedFiles : List FileMeta)
    (comments : Option String) (now : Nat) :
    (submitMilestone m savedFiles comments now).id = m.id := rfl

/-- C8: when two successive `submitWork` calls on a milestone that starts with no current
submission and an empty history are both answered 200, the stored milestone has a history of
exactly one entry, carrying the files, comments, `submittedAt` and status "pending" of the
first submission; its current submission holds the files and comments of the second one with
status "pending", and the milestone status is "submitted". -/
theorem submitWork_twice (db : Db) (user contractId milestoneId : ObjectId)
    (err1 err2 : Option UploadError) (files1 files2 : List UploadedFile)
    (comments1 comments2 : Option String) (t1 t2 : Nat) (c : Contract) (m : Milestone)
    (hfind : db.findContract contractId = some c)
    (hm : findMilestone c.milestones milestoneId = some m)
    (hcur : m.currentSubmission = none) (hhist : m.submissionHistory = [])
    (hok1 : (submitWork db user contractId milestoneId err1 files1 comments1 t1).1.code = 200)
    (hok2 : (submitWork (submitWork db user contractId milestoneId err1 files1 comments1 t1).2
      user contractId milestoneId err2 files2 comments2 t2).1.code = 200) :
    ∃ c2 m2,
      (submitWork (submitWork db user contractId milestoneId err1 files1 comments1 t1).2
        user contractId milestoneId err2 files2 comments2 t2).2.findContract contractId =
          some c2 ∧
      findMilestone c2.milestones milestoneId = some m2 ∧
      m2.submissionHistory.length = 1 ∧
      m2.submissionHistory =
        [{ files := savedFilesOf files1, comments := comments1.getD "", submittedAt := t1,
           status := "pending", clientFeedback := "", feedbackAt := none }] ∧
      m2.currentSubmission = some
        { files := savedFilesOf files2, comments := comments2.getD "", submittedAt := t2,
          status := "pending", clientFeedback := "", feedbackAt := none } ∧
      m2.status = "submitted" := by
  have hmid : m.id = milestoneId := findMilestone_id_eq hm
  obtain ⟨_, _, hs1, _⟩ := submitWork_ok db user contractId milestoneId err1 files1 comments1
    t1 c m hfind hm hok1
  have hm1 := findMilestone_setMilestone c.milestones milestoneId m
    (submitMilestone m (savedFilesOf files1) comments1 t1) hm hmid
  obtain ⟨_, _, hs2, _⟩ := submitWork_ok _ user contractId milestoneId err2 files2 comments2
    t2 _ _ hs1 hm1 hok2
  have hm2 := findMilestone_setMilestone _ milestoneId _
    (submitMilestone (submitMilestone m (savedFilesOf files1) comments1 t1)
      (savedFilesOf files2) comments2 t2) hm1 hmid
  refine ⟨_, _, hs2, hm2, ?_, ?_, ?_, ?_⟩ <;>
    simp [submitMilestone, hcur, hhist, sortHistory]

/-- Witness for C8: the freelancer of `draftContract` submits twice, first without files,
then with one stored file. -/
theorem submitWork_twice_witness :
    (submitWork draftDb 200 10 11 none [] (some "first draft") 1000).1.code = 200 ∧
    (submitWork (submitWork draftDb 200 10 11 none [] (some "first draft") 1000).2 200 10 11
      none [{ originalname := "mockup.png", mimetype := "image/png", size := 2048,
              saveOutcome := some "f1" }] none 2000).1.code = 200 ∧
    ∃ c2 m2,
      (submitWork (submitWork draftDb 200 10 11 none [] (some "first draft") 1000).2 200 10 11
        none [{ originalname := "mockup.png", mimetype := "image/png", size := 2048,
                saveOutcome := some "f1" }] none 2000).2.findContract 10 = some c2 ∧
      findMilestone c2.milestones 11 = some m2 ∧
      m2.submissionHistory.length = 1 ∧
      m2.submissionHistory =
        [{ files := savedFilesOf [], comments := (some "first draft").getD "",
           submittedAt := 1000, status := "pending", clientFeedback := "",
           feedbackAt := none }] ∧
      m2.currentSubmission = some
        { files := savedFilesOf [{ originalname := "mockup.png", mimetype := "image/png",
                                   size := 2048, saveOutcome := some "f1" }],
          comments := (none : Option String).getD "", submittedAt := 2000,
          status := "pending", clientFeedback := "", feedbackAt := none } ∧
      m2.status = "submitted" :=
  ⟨by decide, by decide,
    submitWork_twice draftDb 200 10 11 none none []
      [{ originalname := "mockup.png", mimetype := "image/png", size := 2048,
         saveOutcome := some "f1" }] (some "first draft") none 1000 2000 draftContract
      { id := 11, title := "Design", description := "Mockups", amount := 50, dueDate := 500 }
      (by decide) (by decide) rfl rfl (by decide) (by decide)⟩

/-! ## reviewSubmission -/

/-- What a 200 answer of `reviewSubmission` means: the caller is the client, and the stored
contract is the old one with the milestone replaced by its reviewed version. -/
theorem reviewSubmission_ok (db : Db) (user contractId milestoneId : ObjectId)
    (status : String) (feedback : Option String) (now : Nat) (c : Contract) (m : Milestone)
    (current : Submission) (hfind : db.findContract contractId = some c)
    (hm : findMilestone c.milestones milestoneId = some m)
    (hcur : m.currentSubmission = some current)
    (hok : (reviewSubmission db user contractId milestoneId status feedback now).1.code = 200) :
    c.client = user ∧
    (reviewSubmission db user contractId milestoneId status feedback now).2.findContract
        contractId =
      some { c with
             milestones := setMilestone c.milestones milestoneId
               (reviewMilestone m current status feedback now) } := by
  by_cases hcl : c.client = user
  swap
  · simp [reviewSubmission, hfind, hcl, json] at hok
  subst hcl
  have hrun : reviewSubmission db c.client contractId milestoneId status feedback now =
      match db.saveContract
          { c with
            milestones := setMilestone c.milestones milestoneId
              (reviewMilestone m current status feedback now) } with
      | none => (json 500 "Error reviewing submission", db)
      | some db1 =>
        match db.findJob c.job with
        | none => (json 500 "Error reviewing submission", db1)
        | some job =>
          (json 200 "Submission reviewed successfully",
            db1.addNotification
              { recipient := c.freelancer, sender := c.client,
                type := if status == "approved" then "MILESTONE_APPROVED"
                        else "MILESTONE_CHANGES_REQUESTED",
                job := some job.id }) := by
    simp only [reviewSubmission, hfind, hm, hcur]
    simp
  rw [hrun] at hok ⊢
  cases hsave : db.saveContract
      { c with
        milestones := setMilestone c.milestones milestoneId
          (reviewMilestone m current status feedback now) } with
  | none => simp [hsave, json] at hok
  | some db1 =>
    cases hjob : db.findJob c.job with
    | none => simp [hsave, hjob, json] at hok
    | some job =>
      obtain ⟨_, hdb1⟩ := saveContract_some hsave
      refine ⟨rfl, ?_⟩
      simp only [findContract_addNotification]
      rw [hdb1]
      exact findContract_saved db c _ contractId hfind rfl

theorem reviewMilestone_id (m : Milestone) (current : Submission) (status : String)
    (feedback : Option String) (now : Nat) :
    (reviewMilestone m current status feedback now).id = m.id := by
  unfold reviewMilestone
  dsimp only
  split
  · rfl
  · split <;> rfl

/-- C9: for a milestone with a current submission and a review status `s` that is "approved"
or "changes_requested", a `reviewSubmission` answered 200 stores the milestone with
`currentSubmission` null; the head of its history is the reviewed submission (same files,
comments and `submittedAt`) with status `s` and `feedbackAt = now`, in front of the earlier
history; the milestone status is "completed" for "approved" and "changes_requested" for
"changes_requested". -/
theorem reviewSubmission_archives (db : Db) (user contractId milestoneId : ObjectId)
    (s : String) (feedback : Option String) (now : Nat) (c : Contract) (m : Milestone)
    (current : Submission) (hfind : db.findContract contractId = some c)
    (hm : findMilestone c.milestones milestoneId = some m)
    (hcur : m.currentSubmission = some current)
    (hs : s = "approved" ∨ s = "changes_requested")
    (hok : (reviewSubmission db user contractId milestoneId s feedback now).1.code = 200) :
    ∃ c1 m1 entry,
      (reviewSubmission db user contractId milestoneId s feedback now).2.findContract
        contractId = some c1 ∧
      findMilestone c1.milestones milestoneId = some m1 ∧
      m1.currentSubmission = none ∧
      m1.submissionHistory = entry :: sortHistory m.submissionHistory ∧
      m1.submissionHistory.head? = some entry ∧
      entry.status = s ∧ entry.files = current.files ∧ entry.comments = current.comments ∧
      entry.submittedAt = current.submittedAt ∧ entry.feedbackAt = some now ∧
      (s = "approved" → m1.status = "completed") ∧
      (s = "changes_requested" → m1.status = "changes_requested") := by
  obtain ⟨_, hstored⟩ := reviewSubmission_ok db user contractId milestoneId s feedback now c m
    current hfind hm hcur hok
  have hmid : (reviewMilestone m current s feedback now).id = milestoneId := by
    rw [reviewMilestone_id]; exact findMilestone_id_eq hm
  have hm1 := findMilestone_setMilestone c.milestones milestoneId m _ hm hmid
  refine ⟨_, _, { stampSubmission current s feedback now with
                  status := s, feedbackAt := some now }, hstored, hm1, ?_⟩
  have hfiles : (stampSubmission current s feedback now).files = current.files := by
    unfold stampSubmission; split <;> rfl
  have hcomments : (stampSubmission current s feedback now).comments = current.comments := by
    unfold stampSubmission; split <;> rfl
  have hat : (stampSubmission current s feedback now).submittedAt = current.submittedAt := by
    unfold stampSubmission; split <;> rfl
  rcases hs with rfl | rfl
  · simp [reviewMilestone, hfiles, hcomments, hat]
  · simp [reviewMilestone, hfiles, hcomments, hat]

/-- Witness for C9: the client approves the pending submission of `submittedContract`. -/
theorem reviewSubmission_archives_witness :
    submittedDb.findContract 10 = some submittedContract ∧
    (reviewSubmission submittedDb 100 10 11 "approved" none 2000).1.code = 200 ∧
    ∃ c1 m1 entry,
      (reviewSubmission submittedDb 100 10 11 "approved" none 2000).2.findContract 10 =
        some c1 ∧
      findMilestone c1.milestones 11 = some m1 ∧
      m1.currentSubmission = none ∧
      m1.submissionHistory = entry :: sortHistory submittedMilestone.submissionHistory ∧
      m1.submissionHistory.head? = some entry ∧
      entry.status = "approved" ∧ entry.files = pendingSubmission.files ∧
      entry.comments = pendingSubmission.comments ∧
      entry.submittedAt = pendingSubmission.submittedAt ∧ entry.feedbackAt = some 2000 ∧
      ("approved" = "approved" → m1.status = "completed") ∧
      ("approved" = "changes_requested" → m1.status = "changes_requested") :=
  ⟨by decide, by decide,
    reviewSubmission_archives submittedDb 100 10 11 "approved" none 2000 submittedContract
      submittedMilestone pendingSubmission (by decide) (by decide) rfl (Or.inl rfl)
      (by decide)⟩

/-! ## Access control -/

/-- Counterexample for C10 as stated: user 999 is neither the client (100) nor the
freelancer (200) of `sampleContract`, yet a `submitWork` request whose upload exceeds the size
limit is answered 400, not 403: the upload error is answered before the contract is loaded. -/
theorem submitWork_upload_error_counterexample :
    sampleDb.findContract 10 = some sampleContract ∧
    (999 : ObjectId) ≠ sampleContract.client ∧ (999 : ObjectId) ≠ sampleContract.freelancer ∧
    submitWork sampleDb 999 10 12 (some UploadError.limitFileSize) [] none 0 =
      (json 400 "File too large. Maximum size is 5MB", sampleDb) := by
  decide

/-- C10 (amended): for an existing contract `c`, (1) a caller who is neither its client nor
its freelancer gets 403 from `getContractById` and `downloadSubmissionFile`; (2) every caller
other than the client (a stranger, or the freelancer when distinct from the client) gets 403
from `fundEscrow`, `activateContract`, `addMilestone`, `reviewSubmission`, `releasePayment`
and `completeContract`, the store unchanged; (3) every caller other than the freelancer (a
stranger, or the client when distinct from the freelancer) gets 403 from `submitWork` when
the upload was accepted, the store unchanged; (4) when the upload was rejected, `submitWork`
answers 400 to every caller, the store unchanged. -/
theorem access_control (db : Db) (contractId : ObjectId) (c : Contract) (user : ObjectId)
    (hfind : db.findContract contractId = some c) :
    (user ≠ c.client → user ≠ c.freelancer →
      getContractById db user contractId = (json 403 "Access denied", none) ∧
      ∀ milestoneId fileId inStorage,
        downloadSubmissionFile db user contractId milestoneId fileId inStorage =
          (json 403 "Access denied", none)) ∧
    (user ≠ c.client →
      (∀ amount, fundEscrow db user contractId amount =
        (json 403 "Only the client can fund the escrow", db)) ∧
      (∀ now, activateContract db user contractId now =
        (json 403 "Only the client can activate the contract", db)) ∧
      (∀ body, addMilestone db user contractId body =
        (json 403 "Only the client can add milestones", db)) ∧
      (∀ milestoneId status feedback now,
        reviewSubmission db user contractId milestoneId status feedback now =
          (json 403 "Only the client can review submissions", db)) ∧
      (∀ milestoneId, releasePayment db user contractId milestoneId =
        (json 403 "Only the client can release payments", db)) ∧
      (∀ now, completeContract db user contractId now =
        (json 403 "Only the client can complete the contract", db))) ∧
    (user ≠ c.freelancer →
      ∀ milestoneId files comments now,
        submitWork db user contractId milestoneId none files comments now =
          (json 403 "Only the freelancer can submit work", db)) ∧
    (∀ e milestoneId files comments now,
      (submitWork db user contractId milestoneId (some e) files comments now).1.code = 400 ∧
      (submitWork db user contractId milestoneId (some e) files comments now).2 = db) := by
  refine ⟨fun hc hf => ?_, fun hc => ?_, fun hf => ?_, ?_⟩
  · have hc1 : ¬ c.client = user := fun e => hc e.symm
    have hf1 : ¬ c.freelancer = user := fun e => hf e.symm
    refine ⟨by simp [getContractById, hfind, hc1, hf1], fun _ _ _ => ?_⟩
    simp [downloadSubmissionFile, hfind, hc1, hf1]
  · have hc1 : ¬ c.client = user := fun e => hc e.symm
    refine ⟨fun _ => ?_, fun _ => ?_, fun _ => ?_, fun _ _ _ _ => ?_, fun _ => ?_, fun _ => ?_⟩
    · simp [fundEscrow, hfind, hc1]
    · simp [activateContract, hfind, hc1]
    · simp [addMilestone, hfind, hc1]
    · simp [reviewSubmission, hfind, hc1]
    · simp [releasePayment, hfind, hc1]
    · simp [completeContract, hfind, hc1]
  · have hf1 : ¬ c.freelancer = user := fun e => hf e.symm
    intro _ _ _ _
    simp [submitWork, hfind, hf1]
  · intro e _ _ _ _
    cases e <;> simp [submitWork, json]

/-- Witness for C10 (amended): user 999 on `sampleContract` is refused by the read
operations, by a client-only operation and by `submitWork`. -/
theorem access_control_witness :
    sampleDb.findContract 10 = some sampleContract ∧
    getContractById sampleDb 999 10 = (json 403 "Access denied", none) ∧
    releasePayment sampleDb 999 10 12 =
      (json 403 "Only the client can release payments", sampleDb) ∧
    submitWork sampleDb 999 10 12 none [] none 0 =
      (json 403 "Only the freelancer can submit work", sampleDb) :=
  ⟨by decide,
    ((access_control sampleDb 10 sampleContract 999 (by decide)).1 (by decide) (by decide)).1,
    ((access_control sampleDb 10 sampleContract 999 (by decide)).2.1 (by decide)).2.2.2.2.1 12,
    (access_control sampleDb 10 sampleContract 999 (by decide)).2.2.1 (by decide) 12 [] none 0⟩

/-! ## submitWork: per-file save outcomes -/

theorem all_insertByDate (p : Submission → Bool) (s : Submission) (l : List Submission) :
    (insertByDate s l).all p = (p s && l.all p) := by
  induction l with
  | nil => simp [insertByDate]
  | cons x xs ih =>
    unfold insertByDate
    split
    · simp
    · simp only [List.all_cons, ih]
      cases p s <;> cases p x <;> simp

theorem all_sortHistory (p : Submission → Bool) (l : List Submission) :
    (sortHistory l).all p = l.all p := by
  induction l with
  | nil => rfl
  | cons x xs ih => simp [sortHistory, all_insertByDate, ih]

theorem mem_insertByDate (s x : Submission) (l : List Submission) :
    x ∈ insertByDate s l ↔ x = s ∨ x ∈ l := by
  induction l with
  | nil => simp [insertByDate]
  | cons y ys ih =>
    unfold insertByDate
    split
    · simp
    · simp only [List.mem_cons, ih]
      tauto

theorem mem_sortHistory (x : Submission) (l : List Submission) :
    x ∈ sortHistory l ↔ x ∈ l := by
  induction l with
  | nil => simp [sortHistory]
  | cons y ys ih => simp [sortHistory, mem_insertByDate, ih]

theorem all_setMilestone (ms : List Milestone) (id : ObjectId) (m1 : Milestone)
    (hms : ms.all validMilestone = true) (hm1 : validMilestone m1 = true) :
    (setMilestone ms id m1).all validMilestone = true := by
  induction ms with
  | nil => rfl
  | cons x xs ih =>
    simp only [List.all_cons, Bool.and_eq_true] at hms
    unfold setMilestone
    split
    · simp [hm1, hms.2]
    · simp [hms.1, ih hms.2]

theorem validMilestone_of_mem {ms : List Milestone} {m : Milestone} {id : ObjectId}
    (hms : ms.all validMilestone = true) (hm : findMilestone ms id = some m) :
    validMilestone m = true := by
  have hmem : m ∈ ms := List.mem_of_find?_eq_some hm
  exact (List.all_eq_true.mp hms) m hmem

theorem valid_milestones (c : Contract) (hv : validContract c = true) :
    c.milestones.all validMilestone = true := by
  simp only [validContract, Bool.and_eq_true] at hv
  exact hv.2

theorem valid_with_milestones (c : Contract) (ms : List Milestone)
    (hv : validContract c = true) (hms : ms.all validMilestone = true) :
    validContract { c with milestones := ms } = true := by
  simp only [validContract, Bool.and_eq_true] at hv ⊢
  exact ⟨hv.1, hms⟩

theorem savedFilesOf_eq_filterMap (files : List UploadedFile) :
    savedFilesOf files = files.filterMap (fun file =>
      (saveFileToStorage file).map (fun fileId =>
        ({ filename := file.originalname, url := fileId, mimetype := file.mimetype,
           size := file.size } : FileMeta))) := by
  induction files with
  | nil => rfl
  | cons f rest ih =>
    unfold savedFilesOf
    cases h : saveFileToStorage f <;> simp [List.filterMap_cons, h, ih]

theorem failedFilesOf_eq_filter (files : List UploadedFile) :
    failedFilesOf files =
      (files.filter (fun file => (saveFileToStorage file).isNone)).map
        (fun file => file.originalname) := by
  induction files with
  | nil => rfl
  | cons f rest ih =>
    unfold failedFilesOf
    cases h : saveFileToStorage f <;> simp [List.filter_cons, h, ih]

theorem savedFilesOf_valid (files : List UploadedFile)
    (hids : ∀ f ∈ files, f.saveOutcome ≠ some "") :
    (savedFilesOf files).all validFile = true := by
  induction files with
  | nil => rfl
  | cons f rest ih =>
    have hrest := ih (fun g hg => hids g (List.mem_cons_of_mem _ hg))
    have hf := hids f (List.mem_cons_self _ _)
    unfold savedFilesOf
    cases h : saveFileToStorage f with
    | none => simpa using hrest
    | some fileId =>
      unfold saveFileToStorage at h
      split at h
      · simp at h
      · rename_i hmeta
        have hid : fileId ≠ "" := by
          intro e
          rw [e] at h
          exact hf h
        simp only [Bool.or_eq_true, beq_iff_eq, not_or] at hmeta
        simp [validFile, hmeta.1, hmeta.2, hid, hrest]

theorem savedFilesOf_eq_nil_iff (files : List UploadedFile) :
    savedFilesOf files = [] ↔ ∀ f ∈ files, saveFileToStorage f = none := by
  induction files with
  | nil => simp [savedFilesOf]
  | cons f rest ih =>
    unfold savedFilesOf
    cases h : saveFileToStorage f <;> simp [h, ih]

theorem validMilestone_submit (m : Milestone) (savedFiles : List FileMeta)
    (comments : Option String) (now : Nat) (hm : validMilestone m = true)
    (hfiles : savedFiles.all validFile = true) :
    validMilestone (submitMilestone m savedFiles comments now) = true := by
  simp only [validMilestone, Bool.and_eq_true] at hm
  obtain ⟨⟨⟨⟨⟨ht, hd⟩, ha⟩, _⟩, hh⟩, hc⟩ := hm
  have hnew : validSubmission
      { files := savedFiles, comments := comments.getD "", submittedAt := now,
        status := "pending", clientFeedback := "", feedbackAt := none } = true := by
    simp only [validSubmission, hfiles, Bool.true_and]
    decide
  cases hcur : m.currentSubmission with
  | none =>
    simp only [validMilestone, submitMilestone, hcur, Bool.and_eq_true]
    exact ⟨⟨⟨⟨⟨ht, hd⟩, ha⟩, by decide⟩, hh⟩, hnew⟩
  | some current =>
    rw [hcur] at hc
    have hmoved : validSubmission
        { current with
          status := if current.status == "" then "pending" else current.status } = true := by
      simp only [validSubmission, Bool.and_eq_true] at hc ⊢
      refine ⟨hc.1, ?_⟩
      split
      · decide
      · exact hc.2
    simp only [validMilestone, submitMilestone, hcur, Bool.and_eq_true, List.all_cons,
      all_sortHistory]
    exact ⟨⟨⟨⟨⟨ht, hd⟩, ha⟩, by decide⟩, hmoved, hh⟩, hnew⟩

/-- C12 (what the code does): for a `submitWork` call by the freelancer on an existing
milestone of a stored (schema-valid) contract, with the upload accepted and `n` uploaded
files (stored file ids being non-empty). When `n > 0` and every save fails the answer is the
500 error "Failed to save any files" and the store is unchanged. When `n = 0` or at least one
file was saved, the contract is saved with the new current submission, whose files are the
saved files in upload order; the answer then depends on the job of the contract: if the job
document exists the answer is 200 and `warnings.failedFiles` is absent when no save failed
and otherwise lists, in upload order, the names of the files whose save failed; if the job
has been deleted the answer is 500 "Error saving submission", after the milestone has been
changed in the store. So the answer is 200 exactly when (`n = 0` or a file was saved) and
the job exists. -/
theorem submitWork_file_outcomes (db : Db) (user contractId milestoneId : ObjectId)
    (files : List UploadedFile) (comments : Option String) (now : Nat) (c : Contract)
    (m : Milestone) (hfind : db.findContract contractId = some c)
    (hfr : c.freelancer = user) (hm : findMilestone c.milestones milestoneId = some m)
    (hvalid : validContract c = true)
    (hids : ∀ f ∈ files, f.saveOutcome ≠ some "") :
    ((submitWork db user contractId milestoneId none files comments now).1.code = 200 ↔
      ((files = [] ∨ ∃ f ∈ files, ∃ fileId, saveFileToStorage f = some fileId) ∧
        ∃ job, db.findJob c.job = some job)) ∧
    ((files = [] ∨ ∃ f ∈ files, ∃ fileId, saveFileToStorage f = some fileId) →
      ∃ c1 m1 current,
        (submitWork db user contractId milestoneId none files comments now).2.findContract
          contractId = some c1 ∧
        findMilestone c1.milestones milestoneId = some m1 ∧
        m1.status = "submitted" ∧
        m1.currentSubmission = some current ∧
        current.files = files.filterMap (fun file =>
          (saveFileToStorage file).map (fun fileId =>
            ({ filename := file.originalname, url := fileId, mimetype := file.mimetype,
               size := file.size } : FileMeta))) ∧
        (db.findJob c.job = none →
          (submitWork db user contractId milestoneId none files comments now).1 =
            json 500 "Error saving submission") ∧
        ((∃ job, db.findJob c.job = some job) →
          ((∀ f ∈ files, saveFileToStorage f ≠ none) →
            (submitWork db user contractId milestoneId none files comments now).1.failedFiles =
              none) ∧
          ((∃ f ∈ files, saveFileToStorage f = none) →
            (submitWork db user contractId milestoneId none files comments now).1.failedFiles =
              some ((files.filter (fun file => (saveFileToStorage file).isNone)).map
                (fun file => file.originalname))))) ∧
    (files ≠ [] → (∀ f ∈ files, saveFileToStorage f = none) →
      submitWork db user contractId milestoneId none files comments now =
        (json 500 "Failed to save any files", db)) := by
  subst hfr
  have hsome : (files = [] ∨ ∃ f ∈ files, ∃ fileId, saveFileToStorage f = some fileId) ↔
      ¬ (files ≠ [] ∧ savedFilesOf files = []) := by
    rw [savedFilesOf_eq_nil_iff]
    constructor
    · rintro (h | ⟨f, hf, fileId, hid⟩) ⟨hne, hall⟩
      · exact hne h
      · rw [hall f hf] at hid
        simp at hid
    · intro h
      by_cases hnil : files = []
      · exact Or.inl hnil
      · right
        by_contra hno
        apply h
        refine ⟨hnil, fun f hf => ?_⟩
        cases hs : saveFileToStorage f with
        | none => rfl
        | some fileId => exact absurd ⟨f, hf, fileId, hs⟩ hno
  by_cases hbad : files ≠ [] ∧ savedFilesOf files = []
  · have hcond : (decide (files.length > 0) && (savedFilesOf files).length == 0) = true := by
      have hlen : 0 < files.length := List.length_pos.mpr hbad.1
      simp [hlen, hbad.2]
    have hrun : submitWork db c.freelancer contractId milestoneId none files comments now =
        (json 500 "Failed to save any files", db) := by
      simp only [submitWork, hfind, hm, hcond]
      simp
    refine ⟨?_, fun h => absurd hbad (hsome.mp h), fun _ _ => hrun⟩
    rw [hrun]
    constructor
    · intro h
      simp [json] at h
    · intro h
      exact absurd hbad (hsome.mp h.1)
  · have hcond : (decide (files.length > 0) && (savedFilesOf files).length == 0) = false := by
      rw [Bool.eq_false_iff]
      intro h
      simp only [Bool.and_eq_true, decide_eq_true_eq, beq_iff_eq, List.length_eq_zero] at h
      exact hbad ⟨List.length_pos.mp h.1, h.2⟩
    have hvm : validMilestone (submitMilestone m (savedFilesOf files) comments now) = true :=
      validMilestone_submit m _ comments now
        (validMilestone_of_mem (valid_milestones c hvalid) hm) (savedFilesOf_valid files hids)
    have hvc : validContract
        { c with
          milestones := setMilestone c.milestones milestoneId
            (submitMilestone m (savedFilesOf files) comments now) } = true :=
      valid_with_milestones c _ hvalid
        (all_setMilestone c.milestones milestoneId _ (valid_milestones c hvalid) hvm)
    obtain ⟨db1, hsave, hstored⟩ := saveContract_spec db c
      { c with
        milestones := setMilestone c.milestones milestoneId
          (submitMilestone m (savedFilesOf files) comments now) } contractId hfind rfl hvc
    have hmid : (submitMilestone m (savedFilesOf files) comments now).id = milestoneId :=
      (findMilestone_id_eq hm : m.id = milestoneId)
    have hm1 := findMilestone_setMilestone c.milestones milestoneId m _ hm hmid
    have hst : (submitMilestone m (savedFilesOf files) comments now).status = "submitted" := by
      unfold submitMilestone
      split <;> rfl
    have hcur : (submitMilestone m (savedFilesOf files) comments now).currentSubmission =
        some { files := savedFilesOf files, comments := comments.getD "", submittedAt := now,
               status := "pending", clientFeedback := "", feedbackAt := none } := by
      unfold submitMilestone
      split <;> rfl
    cases hjob : db.findJob c.job with
    | none =>
      have hrun : submitWork db c.freelancer contractId milestoneId none files comments now =
          (json 500 "Error saving submission", db1) := by
        simp only [submitWork, hfind, hm, hcond, hsave, hjob]
        simp
      refine ⟨?_, fun _ => ?_, fun hne hall => ?_⟩
      · rw [hrun]
        constructor
        · intro h
          simp [json] at h
        · rintro ⟨_, job, hj⟩
          simp at hj
      · refine ⟨{ c with
                  milestones := setMilestone c.milestones milestoneId
                    (submitMilestone m (savedFilesOf files) comments now) },
          submitMilestone m (savedFilesOf files) comments now,
          { files := savedFilesOf files, comments := comments.getD "", submittedAt := now,
            status := "pending", clientFeedback := "", feedbackAt := none },
          ?_, hm1, hst, hcur, savedFilesOf_eq_filterMap files, ?_, ?_⟩
        · rw [hrun]
          exact hstored
        · intro _
          rw [hrun]
        · rintro ⟨job, hj⟩
          simp at hj
      · exact absurd ⟨hne, (savedFilesOf_eq_nil_iff files).mpr hall⟩ hbad
    | some job =>
      have hrun : submitWork db c.freelancer contractId milestoneId none files comments now =
          ({ code := 200, message := "Work submitted successfully",
             failedFiles := if (failedFilesOf files).length > 0 then
               some (failedFilesOf files) else none },
            db1.addNotification
              { recipient := c.client, sender := c.freelancer,
                type := "MILESTONE_SUBMITTED", job := some job.id }) := by
        simp only [submitWork, hfind, hm, hcond, hsave, hjob]
        simp
      refine ⟨?_, fun _ => ?_, fun hne hall => ?_⟩
      · rw [hrun]
        exact ⟨fun _ => ⟨hsome.mpr hbad, job, rfl⟩, fun _ => rfl⟩
      · refine ⟨{ c with
                  milestones := setMilestone c.milestones milestoneId
                    (submitMilestone m (savedFilesOf files) comments now) },
          submitMilestone m (savedFilesOf files) comments now,
          { files := savedFilesOf files, comments := comments.getD "", submittedAt := now,
            status := "pending", clientFeedback := "", feedbackAt := none },
          ?_, hm1, hst, hcur, savedFilesOf_eq_filterMap files, ?_, fun _ => ⟨?_, ?_⟩⟩
        · rw [hrun]
          exact hstored
        · intro hj
          simp at hj
        · intro hok
          have hnone : failedFilesOf files = [] := by
            rw [failedFilesOf_eq_filter]
            simp only [List.map_eq_nil_iff, List.filter_eq_nil_iff]
            intro f hf
            have := hok f hf
            cases hs : saveFileToStorage f with
            | none => exact absurd hs this
            | some _ => simp
          rw [hrun]
          simp [hnone]
        · rintro ⟨f, hf, hs⟩
          have hmem : f.originalname ∈ failedFilesOf files := by
            rw [failedFilesOf_eq_filter]
            exact List.mem_map.mpr ⟨f, List.mem_filter.mpr ⟨hf, by simp [hs]⟩, rfl⟩
          have hpos : (failedFilesOf files).length > 0 := List.length_pos_of_mem hmem
          rw [hrun]
          simp only [hpos, if_true]
          rw [failedFilesOf_eq_filter]
      · exact absurd ⟨hne, (savedFilesOf_eq_nil_iff files).mpr hall⟩ hbad

/-- Witness for C12 (the failing input): the client of `draftContract` deletes job 1, then the
freelancer uploads two files of which the first is stored. The call is answered 500 "Error
saving submission", although a file was saved, and the milestone is stored as submitted with
that file. On `draftDb`, where the job exists, the same call is answered 200 and names the
second file as failed. -/
theorem submitWork_file_outcomes_witness :
    deleteJob draftDb 100 1 =
      (json 200 "Job and related data deleted successfully", orphanDb) ∧
    orphanDb.findContract 10 = some draftContract ∧ orphanDb.findJob draftContract.job = none ∧
    validContract draftContract = true ∧
    (submitWork orphanDb 200 10 11 none mixedUpload none 1000).1 =
      json 500 "Error saving submission" ∧
    (((submitWork orphanDb 200 10 11 none mixedUpload none 1000).2.findContract 10).bind
      (fun c => findMilestone c.milestones 11)).map
        (fun m => (m.status, m.currentSubmission.map (fun s => s.files))) =
      some ("submitted",
        some [{ filename := "mockup.png", url := "f1", mimetype := "image/png",
                size := 2048 }]) ∧
    (submitWork draftDb 200 10 11 none mixedUpload none 1000).1 =
      { code := 200, message := "Work submitted successfully",
        failedFiles := some ["notes.txt"] } := by
  refine ⟨by decide, by decide, by decide, by decide, ?_, by decide, by decide⟩
  obtain ⟨_, _, _, _, _, _, _, _, h500, _⟩ :=
    (submitWork_file_outcomes orphanDb 200 10 11 mixedUpload none 1000 draftContract
      { id := 11, title := "Design", description := "Mockups", amount := 50, dueDate := 500 }
      (by decide) rfl (by decide) (by decide) (by decide)).2.1
      (Or.inr ⟨{ originalname := "mockup.png", mimetype := "image/png", size := 2048,
                 saveOutcome := some "f1" }, by decide, "f1", by decide⟩)
  exact h500 (by decide)

/-! ## downloadSubmissionFile: the file lookup -/

theorem find_url_none_iff (files : List FileMeta) (r : String) :
    files.find? (fun f => f.url == r) = none ↔ ∀ f ∈ files, f.url ≠ r := by
  simp [List.find?_eq_none]

theorem find_url_some {files : List FileMeta} {r : String} {f : FileMeta}
    (h : files.find? (fun f => f.url == r) = some f) : f ∈ files ∧ f.url = r := by
  refine ⟨List.mem_of_find?_eq_some h, ?_⟩
  have := List.find?_some h
  simpa using this

theorem findInHistory_none_iff (r : String) (l : List Submission) :
    findInHistory r l = none ↔ ∀ s ∈ l, ∀ f ∈ s.files, f.url ≠ r := by
  induction l with
  | nil => simp [findInHistory]
  | cons s rest ih =>
    unfold findInHistory
    cases h : s.files.find? (fun f => f.url == r) with
    | none =>
      have hs := (find_url_none_iff s.files r).mp h
      simp only [ih, List.mem_cons, forall_eq_or_imp]
      exact ⟨fun hrest => ⟨hs, hrest⟩, fun hall => hall.2⟩
    | some f =>
      obtain ⟨hf, hu⟩ := find_url_some h
      simp only [List.mem_cons, forall_eq_or_imp]
      constructor
      · intro hno
        simp at hno
      · intro hall
        exact absurd hu (hall.1 f hf)

theorem findInHistory_first (r : String) (l : List Submission)
    (h : ∃ s ∈ l, ∃ f ∈ s.files, f.url = r) :
    ∃ pre s post f, l = pre ++ s :: post ∧ (∀ s1 ∈ pre, ∀ f1 ∈ s1.files, f1.url ≠ r) ∧
      f ∈ s.files ∧ f.url = r ∧ findInHistory r l = some f := by
  induction l with
  | nil => simp at h
  | cons s rest ih =>
    cases hs : s.files.find? (fun f => f.url == r) with
    | some f =>
      obtain ⟨hf, hu⟩ := find_url_some hs
      exact ⟨[], s, rest, f, rfl, by simp, hf, hu, by simp [findInHistory, hs]⟩
    | none =>
      have hclean := (find_url_none_iff s.files r).mp hs
      have hrest : ∃ s1 ∈ rest, ∃ f ∈ s1.files, f.url = r := by
        obtain ⟨s1, hs1, f, hf, hu⟩ := h
        rcases List.mem_cons.mp hs1 with rfl | hs1
        · exact absurd hu (hclean f hf)
        · exact ⟨s1, hs1, f, hf, hu⟩
      obtain ⟨pre, s1, post, f, hl, hpre, hf, hu, hfind⟩ := ih hrest
      refine ⟨s :: pre, s1, post, f, by simp [hl], ?_, hf, hu, by simp [findInHistory, hs, hfind]⟩
      intro s2 hs2
      rcases List.mem_cons.mp hs2 with rfl | hs2
      · exact hclean
      · exact hpre s2 hs2

/-- C16: for a request by the client or the freelancer on an existing milestone and a file
reference `r`, the lookup finds a file exactly when a file with `url = r` is in the current
submission or in some entry of the submission history; when the current submission has one,
that entry of the current submission is chosen; otherwise the file comes from the first entry
that has one, in the order of the history as the schema hands it out (newest first); and the
answer is 404 "File not found" exactly when neither holds such a file. -/
theorem downloadSubmissionFile_lookup (db : Db) (user contractId milestoneId : ObjectId)
    (r : String) (inStorage : String → Bool) (c : Contract) (m : Milestone)
    (hfind : db.findContract contractId = some c)
    (haccess : c.client = user ∨ c.freelancer = user)
    (hm : findMilestone c.milestones milestoneId = some m) :
    ((∃ f, findSubmissionFile m r = some f) ↔
      ((∃ current, m.currentSubmission = some current ∧ ∃ f ∈ current.files, f.url = r) ∨
        ∃ s ∈ m.submissionHistory, ∃ f ∈ s.files, f.url = r)) ∧
    (∀ current, m.currentSubmission = some current → (∃ f ∈ current.files, f.url = r) →
      ∃ f ∈ current.files, f.url = r ∧ findSubmissionFile m r = some f) ∧
    ((∀ current, m.currentSubmission = some current → ∀ f ∈ current.files, f.url ≠ r) →
      (∃ s ∈ m.submissionHistory, ∃ f ∈ s.files, f.url = r) →
      ∃ pre s post f, sortHistory m.submissionHistory = pre ++ s :: post ∧
        (∀ s1 ∈ pre, ∀ f1 ∈ s1.files, f1.url ≠ r) ∧ f ∈ s.files ∧ f.url = r ∧
        findSubmissionFile m r = some f) ∧
    (downloadSubmissionFile db user contractId milestoneId r inStorage =
        (json 404 "File not found", none) ↔
      ((∀ current, m.currentSubmission = some current → ∀ f ∈ current.files, f.url ≠ r) ∧
        ∀ s ∈ m.submissionHistory, ∀ f ∈ s.files, f.url ≠ r)) := by
  have hdeny : (c.client != user && c.freelancer != user) = false := by
    rcases haccess with h | h <;> simp [h]
  have hnone : findSubmissionFile m r = none ↔
      ((∀ current, m.currentSubmission = some current → ∀ f ∈ current.files, f.url ≠ r) ∧
        ∀ s ∈ m.submissionHistory, ∀ f ∈ s.files, f.url ≠ r) := by
    cases hcur : m.currentSubmission with
    | none =>
      simp only [findSubmissionFile, hcur, findInHistory_none_iff, mem_sortHistory]
      simp
    | some current =>
      cases hf : current.files.find? (fun f => f.url == r) with
      | none =>
        have hclean := (find_url_none_iff current.files r).mp hf
        simp only [findSubmissionFile, hcur, hf, findInHistory_none_iff, mem_sortHistory,
          Option.some.injEq]
        exact ⟨fun h => ⟨fun _ e => e ▸ hclean, h⟩, fun h => h.2⟩
      | some f =>
        obtain ⟨hmem, hu⟩ := find_url_some hf
        simp only [findSubmissionFile, hcur, hf, Option.some.injEq]
        constructor
        · intro h
          simp at h
        · intro h
          exact absurd hu (h.1 current rfl f hmem)
  have hcurrent : ∀ current, m.currentSubmission = some current →
      (∃ f ∈ current.files, f.url = r) →
      ∃ f ∈ current.files, f.url = r ∧ findSubmissionFile m r = some f := by
    intro current hcur hex
    cases hf : current.files.find? (fun f => f.url == r) with
    | none =>
      obtain ⟨f, hmem, hu⟩ := hex
      exact absurd hu ((find_url_none_iff current.files r).mp hf f hmem)
    | some f =>
      obtain ⟨hmem, hu⟩ := find_url_some hf
      exact ⟨f, hmem, hu, by simp [findSubmissionFile, hcur, hf]⟩
  have hhistory : (∀ current, m.currentSubmission = some current →
        ∀ f ∈ current.files, f.url ≠ r) →
      (∃ s ∈ m.submissionHistory, ∃ f ∈ s.files, f.url = r) →
      ∃ pre s post f, sortHistory m.submissionHistory = pre ++ s :: post ∧
        (∀ s1 ∈ pre, ∀ f1 ∈ s1.files, f1.url ≠ r) ∧ f ∈ s.files ∧ f.url = r ∧
        findSubmissionFile m r = some f := by
    intro hclean hex
    have hex1 : ∃ s ∈ sortHistory m.submissionHistory, ∃ f ∈ s.files, f.url = r := by
      obtain ⟨s, hs, hf⟩ := hex
      exact ⟨s, (mem_sortHistory s _).mpr hs, hf⟩
    obtain ⟨pre, s, post, f, hl, hpre, hf, hu, hfound⟩ := findInHistory_first r _ hex1
    refine ⟨pre, s, post, f, hl, hpre, hf, hu, ?_⟩
    cases hcur : m.currentSubmission with
    | none => simpa [findSubmissionFile, hcur] using hfound
    | some current =>
      have hno := (find_url_none_iff current.files r).mpr (hclean current hcur)
      simp only [findSubmissionFile, hcur, hno]
      exact hfound
  refine ⟨?_, hcurrent, hhistory, ?_⟩
  · constructor
    · rintro ⟨f, hf⟩
      by_contra hno
      have : findSubmissionFile m r = none := by
        rw [hnone]
        constructor
        · intro current hcur f1 hf1 hu
          exact hno (Or.inl ⟨current, hcur, f1, hf1, hu⟩)
        · intro s hs f1 hf1 hu
          exact hno (Or.inr ⟨s, hs, f1, hf1, hu⟩)
      rw [this] at hf
      simp at hf
    · intro h
      cases hres : findSubmissionFile m r with
      | some f => exact ⟨f, rfl⟩
      | none =>
        obtain ⟨h1, h2⟩ := hnone.mp hres
        rcases h with ⟨current, hcur, f, hf, hu⟩ | ⟨s, hs, f, hf, hu⟩
        · exact absurd hu (h1 current hcur f hf)
        · exact absurd hu (h2 s hs f hf)
  · rw [← hnone]
    cases hres : findSubmissionFile m r with
    | none => simp [downloadSubmissionFile, hfind, hdeny, hm, hres]
    | some f =>
      simp only [downloadSubmissionFile, hfind, hdeny, hm, hres]
      by_cases hst : inStorage f.url = true <;> simp [hst, json]

/-- Witness for C16: in `archiveMilestone` the url "f2" is in the current submission and in
the older history entry, and the file of the current submission is chosen; "f1" is only in
the history and comes from its first entry; an unknown url is answered 404. -/
theorem downloadSubmissionFile_lookup_witness :
    archiveDb.findContract 60 = some archiveContract ∧
    findMilestone archiveContract.milestones 61 = some archiveMilestone ∧
    (∃ f ∈ archiveCurrent.files, f.url = "f2" ∧
      findSubmissionFile archiveMilestone "f2" = some f) ∧
    downloadSubmissionFile archiveDb 200 60 61 "f2" (fun _ => true) =
      (json 200 "", some { filename := "final.png", url := "f2", mimetype := "image/png",
                           size := 30 }) ∧
    downloadSubmissionFile archiveDb 200 60 61 "f1" (fun _ => true) =
      (json 200 "", some { filename := "second.png", url := "f1", mimetype := "image/png",
                           size := 20 }) ∧
    downloadSubmissionFile archiveDb 200 60 61 "f9" (fun _ => true) =
      (json 404 "File not found", none) :=
  ⟨by decide, by decide,
    (downloadSubmissionFile_lookup archiveDb 200 60 61 "f2" (fun _ => true) archiveContract
      archiveMilestone (by decide) (Or.inr rfl) (by decide)).2.1 archiveCurrent rfl
      ⟨{ filename := "final.png", url := "f2", mimetype := "image/png", size := 30 },
        by decide, rfl⟩,
    by decide, by decide, by decide⟩

/-! ## fundEscrow: the status after funding -/

/-- C19: whenever `fundEscrow` answers 200, whatever the contract's status and balance were
and whatever the amount is (no comparison with `totalAmount` is made), the caller is the
client and the stored contract is the old one with the amount added to the balance and with
status "funded". -/
theorem fundEscrow_always_funded (db : Db) (user contractId : ObjectId) (amount : Option Int)
    (c : Contract) (hfind : db.findContract contractId = some c)
    (hok : (fundEscrow db user contractId amount).1.code = 200) :
    ∃ a c1, amount = some a ∧ c.client = user ∧
      (fundEscrow db user contractId amount).2.findContract contractId = some c1 ∧
      c1.status = "funded" ∧
      c1 = { c with escrowBalance := c.escrowBalance + a, status := "funded" } := by
  by_cases hcl : c.client = user
  swap
  · simp [fundEscrow, hfind, hcl, json] at hok
  subst hcl
  cases amount with
  | none => simp [fundEscrow, hfind, json] at hok
  | some a =>
    cases hsave : db.saveContract
        { c with escrowBalance := c.escrowBalance + a, status := "funded" } with
    | none => simp [fundEscrow, hfind, hsave, json] at hok
    | some db1 =>
      obtain ⟨_, hdb1⟩ := saveContract_some hsave
      refine ⟨a, { c with escrowBalance := c.escrowBalance + a, status := "funded" }, rfl, rfl,
        ?_, rfl, rfl⟩
      have hstored := findContract_saved db c
        { c with escrowBalance := c.escrowBalance + a, status := "funded" } contractId hfind rfl
      simp only [fundEscrow, hfind, hsave]
      rw [hdb1]
      simpa using hstored

/-- Witness for C19: funding 30 on `draftContract` (status "draft", `totalAmount` 50) and
funding 10 on `paidContract` (status "active") both store status "funded". -/
theorem fundEscrow_always_funded_witness :
    draftDb.findContract 10 = some draftContract ∧
    (fundEscrow draftDb 100 10 (some 30)).1.code = 200 ∧
    (∃ a c1, some (30 : Int) = some a ∧ draftContract.client = 100 ∧
      (fundEscrow draftDb 100 10 (some 30)).2.findContract 10 = some c1 ∧
      c1.status = "funded" ∧
      c1 = { draftContract with
             escrowBalance := draftContract.escrowBalance + a, status := "funded" }) ∧
    (fundEscrow paidDb 100 40 (some 10)).2.findContract 40 =
      some { paidContract with escrowBalance := 10, status := "funded" } :=
  ⟨by decide, by decide,
    fundEscrow_always_funded draftDb 100 10 (some 30) draftContract (by decide) (by decide),
    by decide⟩

/-! ## validateJobInput -/

theorem mem_keys_setError (errors : List (String × String)) (field message k : String) :
    k ∈ (setError errors field message).map Prod.fst ↔
      k = field ∨ k ∈ errors.map Prod.fst := by
  unfold setError
  split
  · rename_i hany
    simp only [List.any_eq_true, beq_iff_eq] at hany
    obtain ⟨e, he, hfield⟩ := hany
    simp only [List.map_map, List.mem_map, Function.comp]
    constructor
    · rintro ⟨x, hx, rfl⟩
      by_cases hxf : x.1 = field
      · left; simp [hxf]
      · right; exact ⟨x, hx, by simp [hxf]⟩
    · rintro (rfl | ⟨x, hx, rfl⟩)
      · exact ⟨e, he, by simp [hfield]⟩
      · by_cases hxf : x.1 = field
        · exact ⟨x, hx, by simp [hxf]⟩
        · exact ⟨x, hx, by simp [hxf]⟩
  · simp only [List.map_append, List.mem_append, List.map_cons, List.map_nil,
      List.mem_singleton]
    tauto

theorem mem_keys_setIf (errors : List (String × String)) (cond : Bool)
    (field message k : String) :
    k ∈ (if cond then setError errors field message else errors).map Prod.fst ↔
      (cond = true ∧ k = field) ∨ k ∈ errors.map Prod.fst := by
  cases cond
  · simp
  · simp only [if_true, mem_keys_setError]
    simp

theorem mem_keys_enumErrors (errors : List (String × String)) (field : String)
    (value : Option String) (allowed : List String) (message k : String) :
    k ∈ (enumErrors errors field value allowed message).map Prod.fst ↔
      (truthyNotIn value allowed = true ∧ k = field) ∨ k ∈ errors.map Prod.fst := by
  unfold enumErrors
  exact mem_keys_setIf errors _ field message k

theorem mem_keys_budgetErrors (errors : List (String × String))
    (budget : Option BudgetInput) (k : String) :
    k ∈ (budgetErrors errors budget).map Prod.fst ↔
      ((∃ b, budget = some b ∧ budgetRejected b = true) ∧ k = "budget") ∨
        k ∈ errors.map Prod.fst := by
  cases budget with
  | none => simp [budgetErrors]
  | some b =>
    unfold budgetErrors
    simp only [Option.some.injEq, exists_eq_left', budgetRejected]
    by_cases h1 : (falsyNum b.min || falsyNum b.max) = true
    · rw [if_pos h1, mem_keys_setError]
      simp only [Bool.or_eq_true] at h1 ⊢
      tauto
    · rw [if_neg h1]
      by_cases h2 : (numLt b.min (some 0) || numLt b.max (some 0)) = true
      · rw [if_pos h2, mem_keys_setError]
        simp only [Bool.or_eq_true] at h1 h2 ⊢
        tauto
      · rw [if_neg h2]
        by_cases h3 : numLt b.max b.min = true
        · rw [if_pos h3, mem_keys_setError]
          simp only [Bool.or_eq_true] at h1 h2 ⊢
          tauto
        · rw [if_neg h3]
          simp only [Bool.or_eq_true] at h1 h2 ⊢
          tauto

theorem mem_keys_required (fields : List (String × Bool)) (init : List (String × String))
    (k : String) :
    k ∈ (fields.foldl
        (fun errors field =>
          if field.2 then setError errors field.1 (field.1 ++ " is required") else errors)
        init).map Prod.fst ↔
      (∃ f ∈ fields, f.2 = true ∧ k = f.1) ∨ k ∈ init.map Prod.fst := by
  induction fields generalizing init with
  | nil => simp
  | cons f rest ih =>
    simp only [List.foldl_cons, ih, mem_keys_setIf, List.mem_cons, exists_eq_or_imp]
    constructor
    · rintro (h | h | h)
      · exact Or.inl (Or.inr h)
      · exact Or.inl (Or.inl h)
      · exact Or.inr h
    · rintro ((h | h) | h)
      · exact Or.inr (Or.inl h)
      · exact Or.inl h
      · exact Or.inr (Or.inr h)

theorem budgetRejected_iff (b : BudgetInput) :
    budgetRejected b = true ↔
      (b.min = none ∨ b.min = some 0 ∨ b.max = none ∨ b.max = some 0 ∨
        ∃ lo hi, b.min = some lo ∧ b.max = some hi ∧ (lo < 0 ∨ hi < 0 ∨ hi < lo)) := by
  unfold budgetRejected
  cases hmin : b.min with
  | none => simp [falsyNum]
  | some lo =>
    cases hmax : b.max with
    | none => simp [falsyNum]
    | some hi =>
      simp only [falsyNum, numLt, Bool.or_eq_true, beq_iff_eq, decide_eq_true_eq,
        Option.some.injEq, exists_and_left, exists_eq_left', false_or, reduceCtorEq]
      constructor
      · rintro ((((h | h) | h) | h) | h)
        · exact Or.inl h
        · exact Or.inr (Or.inl h)
        · exact Or.inr (Or.inr (Or.inl h))
        · exact Or.inr (Or.inr (Or.inr (Or.inl h)))
        · exact Or.inr (Or.inr (Or.inr (Or.inr h)))
      · rintro (h | h | h | h | h)
        · exact Or.inl (Or.inl (Or.inl (Or.inl h)))
        · exact Or.inl (Or.inl (Or.inl (Or.inr h)))
        · exact Or.inl (Or.inl (Or.inr h))
        · exact Or.inl (Or.inr h)
        · exact Or.inr h

/-- The keys of the `errors` object of `validateJobInput`, in terms of the tests of the
source. -/
theorem mem_keys_validateJobInput (d : JobInput) (k : String) :
    k ∈ (validateJobInput d).errors.map Prod.fst ↔
      (truthyNotIn d.category validCategories = true ∧ k = "category") ∨
      (truthyNotIn d.timeline timelines = true ∧ k = "timeline") ∨
      (truthyNotIn d.experienceLevel experienceLevels = true ∧ k = "experienceLevel") ∨
      (truthyNotIn d.budgetType budgetTypes = true ∧ k = "budgetType") ∨
      ((∃ b, d.budget = some b ∧ budgetRejected b = true) ∧ k = "budget") ∨
      (falsyStr d.title = true ∧ k = "title") ∨
      (falsyStr d.description = true ∧ k = "description") ∨
      (falsyStr d.category = true ∧ k = "category") ∨
      (d.budget = none ∧ k = "budget") ∨
      (falsyStr d.budgetType = true ∧ k = "budgetType") ∨
      (falsyStr d.timeline = true ∧ k = "timeline") ∨
      (falsyStr d.experienceLevel = true ∧ k = "experienceLevel") := by
  simp only [validateJobInput, mem_keys_enumErrors, mem_keys_budgetErrors, mem_keys_required,
    requiredFields, List.mem_cons, List.mem_singleton, exists_eq_or_imp, exists_eq_left,
    List.map_nil, List.not_mem_nil, or_false, Option.isNone_iff_eq_none, exists_false,
    false_and]

theorem falsy_or_notIn (value : Option String) (allowed : List String) :
    (falsyStr value = true ∨ truthyNotIn value allowed = true) ↔
      (falsyStr value = true ∨ ∃ v, value = some v ∧ v ∉ allowed) := by
  cases value with
  | none => simp [falsyStr]
  | some v =>
    by_cases hv : v = ""
    · subst hv
      simp [falsyStr]
    · simp [falsyStr, truthyNotIn, hv]

theorem regroup_keys {T D C B BT TL E c2 b2 bt2 tl2 e2 kt kd kc kb kbt ktl ke : Prop} :
    ((c2 ∧ kc) ∨ (tl2 ∧ ktl) ∨ (e2 ∧ ke) ∨ (bt2 ∧ kbt) ∨ (b2 ∧ kb) ∨ (T ∧ kt) ∨ (D ∧ kd) ∨
        (C ∧ kc) ∨ (B ∧ kb) ∨ (BT ∧ kbt) ∨ (TL ∧ ktl) ∨ (E ∧ ke)) ↔
      ((kt ∧ T) ∨ (kd ∧ D) ∨ (kc ∧ (C ∨ c2)) ∨ (kb ∧ (B ∨ b2)) ∨ (kbt ∧ (BT ∨ bt2)) ∨
        (ktl ∧ (TL ∨ tl2)) ∨ (ke ∧ (E ∨ e2))) := by
  constructor
  · rintro (⟨h1, h2⟩ | ⟨h1, h2⟩ | ⟨h1, h2⟩ | ⟨h1, h2⟩ | ⟨h1, h2⟩ | ⟨h1, h2⟩ | ⟨h1, h2⟩ |
      ⟨h1, h2⟩ | ⟨h1, h2⟩ | ⟨h1, h2⟩ | ⟨h1, h2⟩ | ⟨h1, h2⟩) <;> simp [h1, h2]
  · rintro (⟨h1, h2⟩ | ⟨h1, h2⟩ | ⟨h1, h2 | h2⟩ | ⟨h1, h2 | h2⟩ | ⟨h1, h2 | h2⟩ |
      ⟨h1, h2 | h2⟩ | ⟨h1, h2 | h2⟩) <;> simp [h1, h2]

/-- C13 (what the code does): `validateJobInput` reports all violations together. For every
job input, a key is in the `errors` object exactly when it is one of `title`, `description`,
`category`, `budget`, `budgetType`, `timeline`, `experienceLevel` and that field is missing
(absent or empty), or it is one of `category`, `budgetType`, `timeline`, `experienceLevel`
and the value is outside its enum, or it is `budget` and the test of the code fires: a bound
missing or equal to 0, a negative bound, or minimum above maximum; `isValid` is true exactly
when `errors` is empty. The test on the bounds counts the number 0 as missing, so the key
`budget` is also reported for a valid range that has a zero bound: for `untitledJob`, whose
only violation is the missing title and whose budget range is `0 ≤ 0 ≤ 500`, the keys are
`title` and `budget`. -/
theorem validateJobInput_reports_all :
    (∀ d : JobInput,
      (∀ k, k ∈ (validateJobInput d).errors.map Prod.fst ↔
        (k = "title" ∧ falsyStr d.title = true) ∨
        (k = "description" ∧ falsyStr d.description = true) ∨
        (k = "category" ∧
          (falsyStr d.category = true ∨ ∃ v, d.category = some v ∧ v ∉ validCategories)) ∨
        (k = "budget" ∧
          (d.budget = none ∨ ∃ b, d.budget = some b ∧
            (b.min = none ∨ b.min = some 0 ∨ b.max = none ∨ b.max = some 0 ∨
              ∃ lo hi, b.min = some lo ∧ b.max = some hi ∧ (lo < 0 ∨ hi < 0 ∨ hi < lo)))) ∨
        (k = "budgetType" ∧
          (falsyStr d.budgetType = true ∨ ∃ v, d.budgetType = some v ∧ v ∉ budgetTypes)) ∨
        (k = "timeline" ∧
          (falsyStr d.timeline = true ∨ ∃ v, d.timeline = some v ∧ v ∉ timelines)) ∨
        (k = "experienceLevel" ∧
          (falsyStr d.experienceLevel = true ∨
            ∃ v, d.experienceLevel = some v ∧ v ∉ experienceLevels))) ∧
      ((validateJobInput d).isValid = true ↔ (validateJobInput d).errors = [])) ∧
    untitledJob.title = none ∧
    untitledJob.budget = some { min := some 0, max := some 500 } ∧
    validateJobInput untitledJob =
      { isValid := false,
        errors := [("title", "title is required"),
                   ("budget", "Both minimum and maximum budget are required")] } := by
  refine ⟨fun d => ⟨fun k => ?_, ?_⟩, by decide, by decide, by decide⟩
  · rw [mem_keys_validateJobInput]
    have hc := falsy_or_notIn d.category validCategories
    have hb := falsy_or_notIn d.budgetType budgetTypes
    have ht := falsy_or_notIn d.timeline timelines
    have he := falsy_or_notIn d.experienceLevel experienceLevels
    have hbud : (∃ b, d.budget = some b ∧ budgetRejected b = true) ↔
        ∃ b, d.budget = some b ∧
          (b.min = none ∨ b.min = some 0 ∨ b.max = none ∨ b.max = some 0 ∨
            ∃ lo hi, b.min = some lo ∧ b.max = some hi ∧ (lo < 0 ∨ hi < 0 ∨ hi < lo)) := by
      constructor
      · rintro ⟨b, hb1, hb2⟩
        exact ⟨b, hb1, (budgetRejected_iff b).mp hb2⟩
      · rintro ⟨b, hb1, hb2⟩
        exact ⟨b, hb1, (budgetRejected_iff b).mpr hb2⟩
    rw [regroup_keys, hc, hb, ht, he, hbud]
  · simp [validateJobInput]

/-- When `validateJobInput` accepts an input: every required field is present, every enum
field has a value of its enum, and the budget has both bounds with `0 < min ≤ max`. -/
theorem validateJobInput_isValid_iff (d : JobInput) :
    (validateJobInput d).isValid = true ↔
      falsyStr d.title = false ∧ falsyStr d.description = false ∧
      (∃ v ∈ validCategories, d.category = some v) ∧
      (∃ v ∈ budgetTypes, d.budgetType = some v) ∧
      (∃ v ∈ timelines, d.timeline = some v) ∧
      (∃ v ∈ experienceLevels, d.experienceLevel = some v) ∧
      ∃ b lo hi, d.budget = some b ∧ b.min = some lo ∧ b.max = some hi ∧ 0 < lo ∧ lo ≤ hi := by
  have hvalid : (validateJobInput d).isValid = true ↔
      ∀ k, k ∉ (validateJobInput d).errors.map Prod.fst := by
    have h1 : (validateJobInput d).isValid = true ↔ (validateJobInput d).errors = [] := by
      simp [validateJobInput]
    rw [h1]
    constructor
    · intro h k
      rw [h]
      simp
    · intro h
      cases he : (validateJobInput d).errors with
      | nil => rfl
      | cons e rest =>
        exact absurd (by rw [he]; simp) (h e.1)
  have henum : ∀ (value : Option String) (allowed : List String), "" ∉ allowed →
      ((falsyStr value = false ∧ truthyNotIn value allowed = false) ↔
        ∃ v ∈ allowed, value = some v) := by
    intro value allowed hempty
    cases value with
    | none => simp [falsyStr]
    | some v =>
      by_cases hv : v = ""
      · subst hv
        simp [falsyStr, hempty]
      · simp [falsyStr, truthyNotIn, hv]
  have hbudget : (d.budget ≠ none ∧ ¬ ∃ b, d.budget = some b ∧ budgetRejected b = true) ↔
      ∃ b lo hi, d.budget = some b ∧ b.min = some lo ∧ b.max = some hi ∧ 0 < lo ∧ lo ≤ hi := by
    cases hb : d.budget with
    | none => simp
    | some b =>
      simp only [ne_eq, reduceCtorEq, not_false_eq_true, Option.some.injEq, exists_eq_left',
        true_and, exists_and_left]
      rw [budgetRejected_iff]
      cases hmin : b.min with
      | none => simp
      | some lo =>
        cases hmax : b.max with
        | none => simp
        | some hi =>
          simp only [reduceCtorEq, Option.some.injEq, false_or, exists_and_left,
            exists_eq_left', not_or, not_lt]
          constructor
          · rintro ⟨h1, h2, h3, _, h5⟩
            exact ⟨lt_of_le_of_ne h3 (Ne.symm h1), h5⟩
          · rintro ⟨h1, h2⟩
            exact ⟨ne_of_gt h1, ne_of_gt (lt_of_lt_of_le h1 h2), le_of_lt h1,
              le_trans (le_of_lt h1) h2, h2⟩
  rw [hvalid, ← henum d.category validCategories (by decide),
    ← henum d.budgetType budgetTypes (by decide), ← henum d.timeline timelines (by decide),
    ← henum d.experienceLevel experienceLevels (by decide), ← hbudget]
  constructor
  · intro h
    have ht := h "title"
    have hd := h "description"
    have hc := h "category"
    have hb := h "budget"
    have hbt := h "budgetType"
    have htl := h "timeline"
    have he := h "experienceLevel"
    rw [mem_keys_validateJobInput] at ht hd hc hb hbt htl he
    simp only [not_or, not_and, String.reduceEq, not_false_eq_true, implies_true, and_true,
      true_and, not_true_eq_false, imp_false, Bool.not_eq_true] at ht hd hc hb hbt htl he
    exact ⟨ht, hd, ⟨hc.2, hc.1⟩, ⟨hbt.2, hbt.1⟩, ⟨htl.2, htl.1⟩, ⟨he.2, he.1⟩, hb.2, hb.1⟩
  · rintro ⟨ht, hd, ⟨hc1, hc2⟩, ⟨hbt1, hbt2⟩, ⟨htl1, htl2⟩, ⟨he1, he2⟩, hb1, hb2⟩ k
    rw [mem_keys_validateJobInput]
    simp [ht, hd, hc1, hc2, hbt1, hbt2, htl1, htl2, he1, he2, hb1, hb2]

/-- C14 (the failing input): `zeroMinJob` has every required field, enum values of the
enums and the budget range `0 ≤ 0 ≤ 500`, and `validateJobInput` rejects it, reporting the
budget as missing. -/
theorem validateJobInput_rejects_zero_bound :
    zeroMinJob.budget = some { min := some 0, max := some 500 } ∧
    validateJobInput zeroMinJob =
      { isValid := false,
        errors := [("budget", "Both minimum and maximum budget are required")] } ∧
    (validateJobInput { zeroMinJob with budget := some { min := some 1, max := some 500 } }
      ).isValid = true := by
  decide

/-! ## getJobs: the budget filter -/

/-- C15: for a job with budget range `[jmin, jmax]`, `jmin ≤ jmax`, and a filter range
`[fmin, fmax]`, `fmin ≤ fmax`, the budget filter of `getJobs` keeps the job exactly when
`jmax ≥ fmin` and `jmin ≤ fmax`, which holds exactly when the two closed intervals share a
point; with only one bound supplied only the corresponding inequality is applied, with none
supplied every job passes, and a job selected by the whole filter passes the budget filter. -/
theorem budgetFilter_overlap (job : Job) (fmin fmax : Int)
    (hj : job.budget.min ≤ job.budget.max) (hf : fmin ≤ fmax) :
    (budgetFilter (some fmin) (some fmax) job = true ↔
      (job.budget.max ≥ fmin ∧ job.budget.min ≤ fmax)) ∧
    ((job.budget.max ≥ fmin ∧ job.budget.min ≤ fmax) ↔
      ∃ x, job.budget.min ≤ x ∧ x ≤ job.budget.max ∧ fmin ≤ x ∧ x ≤ fmax) ∧
    (budgetFilter (some fmin) none job = true ↔ job.budget.max ≥ fmin) ∧
    (budgetFilter none (some fmax) job = true ↔ job.budget.min ≤ fmax) ∧
    budgetFilter none none job = true ∧
    (∀ (query : JobQuery) (searchHit : Job → Bool) (accepted : List ObjectId),
      jobFilter query searchHit accepted job = true →
        budgetFilter query.budgetMin query.budgetMax job = true) := by
  refine ⟨by simp [budgetFilter], ?_, by simp [budgetFilter], by simp [budgetFilter],
    by simp [budgetFilter], ?_⟩
  · constructor
    · rintro ⟨h1, h2⟩
      by_cases hc : job.budget.min ≤ fmin
      · exact ⟨fmin, hc, h1, le_refl _, hf⟩
      · exact ⟨job.budget.min, le_refl _, hj, by omega, h2⟩
    · rintro ⟨x, h1, h2, h3, h4⟩
      exact ⟨by omega, by omega⟩
  · intro query searchHit accepted h
    simp only [jobFilter, Bool.and_eq_true] at h
    exact h.1.2

/-- Witness for C15: a job with budget 100 to 200 is kept by the filter range 150 to 300,
which overlaps it without containing it, and dropped by the range 201 to 300. -/
theorem budgetFilter_overlap_witness :
    budgetFilter (some 150) (some 300)
      { id := 1, client := 100, budget := { min := 100, max := 200 } } = true ∧
    budgetFilter (some 201) (some 300)
      { id := 1, client := 100, budget := { min := 100, max := 200 } } = false ∧
    ∃ x : Int, 100 ≤ x ∧ x ≤ 200 ∧ 150 ≤ x ∧ x ≤ 300 :=
  ⟨by decide, by decide,
    (budgetFilter_overlap { id := 1, client := 100, budget := { min := 100, max := 200 } }
      150 300 (by decide) (by decide)).2.1.mp ⟨by decide, by decide⟩⟩

/-! ## updateProposalStatus -/

theorem findProposal_id_eq {db : Db} {id : ObjectId} {p : Proposal}
    (h : db.findProposal id = some p) : p.id = id := by
  have := List.find?_some h
  simpa using this

theorem saveProposal_some {db db1 : Db} {p : Proposal} (h : db.saveProposal p = some db1) :
    validProposal p = true ∧
    db1 = { db with proposals := db.proposals.map (fun q => if q.id == p.id then p else q) } := by
  unfold Db.saveProposal at h
  split at h
  · rename_i hv
    exact ⟨hv, by simpa using h.symm⟩
  · simp at h

/-- For a status that is neither "accepted" nor "declined" the notification type is
"PROPOSAL_STATUS_UPDATED", which the notification schema rejects: the owner's call stores the
new proposal status, creates no notification and is answered 500. -/
theorem updateProposalStatus_other_status (db : Db) (user id : ObjectId) (status : String)
    (clientNotes : Option String) (proposal : Proposal) (job : Job)
    (hp : db.findProposal id = some proposal) (hj : db.findJob proposal.job = some job)
    (howner : job.client = user) (h1 : status ≠ "accepted") (h2 : status ≠ "declined") :
    (updateProposalStatus db user id status clientNotes).1 =
      json 500 "Internal server error" ∧
    (updateProposalStatus db user id status clientNotes).2.notifications =
      db.notifications := by
  subst howner
  cases hsave : db.saveProposal
      { proposal with
        status := status
        clientNotes := if falsyStr clientNotes then proposal.clientNotes else clientNotes } with
  | none => simp [updateProposalStatus, hp, hj, hsave]
  | some db1 =>
    have hdb1 : db1.notifications = db.notifications := by
      rw [(saveProposal_some hsave).2]
    have hnote : db1.saveNotification
        { recipient := proposal.freelancer, sender := job.client,
          type := "PROPOSAL_STATUS_UPDATED", job := some job.id,
          proposal := some proposal.id } = none := by
      unfold Db.saveNotification
      have : validNotification
          { recipient := proposal.freelancer, sender := job.client,
            type := "PROPOSAL_STATUS_UPDATED", job := some job.id,
            proposal := some proposal.id } = false := by
        simp only [validNotification]
        decide
      simp [this]
    simp [updateProposalStatus, hp, hj, hsave, h1, h2, hnote, hdb1]

/-- C17 (the failing input): the owner (user 100) of the job of proposal 2 sets the status
"interviewing", a member of the proposal status enum. The notification type chosen,
"PROPOSAL_STATUS_UPDATED", is not in the notification type enum; the call stores the new
status, creates no notification and is answered 500. The same holds for "pending"; for
"accepted" the call is answered 200 with one PROPOSAL_ACCEPTED notification. -/
theorem updateProposalStatus_generic_type_rejected :
    proposalStatusEnum.contains "interviewing" = true ∧
    notificationTypeEnum.contains "PROPOSAL_STATUS_UPDATED" = false ∧
    updateProposalStatus freshDb 100 2 "interviewing" none =
      (json 500 "Internal server error",
        { freshDb with
          proposals := [{ id := 2, job := 1, freelancer := 200, status := "interviewing" }] }) ∧
    (updateProposalStatus freshDb 100 2 "pending" none).1 =
      json 500 "Internal server error" ∧
    updateProposalStatus freshDb 100 2 "accepted" none =
      (json 200 "Proposal status updated successfully",
        { freshDb with
          proposals := [{ id := 2, job := 1, freelancer := 200, status := "accepted" }]
          notifications :=
            [{ recipient := 200, sender := 100, type := "PROPOSAL_ACCEPTED", job := some 1,
               proposal := some 2 }] }) := by
  decide

/-! ## createContract: the milestone check -/

/-- When the first check of `createContract` passes, the milestone validation error is
answered exactly when some milestone has a falsy title, description, amount or due date; a
falsy amount is a missing one or the number 0. -/
theorem createContract_milestone_error_iff (db : Db) (user proposalId : ObjectId)
    (body : ContractInput) (ms : List MilestoneInput) (hms : body.milestones = some ms)
    (hreq : (falsyStr body.title || falsyStr body.scope || falsyStr body.terms) = false) :
    createContract db user proposalId body =
        (json 400 "Each milestone must have a title, description, amount, and due date", db) ↔
      ∃ m ∈ ms, falsyStr m.title = true ∨ falsyStr m.description = true ∨
        (m.amount = none ∨ m.amount = some 0) ∨ m.dueDate = none := by
  have hany : (ms.any (fun milestone =>
        falsyStr milestone.title || falsyStr milestone.description ||
        falsyNum milestone.amount || milestone.dueDate.isNone)) = true ↔
      ∃ m ∈ ms, falsyStr m.title = true ∨ falsyStr m.description = true ∨
        (m.amount = none ∨ m.amount = some 0) ∨ m.dueDate = none := by
    simp only [List.any_eq_true, Bool.or_eq_true, Option.isNone_iff_eq_none]
    constructor
    · rintro ⟨m, hm, h⟩
      refine ⟨m, hm, ?_⟩
      rcases h with ((h | h) | h) | h
      · exact Or.inl h
      · exact Or.inr (Or.inl h)
      · right; right; left
        cases ha : m.amount with
        | none => exact Or.inl rfl
        | some a =>
          rw [ha] at h
          simp only [falsyNum, beq_iff_eq] at h
          exact Or.inr (by rw [h])
      · exact Or.inr (Or.inr (Or.inr h))
    · rintro ⟨m, hm, h⟩
      refine ⟨m, hm, ?_⟩
      rcases h with h | h | (h | h) | h
      · exact Or.inl (Or.inl (Or.inl h))
      · exact Or.inl (Or.inl (Or.inr h))
      · exact Or.inl (Or.inr (by rw [h]; rfl))
      · exact Or.inl (Or.inr (by rw [h]; rfl))
      · exact Or.inr h
  rw [← hany]
  by_cases hc : (ms.any (fun milestone =>
        falsyStr milestone.title || falsyStr milestone.description ||
        falsyNum milestone.amount || milestone.dueDate.isNone)) = true
  · simp only [createContract, hms, hreq, hc]
    simp
  · refine ⟨fun h => ?_, fun h => absurd h hc⟩
    exfalso
    have hc1 : (ms.any (fun milestone =>
        falsyStr milestone.title || falsyStr milestone.description ||
        falsyNum milestone.amount || milestone.dueDate.isNone)) = false := by
      simpa using hc
    have hcode : (createContract db user proposalId body).1 =
        json 400 "Each milestone must have a title, description, amount, and due date" := by
      rw [h]
    simp only [createContract, hms, hreq, hc1] at hcode
    revert hcode
    repeat' (first | split | dsimp only)
    all_goals simp [json]

/-- C18 (the failing input): the body `zeroAmountBody` has one milestone with a title, a
description, a due date and the amount 0; `createContract` answers the milestone validation
error and writes nothing, while `addMilestone` stores a milestone with these values. -/
theorem createContract_rejects_zero_amount :
    zeroAmountBody.milestones =
      some [{ title := some "Kickoff", description := some "Meeting", amount := some 0,
              dueDate := some 500 }] ∧
    createContract freshDb 100 2 zeroAmountBody =
      (json 400 "Each milestone must have a title, description, amount, and due date",
        freshDb) ∧
    (createContract freshDb 100 2
      { zeroAmountBody with
        milestones := some [{ title := some "Kickoff", description := some "Meeting",
                              amount := some 1, dueDate := some 500 }] }).1.code = 201 ∧
    (addMilestone draftDb 100 10
      { title := some "Kickoff", description := some "Meeting", amount := some 0,
        dueDate := some 500 }).1 = json 200 "Milestone added successfully" := by
  decide

/-! ## createContract: a second contract for the same proposal -/

theorem buildMilestones_shift (ms : List MilestoneInput) (n n1 : Nat) (built : List Milestone)
    (h : buildMilestones n ms = some built) :
    ∃ built1, buildMilestones n1 ms = some built1 ∧ built1.length = built.length ∧
      built1.all validMilestone = built.all validMilestone := by
  induction ms generalizing n n1 built with
  | nil =>
    simp only [buildMilestones, Option.some.injEq] at h
    subst h
    exact ⟨[], rfl, rfl, rfl⟩
  | cons m rest ih =>
    unfold buildMilestones at h
    split at h
    · rename_i title description amount dueDate tail ht hd ha hdue htail
      simp only [Option.some.injEq] at h
      subst h
      obtain ⟨tail1, htail1, hlen, hall⟩ := ih (n + 1) (n1 + 1) tail htail
      refine ⟨{ id := n1, title := jsTrim title, description := description,
                 amount := amount, dueDate := dueDate, status := "pending" } :: tail1,
        by simp [buildMilestones, ht, hd, ha, hdue, htail1], by simp [hlen], ?_⟩
      simp only [List.all_cons, hall]
      rfl
    · simp at h

theorem buildMilestones_length (ms : List MilestoneInput) (n : Nat) (built : List Milestone)
    (h : buildMilestones n ms = some built) : built.length = ms.length := by
  induction ms generalizing n built with
  | nil =>
    simp only [buildMilestones, Option.some.injEq] at h
    subst h
    rfl
  | cons m rest ih =>
    unfold buildMilestones at h
    split at h
    · rename_i title description amount dueDate tail ht hd ha hdue htail
      simp only [Option.some.injEq] at h
      subst h
      simp [ih _ _ htail]
    · simp at h

/-- The contract document that `createContract` builds. -/
theorem createContract_run (db : Db) (user proposalId : ObjectId) (body : ContractInput)
    (ms : List MilestoneInput) (proposal : Proposal) (job : Job)
    (title scope terms : String) (totalAmount : Int) (built : List Milestone)
    (hms : body.milestones = some ms)
    (c1 : (falsyStr body.title || falsyStr body.scope || falsyStr body.terms) = false)
    (c2 : (ms.any (fun milestone =>
        falsyStr milestone.title || falsyStr milestone.description ||
        falsyNum milestone.amount || milestone.dueDate.isNone)) = false)
    (hp : db.findProposal proposalId = some proposal)
    (hj : db.findJob proposal.job = some job) (hc : job.client = user)
    (ht : body.title = some title) (hs : body.scope = some scope)
    (hte : body.terms = some terms) (hta : body.totalAmount = some totalAmount)
    (hb : buildMilestones (db.nextId + 1) ms = some built) :
    createContract db user proposalId body =
      match db.insertContract
          { id := db.nextId, job := job.id, proposal := proposalId, client := user,
            freelancer := proposal.freelancer, title := title, scope := scope,
            totalAmount := totalAmount, terms := terms, milestones := built } with
      | none => (json 500 "Error creating contract", db)
      | some db1 =>
        (json 201 "Contract created successfully",
          (db1.setProposalStatus proposal.id "accepted").setJobStatus job.id "in-progress") := by
  have c3 : (job.client != user) = false := by simp [hc]
  simp only [createContract, hms, c1, c2, hp, hj, c3]
  simp only [ht, hs, hte, hta, hb, Bool.false_eq_true, if_false]

/-- What a 201 answer of `createContract` means. -/
theorem createContract_created (db : Db) (user proposalId : ObjectId) (body : ContractInput)
    (hok : (createContract db user proposalId body).1.code = 201) :
    ∃ ms proposal job title scope terms totalAmount built db1,
      body.milestones = some ms ∧
      (falsyStr body.title || falsyStr body.scope || falsyStr body.terms) = false ∧
      (ms.any (fun milestone =>
        falsyStr milestone.title || falsyStr milestone.description ||
        falsyNum milestone.amount || milestone.dueDate.isNone)) = false ∧
      db.findProposal proposalId = some proposal ∧ db.findJob proposal.job = some job ∧
      job.client = user ∧ body.title = some title ∧ body.scope = some scope ∧
      body.terms = some terms ∧ body.totalAmount = some totalAmount ∧
      buildMilestones (db.nextId + 1) ms = some built ∧
      db.insertContract
        { id := db.nextId, job := job.id, proposal := proposalId, client := user,
          freelancer := proposal.freelancer, title := title, scope := scope,
          totalAmount := totalAmount, terms := terms, milestones := built } = some db1 ∧
      createContract db user proposalId body =
        (json 201 "Contract created successfully",
          (db1.setProposalStatus proposal.id "accepted").setJobStatus job.id "in-progress") := by
  cases hms : body.milestones with
  | none => simp [createContract, hms, json] at hok
  | some ms =>
  by_cases c1 : (falsyStr body.title || falsyStr body.scope || falsyStr body.terms) = true
  · simp [createContract, hms, c1, json] at hok
  have c1b : (falsyStr body.title || falsyStr body.scope || falsyStr body.terms) = false := by
    simpa using c1
  by_cases c2 : (ms.any (fun milestone =>
        falsyStr milestone.title || falsyStr milestone.description ||
        falsyNum milestone.amount || milestone.dueDate.isNone)) = true
  · simp only [createContract, hms, c1b, c2] at hok
    simp [json] at hok
  have c2b : (ms.any (fun milestone =>
        falsyStr milestone.title || falsyStr milestone.description ||
        falsyNum milestone.amount || milestone.dueDate.isNone)) = false := by
    simpa using c2
  cases hp : db.findProposal proposalId with
  | none =>
    simp only [createContract, hms, c1b, c2b, hp] at hok
    simp [json] at hok
  | some proposal =>
  cases hj : db.findJob proposal.job with
  | none =>
    simp only [createContract, hms, c1b, c2b, hp, hj] at hok
    simp [json] at hok
  | some job =>
  by_cases c3 : job.client = user
  swap
  · simp only [createContract, hms, c1b, c2b, hp, hj] at hok
    simp [c3, json] at hok
  have c3b : (job.client != user) = false := by simp [c3]
  have hok0 := hok
  simp only [createContract, hms, c1b, c2b, hp, hj, c3b] at hok0
  cases ht : body.title with
  | none => simp [falsyStr, ht] at c1b
  | some title =>
  cases hs : body.scope with
  | none => simp [falsyStr, hs] at c1b
  | some scope =>
  cases hte : body.terms with
  | none => simp [falsyStr, hte] at c1b
  | some terms =>
  cases hta : body.totalAmount with
  | none => simp [ht, hs, hte, hta, json] at hok0
  | some totalAmount =>
  cases hb : buildMilestones (db.nextId + 1) ms with
  | none => simp [ht, hs, hte, hta, hb, json] at hok0
  | some built =>
  have hrun := createContract_run db user proposalId body ms proposal job title scope terms
    totalAmount built hms c1b c2b hp hj c3 ht hs hte hta hb
  cases hins : db.insertContract
      { id := db.nextId, job := job.id, proposal := proposalId, client := user,
        freelancer := proposal.freelancer, title := title, scope := scope,
        totalAmount := totalAmount, terms := terms, milestones := built } with
  | none =>
    rw [hrun, hins] at hok
    simp [json] at hok
  | some db1 =>
    rw [hins] at hrun
    have c1c : (falsyStr (some title) || falsyStr (some scope) || falsyStr (some terms)) =
        false := by
      rw [ht, hs, hte] at c1b
      exact c1b
    exact ⟨ms, proposal, job, title, scope, terms, totalAmount, built, db1, rfl, c1c, c2b,
      rfl, hj, c3, rfl, rfl, rfl, rfl, hb, hins, hrun⟩

theorem insertContract_valid {db db1 : Db} {c : Contract}
    (h : db.insertContract c = some db1) :
    validContract c = true ∧ db1.nextId = db.nextId + 1 + c.milestones.length := by
  unfold Db.insertContract at h
  split at h
  · rename_i hv
    simp only [Option.some.injEq] at h
    subst h
    exact ⟨hv, rfl⟩
  · simp at h

/-- C20: for every store, client, proposal and pair of `createContract` requests that are each
answered 201 on that store, the first request leaves the proposal with status "accepted", and
the second request, sent after the first one, is answered 201 as well; the store then holds
two more contracts than before, with different ids, both referencing the same proposal and
both with the caller as client. -/
theorem createContract_twice (db : Db) (user proposalId : ObjectId)
    (body1 body2 : ContractInput)
    (hok1 : (createContract db user proposalId body1).1.code = 201)
    (hok2 : (createContract db user proposalId body2).1.code = 201) :
    (∃ p, (createContract db user proposalId body1).2.findProposal proposalId = some p ∧
      p.status = "accepted") ∧
    (createContract (createContract db user proposalId body1).2 user proposalId body2).1.code
      = 201 ∧
    ∃ first second : Contract,
      (createContract (createContract db user proposalId body1).2 user proposalId
        body2).2.contracts = db.contracts ++ [first, second] ∧
      first.proposal = proposalId ∧ second.proposal = proposalId ∧
      first.client = user ∧ second.client = user ∧ first.id ≠ second.id := by
  obtain ⟨ms1, p1, j1, t1, s1, te1, ta1, b1, dbA, hms1, c11, c21, hp1, hj1, hc1, ht1, hs1,
    hte1, hta1, hb1, hins1, hrun1⟩ := createContract_created db user proposalId body1 hok1
  obtain ⟨ms2, p2, j2, t2, s2, te2, ta2, b2, dbC, hms2, c12, c22, hp2, hj2, hc2, ht2, hs2,
    hte2, hta2, hb2, hins2, hrun2⟩ := createContract_created db user proposalId body2 hok2
  have hpp : p2 = p1 := by
    rw [hp1] at hp2
    exact (Option.some.inj hp2).symm
  subst hpp
  have hjj : j2 = j1 := by
    rw [hj1] at hj2
    exact (Option.some.inj hj2).symm
  subst hjj
  obtain ⟨hAc, hAp, hAj⟩ := insertContract_some hins1
  obtain ⟨-, hAn⟩ := insertContract_valid hins1
  obtain ⟨hv2, -⟩ := insertContract_valid hins2
  have hpid : p2.id = proposalId := findProposal_id_eq hp1
  subst hpid
  have hjid : j2.id = p2.job := by
    have := List.find?_some hj1
    simpa using this
  rw [hrun1]
  have hpB : ((dbA.setProposalStatus p2.id "accepted").setJobStatus j2.id
      "in-progress").findProposal p2.id = some { p2 with status := "accepted" } := by
    have h := findProposal_setProposalStatus dbA p2.id "accepted"
    have hA : dbA.findProposal p2.id = some p2 := by
      unfold Db.findProposal
      rw [hAp]
      exact hp1
    rw [hA] at h
    exact h
  have hjB : ((dbA.setProposalStatus p2.id "accepted").setJobStatus j2.id
      "in-progress").findJob p2.job = some { j2 with status := "in-progress" } := by
    have h := findJob_setJobStatus (dbA.setProposalStatus p2.id "accepted") j2.id "in-progress"
    have hA : (dbA.setProposalStatus p2.id "accepted").findJob j2.id = some j2 := by
      unfold Db.findJob Db.setProposalStatus
      simp only
      rw [hAj, hjid]
      exact hj1
    rw [hA] at h
    rw [← hjid]
    exact h
  have hnB : ((dbA.setProposalStatus p2.id "accepted").setJobStatus j2.id
      "in-progress").nextId = db.nextId + 1 + b1.length := hAn
  have hcB : ((dbA.setProposalStatus p2.id "accepted").setJobStatus j2.id
      "in-progress").contracts = db.contracts ++
        [{ id := db.nextId, job := j2.id, proposal := p2.id, client := user,
           freelancer := p2.freelancer, title := t1, scope := s1,
           totalAmount := ta1, terms := te1, milestones := b1 }] := hAc
  generalize (dbA.setProposalStatus p2.id "accepted").setJobStatus j2.id "in-progress" = dbB
    at hpB hjB hnB hcB ⊢
  obtain ⟨b3, hb3, -, hall⟩ := buildMilestones_shift ms2 (db.nextId + 1) (dbB.nextId + 1) b2 hb2
  have hv3 : validContract
      { id := dbB.nextId, job := j2.id, proposal := p2.id, client := user,
        freelancer := p2.freelancer, title := t2, scope := s2,
        totalAmount := ta2, terms := te2, milestones := b3 } = true := by
    simp only [validContract] at hv2 ⊢
    rw [hall]
    exact hv2
  have hrunB := createContract_run dbB user p2.id body2 ms2 { p2 with status := "accepted" }
    { j2 with status := "in-progress" } t2 s2 te2 ta2 b3 hms2 c12 c22 hpB hjB hc1 ht2 hs2 hte2
    hta2 hb3
  simp only [Db.insertContract, hv3, if_true] at hrunB
  refine ⟨⟨{ p2 with status := "accepted" }, hpB, rfl⟩, ?_, ?_⟩
  · rw [hrunB]
    rfl
  · refine ⟨{ id := db.nextId, job := j2.id, proposal := p2.id, client := user,
              freelancer := p2.freelancer, title := t1, scope := s1,
              totalAmount := ta1, terms := te1, milestones := b1 },
            { id := dbB.nextId, job := j2.id, proposal := p2.id, client := user,
              freelancer := p2.freelancer, title := t2, scope := s2,
              totalAmount := ta2, terms := te2, milestones := b3 }, ?_, rfl, rfl, rfl, rfl, ?_⟩
    · rw [hrunB]
      simp only [Db.setJobStatus, Db.setProposalStatus, hcB]
      simp
    · show db.nextId ≠ dbB.nextId
      rw [hnB]
      omega

/-- Witness for C20: on `freshDb` the client sends `sampleBody` twice; both requests are
answered 201 and two contracts, with ids 10 and 12, reference proposal 2. -/
theorem createContract_twice_witness :
    (createContract freshDb 100 2 sampleBody).1.code = 201 ∧
    ((∃ p, (createContract freshDb 100 2 sampleBody).2.findProposal 2 = some p ∧
      p.status = "accepted") ∧
    (createContract (createContract freshDb 100 2 sampleBody).2 100 2 sampleBody).1.code
      = 201 ∧
    ∃ first second : Contract,
      (createContract (createContract freshDb 100 2 sampleBody).2 100 2
        sampleBody).2.contracts = freshDb.contracts ++ [first, second] ∧
      first.proposal = 2 ∧ second.proposal = 2 ∧
      first.client = 100 ∧ second.client = 100 ∧ first.id ≠ second.id) :=
  ⟨by decide, createContract_twice freshDb 100 2 sampleBody sampleBody (by decide) (by decide)⟩

/-! ## createProposal: one proposal per job and freelancer -/

theorem sameProposals_refl (db : Db) : SameProposals db db := ⟨rfl, Nat.le_refl _⟩

theorem rows_setProposalStatus (db : Db) (id : ObjectId) (status : String) :
    (db.setProposalStatus id status).proposals.map (fun p => (p.id, p.job, p.freelancer)) =
      db.proposals.map (fun p => (p.id, p.job, p.freelancer)) := by
  simp only [Db.setProposalStatus, List.map_map]
  apply List.map_congr_left
  intro p _
  simp only [Function.comp]
  split <;> rfl

theorem keys_of_rows (l : List Proposal) :
    l.map (fun p => (p.job, p.freelancer)) =
      (l.map (fun p => (p.id, p.job, p.freelancer))).map (fun r => r.2) := by
  simp [List.map_map, Function.comp_def]

theorem ids_of_rows (l : List Proposal) :
    l.map (fun p => p.id) =
      (l.map (fun p => (p.id, p.job, p.freelancer))).map (fun r => r.1) := by
  simp [List.map_map, Function.comp_def]

theorem proposals_inv_of_same {db db1 : Db} (h : SameProposals db db1)
    (hu : ProposalsUnique db) (hf : ProposalIdsFresh db) :
    ProposalsUnique db1 ∧ ProposalIdsFresh db1 := by
  obtain ⟨hrows, hn⟩ := h
  refine ⟨?_, ?_, ?_⟩
  · unfold ProposalsUnique at hu ⊢
    rw [keys_of_rows, hrows, ← keys_of_rows]
    exact hu
  · rw [ids_of_rows, hrows, ← ids_of_rows]
    exact hf.1
  · intro p hp
    have hmem : p.id ∈ db1.proposals.map (fun p => p.id) := List.mem_map_of_mem _ hp
    rw [ids_of_rows, hrows, ← ids_of_rows] at hmem
    obtain ⟨q, hq, hqid⟩ := List.mem_map.mp hmem
    have hq2 : q.id = p.id := hqid
    rw [← hq2]
    exact Nat.lt_of_lt_of_le (hf.2 q hq) hn

theorem proposals_inv_of_sublist {db db1 : Db} (hs : db1.proposals.Sublist db.proposals)
    (hn : db.nextId ≤ db1.nextId) (hu : ProposalsUnique db) (hf : ProposalIdsFresh db) :
    ProposalsUnique db1 ∧ ProposalIdsFresh db1 := by
  refine ⟨?_, ?_, ?_⟩
  · exact List.Nodup.sublist (hs.map _) hu
  · exact List.Nodup.sublist (hs.map _) hf.1
  · intro p hp
    exact Nat.lt_of_lt_of_le (hf.2 p (hs.subset hp)) hn

theorem sameProposals_save {db db1 : Db} {c1 : Contract}
    (h : db.saveContract c1 = some db1) :
    db1.proposals = db.proposals ∧ db1.nextId = db.nextId := by
  obtain ⟨-, rfl⟩ := saveContract_some h
  exact ⟨rfl, rfl⟩

theorem sameProposals_of_eq {db db1 : Db} (hp : db1.proposals = db.proposals)
    (hn : db.nextId ≤ db1.nextId) : SameProposals db db1 := by
  refine ⟨?_, hn⟩
  rw [hp]

theorem sameProposals_createContract (db : Db) (user proposalId : ObjectId)
    (body : ContractInput) : SameProposals db (createContract db user proposalId body).2 := by
  unfold createContract
  repeat' (first | split | dsimp only)
  all_goals first
    | exact sameProposals_refl db
    | skip
  rename_i db1 hins
  obtain ⟨-, hp, -⟩ := insertContract_some hins
  obtain ⟨-, hn⟩ := insertContract_valid hins
  refine ⟨?_, ?_⟩
  · show (db1.setProposalStatus _ _).proposals.map _ = _
    rw [rows_setProposalStatus, hp]
  · show db.nextId ≤ db1.nextId
    rw [hn]
    omega

theorem sameProposals_fundEscrow (db : Db) (user contractId : ObjectId) (amount : Option Int) :
    SameProposals db (fundEscrow db user contractId amount).2 := by
  unfold fundEscrow
  repeat' (first | split | dsimp only)
  all_goals first
    | exact sameProposals_refl db
    | (have h1 := sameProposals_save (by assumption)
       exact sameProposals_of_eq h1.1 (Nat.le_of_eq h1.2.symm))

theorem sameProposals_activateContract (db : Db) (user contractId : ObjectId) (now : Nat) :
    SameProposals db (activateContract db user contractId now).2 := by
  unfold activateContract
  repeat' (first | split | dsimp only)
  all_goals first
    | exact sameProposals_refl db
    | (have h1 := sameProposals_save (by assumption)
       exact sameProposals_of_eq h1.1 (Nat.le_of_eq h1.2.symm))

theorem sameProposals_addMilestone (db : Db) (user contractId : ObjectId)
    (body : MilestoneInput) : SameProposals db (addMilestone db user contractId body).2 := by
  unfold addMilestone
  repeat' (first | split | dsimp only)
  all_goals first
    | exact sameProposals_refl db
    | (have h1 := sameProposals_save (by assumption)
       exact sameProposals_of_eq h1.1 (Nat.le_succ _))

theorem sameProposals_submitWork (db : Db) (user contractId milestoneId : ObjectId)
    (err : Option UploadError) (files : List UploadedFile) (comments : Option String)
    (now : Nat) :
    SameProposals db (submitWork db user contractId milestoneId err files comments now).2 := by
  unfold submitWork
  repeat' (first | split | dsimp only)
  all_goals first
    | exact sameProposals_refl db
    | (have h1 := sameProposals_save (by assumption)
       exact sameProposals_of_eq h1.1 (Nat.le_of_eq h1.2.symm))

theorem sameProposals_reviewSubmission (db : Db) (user contractId milestoneId : ObjectId)
    (status : String) (feedback : Option String) (now : Nat) :
    SameProposals db (reviewSubmission db user contractId milestoneId status feedback now).2 := by
  unfold reviewSubmission
  repeat' (first | split | dsimp only)
  all_goals first
    | exact sameProposals_refl db
    | (have h1 := sameProposals_save (by assumption)
       exact sameProposals_of_eq h1.1 (Nat.le_of_eq h1.2.symm))

theorem sameProposals_releasePayment (db : Db) (user contractId milestoneId : ObjectId) :
    SameProposals db (releasePayment db user contractId milestoneId).2 := by
  unfold releasePayment
  repeat' (first | split | dsimp only)
  all_goals first
    | exact sameProposals_refl db
    | (have h1 := sameProposals_save (by assumption)
       exact sameProposals_of_eq h1.1 (Nat.le_of_eq h1.2.symm))

theorem sameProposals_completeContract (db : Db) (user contractId : ObjectId) (now : Nat) :
    SameProposals db (completeContract db user contractId now).2 := by
  unfold completeContract
  repeat' (first | split | dsimp only)
  all_goals first
    | exact sameProposals_refl db
    | (have h1 := sameProposals_save (by assumption)
       exact sameProposals_of_eq h1.1 (Nat.le_of_eq h1.2.symm))

theorem sameProposals_step (db : Db) (call : Call) : SameProposals db (step db call) := by
  cases call with
  | createContract u p b => exact sameProposals_createContract db u p b
  | fundEscrow u c a => exact sameProposals_fundEscrow db u c a
  | activateContract u c n => exact sameProposals_activateContract db u c n
  | addMilestone u c b => exact sameProposals_addMilestone db u c b
  | submitWork u c m e f k n => exact sameProposals_submitWork db u c m e f k n
  | reviewSubmission u c m s f n => exact sameProposals_reviewSubmission db u c m s f n
  | releasePayment u c m => exact sameProposals_releasePayment db u c m
  | completeContract u c n => exact sameProposals_completeContract db u c n

theorem sameProposals_createJob (db : Db) (user : User) (body : JobInput) (now : Nat) :
    SameProposals db (createJob db user body now).2 := by
  unfold createJob
  repeat' (first | split | dsimp only)
  all_goals first
    | exact sameProposals_refl db
    | exact sameProposals_of_eq rfl (Nat.le_succ _)

theorem applyToJob_store (db : Db) (user : User) (id : ObjectId)
    (body : ApplicationInput) : (applyToJob db user id body).2 = db := by
  unfold applyToJob
  repeat' (first | split | dsimp only)

theorem sameProposals_updateJobStatus (db : Db) (user id : ObjectId) (status : Option String) :
    SameProposals db (updateJobStatus db user id status).2 := by
  unfold updateJobStatus
  repeat' (first | split | dsimp only)
  all_goals exact sameProposals_refl db

theorem rows_saveProposal (db db1 : Db) (id : ObjectId) (proposal : Proposal)
    (status : String) (notes : Option String)
    (hf : ProposalIdsFresh db) (hfind : db.findProposal id = some proposal)
    (hsave : db.saveProposal { proposal with status := status, clientNotes := notes } =
      some db1) :
    SameProposals db db1 := by
  obtain ⟨-, rfl⟩ := saveProposal_some hsave
  refine ⟨?_, Nat.le_refl _⟩
  show (db.proposals.map _).map _ = _
  rw [List.map_map]
  apply List.map_congr_left
  intro q hq
  simp only [Function.comp]
  by_cases hqp : q.id = proposal.id
  · have hmem : proposal ∈ db.proposals := List.mem_of_find?_eq_some hfind
    have hqq : q = proposal := List.inj_on_of_nodup_map hf.1 hq hmem hqp
    have hb : (q.id == proposal.id) = true := by simp [hqp]
    rw [if_pos hb, hqq]
  · have hb : ¬ (q.id == proposal.id) = true := by simp [hqp]
    rw [if_neg hb]

theorem saveNotification_some {db db2 : Db} {n : Notification}
    (h : db.saveNotification n = some db2) :
    db2.proposals = db.proposals ∧ db2.nextId = db.nextId := by
  unfold Db.saveNotification at h
  split at h
  · simp only [Option.some.injEq] at h
    subst h
    exact ⟨rfl, rfl⟩
  · simp at h

theorem proposals_inv_updateProposalStatus (db : Db) (user id : ObjectId) (status : String)
    (clientNotes : Option String) (hu : ProposalsUnique db) (hf : ProposalIdsFresh db) :
    ProposalsUnique (updateProposalStatus db user id status clientNotes).2 ∧
    ProposalIdsFresh (updateProposalStatus db user id status clientNotes).2 := by
  unfold updateProposalStatus
  split
  · exact ⟨hu, hf⟩
  rename_i proposal hfind
  split
  · exact ⟨hu, hf⟩
  rename_i job hjob
  split
  · exact ⟨hu, hf⟩
  cases hsave : db.saveProposal
      { proposal with
        status := status
        clientNotes := if falsyStr clientNotes then proposal.clientNotes else clientNotes } with
  | none => exact ⟨hu, hf⟩
  | some db1 =>
    have h1 := proposals_inv_of_same
      (rows_saveProposal db db1 id proposal status _ hf hfind hsave) hu hf
    dsimp only
    cases hnote : db1.saveNotification
        { recipient := proposal.freelancer, sender := user,
          type := if status == "accepted" then "PROPOSAL_ACCEPTED"
                  else if status == "declined" then "PROPOSAL_REJECTED"
                  else "PROPOSAL_STATUS_UPDATED",
          job := some job.id, proposal := some proposal.id } with
    | none => exact h1
    | some db2 =>
      have h2 := saveNotification_some hnote
      exact proposals_inv_of_same (sameProposals_of_eq h2.1 (Nat.le_of_eq h2.2.symm)) h1.1 h1.2

theorem proposals_inv_deleteProposal (db : Db) (user id : ObjectId)
    (hu : ProposalsUnique db) (hf : ProposalIdsFresh db) :
    ProposalsUnique (deleteProposal db user id).2 ∧
    ProposalIdsFresh (deleteProposal db user id).2 := by
  unfold deleteProposal
  repeat' (first | split | dsimp only)
  all_goals first
    | exact ⟨hu, hf⟩
    | exact proposals_inv_of_sublist (List.eraseP_sublist _) (Nat.le_refl _) hu hf

theorem proposals_inv_deleteJob (db : Db) (user id : ObjectId)
    (hu : ProposalsUnique db) (hf : ProposalIdsFresh db) :
    ProposalsUnique (deleteJob db user id).2 ∧ ProposalIdsFresh (deleteJob db user id).2 := by
  unfold deleteJob
  repeat' (first | split | dsimp only)
  all_goals first
    | exact ⟨hu, hf⟩
    | exact proposals_inv_of_sublist (List.filter_sublist _) (Nat.le_refl _) hu hf

theorem createProposal_cases (db : Db) (user : User) (jobId : ObjectId)
    (body : ProposalInput) :
    ((createProposal db user jobId body).2 = db ∧
      (createProposal db user jobId body).1.code ≠ 201) ∨
    (db.proposals.find? (fun p => p.job == jobId && p.freelancer == user.id) = none ∧
      (createProposal db user jobId body).1.code = 201 ∧
      (createProposal db user jobId body).2.proposals =
        db.proposals ++ [{ id := db.nextId, job := jobId, freelancer := user.id }] ∧
      (createProposal db user jobId body).2.nextId = db.nextId + 1) := by
  unfold createProposal
  repeat' (first | split | dsimp only)
  all_goals first
    | (left; exact ⟨rfl, by decide⟩)
    | (right; exact ⟨by assumption, rfl, rfl, rfl⟩)

theorem find_pair_none_iff (l : List Proposal) (jobId freelancer : ObjectId) :
    l.find? (fun p => p.job == jobId && p.freelancer == freelancer) = none ↔
      ¬ ∃ p ∈ l, p.job = jobId ∧ p.freelancer = freelancer := by
  rw [List.find?_eq_none]
  constructor
  · rintro h ⟨p, hp, hj, hf⟩
    exact h p hp (by simp [hj, hf])
  · intro h p hp hpair
    simp only [Bool.and_eq_true, beq_iff_eq] at hpair
    exact h ⟨p, hp, hpair.1, hpair.2⟩

theorem proposals_inv_createProposal (db : Db) (user : User) (jobId : ObjectId)
    (body : ProposalInput) (hu : ProposalsUnique db) (hf : ProposalIdsFresh db) :
    ProposalsUnique (createProposal db user jobId body).2 ∧
    ProposalIdsFresh (createProposal db user jobId body).2 := by
  rcases createProposal_cases db user jobId body with ⟨h, -⟩ | ⟨hnone, -, hp, hn⟩
  · rw [h]
    exact ⟨hu, hf⟩
  · have hno := (find_pair_none_iff db.proposals jobId user.id).mp hnone
    refine ⟨?_, ?_, ?_⟩
    · unfold ProposalsUnique at hu ⊢
      rw [hp, List.map_append, List.nodup_append]
      refine ⟨hu, List.nodup_singleton _, ?_⟩
      intro k hk hk2
      obtain ⟨q, hq, hqk⟩ := List.mem_map.mp hk
      simp only [List.map_cons, List.map_nil, List.mem_singleton] at hk2
      subst hk2
      simp only [Prod.mk.injEq] at hqk
      exact hno ⟨q, hq, hqk.1, hqk.2⟩
    · rw [hp, List.map_append, List.nodup_append]
      refine ⟨hf.1, List.nodup_singleton _, ?_⟩
      intro k hk hk2
      obtain ⟨q, hq, hqk⟩ := List.mem_map.mp hk
      simp only [List.map_cons, List.map_nil, List.mem_singleton] at hk2
      subst hk2
      have hlt := hf.2 q hq
      have hqk2 : q.id = db.nextId := hqk
      rw [hqk2] at hlt
      exact Nat.lt_irrefl _ hlt
    · intro p hmem
      rw [hp] at hmem
      rw [hn]
      rcases List.mem_append.mp hmem with hmem | hmem
      · exact Nat.lt_succ_of_lt (hf.2 p hmem)
      · rw [List.mem_singleton.mp hmem]
        exact Nat.lt_succ_self _

theorem proposals_inv_marketStep (db : Db) (call : MarketCall)
    (hu : ProposalsUnique db) (hf : ProposalIdsFresh db) :
    ProposalsUnique (marketStep db call) ∧ ProposalIdsFresh (marketStep db call) := by
  cases call with
  | createJob u b n => exact proposals_inv_of_same (sameProposals_createJob db u b n) hu hf
  | createProposal u j b => exact proposals_inv_createProposal db u j b hu hf
  | applyToJob u i b =>
    show ProposalsUnique (applyToJob db u i b).2 ∧ ProposalIdsFresh (applyToJob db u i b).2
    rw [applyToJob_store]
    exact ⟨hu, hf⟩
  | updateProposalStatus u i s c => exact proposals_inv_updateProposalStatus db u i s c hu hf
  | deleteProposal u i => exact proposals_inv_deleteProposal db u i hu hf
  | updateJobStatus u i s =>
    exact proposals_inv_of_same (sameProposals_updateJobStatus db u i s) hu hf
  | deleteJob u i => exact proposals_inv_deleteJob db u i hu hf
  | contract c => exact proposals_inv_of_same (sameProposals_step db c) hu hf

theorem proposals_inv_marketRun (calls : List MarketCall) (db : Db)
    (hu : ProposalsUnique db) (hf : ProposalIdsFresh db) :
    ProposalsUnique (marketRun db calls) ∧ ProposalIdsFresh (marketRun db calls) := by
  induction calls generalizing db with
  | nil => exact ⟨hu, hf⟩
  | cons call rest ih =>
    have h := proposals_inv_marketStep db call hu hf
    exact ih (marketStep db call) h.1 h.2

/-- C11 (amended): in every store reached from a store without proposals by job, proposal and
contract requests served one after the other, there is at most one proposal per
(job, freelancer) pair. A `createProposal` request of freelancer F for job J that is answered
201 stores a proposal of F for J. In every store that holds a proposal of F for J, a
`createProposal` request of F for J changes nothing in the store and is not answered 201;
when it carries a cover letter, a bid amount and an estimated duration, F has the role
"freelancer" and J is still open, it is answered 400 "You have already submitted a proposal
for this job". -/
theorem createProposal_at_most_once (db0 : Db) (calls : List MarketCall) (user : User)
    (jobId : ObjectId) (body : ProposalInput) (h0 : db0.proposals = []) :
    ProposalsUnique (marketRun db0 calls) ∧
    (∀ db : Db, (createProposal db user jobId body).1.code = 201 →
      ∃ p ∈ (createProposal db user jobId body).2.proposals,
        p.job = jobId ∧ p.freelancer = user.id) ∧
    (∀ db : Db, (∃ p ∈ db.proposals, p.job = jobId ∧ p.freelancer = user.id) →
      (createProposal db user jobId body).2 = db ∧
      (createProposal db user jobId body).1.code ≠ 201 ∧
      (∀ job : Job, falsyStr body.coverLetter = false → body.bidAmount.isNone = false →
        falsyStr body.estimatedDuration = false → user.role = "freelancer" →
        db.findJob jobId = some job → job.status = "open" →
        (createProposal db user jobId body).1 =
          json 400 "You have already submitted a proposal for this job")) := by
  refine ⟨?_, ?_, ?_⟩
  · have hu : ProposalsUnique db0 := by
      unfold ProposalsUnique
      rw [h0]
      exact List.nodup_nil
    have hf : ProposalIdsFresh db0 := by
      refine ⟨?_, ?_⟩
      · rw [h0]
        exact List.nodup_nil
      · intro p hp
        rw [h0] at hp
        cases hp
    exact (proposals_inv_marketRun calls db0 hu hf).1
  · intro db hok
    rcases createProposal_cases db user jobId body with ⟨-, hne⟩ | ⟨-, -, hp, -⟩
    · exact absurd hok hne
    · refine ⟨{ id := db.nextId, job := jobId, freelancer := user.id }, ?_, rfl, rfl⟩
      rw [hp]
      exact List.mem_append_right _ (List.mem_singleton.mpr rfl)
  · intro db hstored
    have hsome : db.proposals.find? (fun p => p.job == jobId && p.freelancer == user.id) ≠
        none := fun hnone => (find_pair_none_iff db.proposals jobId user.id).mp hnone hstored
    rcases createProposal_cases db user jobId body with ⟨hdb, hne⟩ | ⟨hnone, -, -, -⟩
    · refine ⟨hdb, hne, ?_⟩
      intro job hcl hbid hdur hrole hjob hopen
      cases hfind : db.proposals.find? (fun p => p.job == jobId && p.freelancer == user.id) with
      | none => exact absurd hfind hsome
      | some existing =>
        have c1 : (falsyStr body.coverLetter || body.bidAmount.isNone ||
            falsyStr body.estimatedDuration) = false := by
          rw [hcl, hbid, hdur]
          rfl
        have c2 : (user.role != "freelancer") = false := by simp [hrole]
        have c3 : (job.status != "open") = false := by simp [hopen]
        simp only [createProposal, c1, c2, hjob, c3, hfind, Bool.false_eq_true, if_false]
    · exact absurd hnone hsome

/-- Witness for C11 (amended): on `openJobDb`, which holds no proposal, the application of
`freelancerF` to job 1 is answered 201 and gives `appliedDb`, where the pairs are unique; the
same application sent again is answered with the already-submitted error and `appliedDb` is
unchanged. -/
theorem createProposal_at_most_once_witness :
    openJobDb.proposals = [] ∧
    marketRun openJobDb [.createProposal freelancerF 1 proposalBody] = appliedDb ∧
    ProposalsUnique (marketRun openJobDb [.createProposal freelancerF 1 proposalBody]) ∧
    (createProposal openJobDb freelancerF 1 proposalBody).1.code = 201 ∧
    (∃ p ∈ (createProposal openJobDb freelancerF 1 proposalBody).2.proposals,
      p.job = 1 ∧ p.freelancer = freelancerF.id) ∧
    (createProposal appliedDb freelancerF 1 proposalBody).2 = appliedDb ∧
    (createProposal appliedDb freelancerF 1 proposalBody).1 =
      json 400 "You have already submitted a proposal for this job" :=
  ⟨rfl, by decide,
    (createProposal_at_most_once openJobDb [.createProposal freelancerF 1 proposalBody]
      freelancerF 1 proposalBody rfl).1,
    by decide,
    (createProposal_at_most_once openJobDb [] freelancerF 1 proposalBody rfl).2.1 openJobDb
      (by decide),
    ((createProposal_at_most_once openJobDb [] freelancerF 1 proposalBody rfl).2.2 appliedDb
      ⟨{ id := 2, job := 1, freelancer := 200 }, by decide, rfl, rfl⟩).1,
    ((createProposal_at_most_once openJobDb [] freelancerF 1 proposalBody rfl).2.2 appliedDb
      ⟨{ id := 2, job := 1, freelancer := 200 }, by decide, rfl, rfl⟩).2.2
      { id := 1, client := 100, title := "Landing page" } (by decide) (by decide) (by decide)
      (by decide) (by decide) (by decide)⟩

/-- Counterexample to C11 as stated: `freelancerF` applies to the open job 1 and is answered
201; the client deletes the proposal; the same application sent again is answered 201 and not
with the already-submitted error, and a new proposal is stored. Also, while the first proposal
is stored, an application of `freelancerF` sent through `applyToJob` is answered 500 "Internal
server error", not with the already-applied error. -/
theorem createProposal_after_delete_counterexample :
    (createProposal openJobDb freelancerF 1 proposalBody).1.code = 201 ∧
    (createProposal openJobDb freelancerF 1 proposalBody).2 = appliedDb ∧
    (deleteProposal appliedDb 100 2).1 = json 200 "Proposal deleted successfully" ∧
    (createProposal (deleteProposal appliedDb 100 2).2 freelancerF 1 proposalBody).1 =
      json 201 "Proposal submitted successfully" ∧
    (createProposal (deleteProposal appliedDb 100 2).2 freelancerF 1 proposalBody).2.proposals =
      [{ id := 3, job := 1, freelancer := 200 }] ∧
    applyToJob appliedDb freelancerF 1 applicationBody =
      (json 500 "Internal server error", appliedDb) := by
  decide

/-! ## How a request changes the stored contracts -/

theorem mem_setMilestone {ms : List Milestone} {id : ObjectId} {m1 x : Milestone}
    (h : x ∈ setMilestone ms id m1) : x ∈ ms ∨ x = m1 := by
  induction ms with
  | nil => simp [setMilestone] at h
  | cons y ys ih =>
    unfold setMilestone at h
    split at h
    · rcases List.mem_cons.mp h with rfl | h
      · exact Or.inr rfl
      · exact Or.inl (List.mem_cons_of_mem _ h)
    · rcases List.mem_cons.mp h with rfl | h
      · exact Or.inl (List.mem_cons_self _ _)
      · rcases ih h with h | h
        · exact Or.inl (List.mem_cons_of_mem _ h)
        · exact Or.inr h

theorem buildMilestones_new (ms : List MilestoneInput) (firstId : Nat)
    (built : List Milestone) (h : buildMilestones firstId ms = some built) :
    ∀ m ∈ built, IsNewMilestone m := by
  induction ms generalizing firstId built with
  | nil =>
    simp only [buildMilestones, Option.some.injEq] at h
    subst h
    intro m hm
    cases hm
  | cons x rest ih =>
    unfold buildMilestones at h
    split at h
    · rename_i title description amount dueDate tail ht hd ha hdue htail
      simp only [Option.some.injEq] at h
      subst h
      intro m hm
      rcases List.mem_cons.mp hm with rfl | hm
      · exact ⟨rfl, rfl, rfl⟩
      · exact ih _ _ htail m hm
    · simp at h

/-- What `createContract` does to the contract collection. -/
theorem createContract_contracts (db : Db) (user proposalId : ObjectId)
    (body : ContractInput) :
    (createContract db user proposalId body).2.contracts = db.contracts ∨
    ∃ created : Contract, (∀ m ∈ created.milestones, IsNewMilestone m) ∧
      created.id = db.nextId ∧
      (createContract db user proposalId body).2.contracts = db.contracts ++ [created] := by
  unfold createContract
  repeat' (first | split | dsimp only)
  all_goals first
    | (left; rfl)
    | skip
  rename_i db1 hins
  right
  obtain ⟨hc, -, -⟩ := insertContract_some hins
  refine ⟨_, ?_, rfl, hc⟩
  exact buildMilestones_new _ _ _ (by assumption)

/-- What `fundEscrow` does to the contract collection. -/
theorem fundEscrow_contracts (db : Db) (user contractId : ObjectId) (amount : Option Int) :
    (fundEscrow db user contractId amount).2.contracts = db.contracts ∨
    ∃ (c : Contract) (a : Int),
      (fundEscrow db user contractId amount).2.contracts = updateContract db.contracts
        { c with escrowBalance := c.escrowBalance + a, status := "funded" } ∧
      db.findContract contractId = some c := by
  unfold fundEscrow
  repeat' (first | split | dsimp only)
  all_goals first
    | (left; rfl)
    | (right
       have h1 := (saveContract_some (by assumption)).2
       subst h1
       exact ⟨_, _, rfl, by assumption⟩)

/-- What `activateContract` does to the contract collection. -/
theorem activateContract_contracts (db : Db) (user contractId : ObjectId) (now : Nat) :
    (activateContract db user contractId now).2.contracts = db.contracts ∨
    ∃ c : Contract,
      (activateContract db user contractId now).2.contracts = updateContract db.contracts
        { c with status := "active", startDate := some now } ∧
      db.findContract contractId = some c := by
  unfold activateContract
  repeat' (first | split | dsimp only)
  all_goals first
    | (left; rfl)
    | (right
       have h1 := (saveContract_some (by assumption)).2
       subst h1
       exact ⟨_, rfl, by assumption⟩)

/-- What `completeContract` does to the contract collection. -/
theorem completeContract_contracts (db : Db) (user contractId : ObjectId) (now : Nat) :
    (completeContract db user contractId now).2.contracts = db.contracts ∨
    ∃ c : Contract,
      (completeContract db user contractId now).2.contracts = updateContract db.contracts
        { c with status := "completed", endDate := some now } ∧
      db.findContract contractId = some c := by
  unfold completeContract
  repeat' (first | split | dsimp only)
  all_goals first
    | (left; rfl)
    | (right
       have h1 := (saveContract_some (by assumption)).2
       subst h1
       exact ⟨_, rfl, by assumption⟩)

/-- What `addMilestone` does to the contract collection. -/
theorem addMilestone_contracts (db : Db) (user contractId : ObjectId) (body : MilestoneInput) :
    (addMilestone db user contractId body).2.contracts = db.contracts ∨
    ∃ (c : Contract) (pushed : Milestone),
      (addMilestone db user contractId body).2.contracts = updateContract db.contracts
        { c with milestones := c.milestones ++ [pushed] } ∧
      db.findContract contractId = some c ∧ IsNewMilestone pushed ∧
      pushed.id = db.nextId := by
  unfold addMilestone
  repeat' (first | split | dsimp only)
  all_goals first
    | (left; rfl)
    | skip
  rename_i _ c hfind hclient _ built hbuilt _ db1 hsave
  right
  have h1 := (saveContract_some hsave).2
  subst h1
  unfold buildMilestones at hbuilt
  split at hbuilt
  · rename_i title description amount dueDate tail ht hd ha hdue htail
    simp only [buildMilestones, Option.some.injEq] at htail
    subst htail
    simp only [Option.some.injEq] at hbuilt
    subst hbuilt
    exact ⟨c, _, rfl, hfind, ⟨rfl, rfl, rfl⟩, rfl⟩
  · simp at hbuilt

/-- What `releasePayment` does to the contract collection. -/
theorem releasePayment_contracts (db : Db) (user contractId milestoneId : ObjectId) :
    (releasePayment db user contractId milestoneId).2.contracts = db.contracts ∨
    ∃ (c : Contract) (m : Milestone),
      (releasePayment db user contractId milestoneId).2.contracts =
        updateContract db.contracts
          { c with
            escrowBalance := c.escrowBalance - m.amount
            milestones := setMilestone c.milestones milestoneId { m with status := "paid" } } ∧
      db.findContract contractId = some c ∧
      findMilestone c.milestones milestoneId = some m ∧ m.status = "completed" := by
  unfold releasePayment
  repeat' (first | split | dsimp only)
  all_goals first
    | (left; rfl)
    | (right
       have h1 := (saveContract_some (by assumption)).2
       subst h1
       refine ⟨_, _, rfl, by assumption, by assumption, ?_⟩
       simp_all)

/-- What `submitWork` does to the contract collection. -/
theorem submitWork_contracts (db : Db) (user contractId milestoneId : ObjectId)
    (err : Option UploadError) (files : List UploadedFile) (comments : Option String)
    (now : Nat) :
    (submitWork db user contractId milestoneId err files comments now).2.contracts =
      db.contracts ∨
    ∃ (c : Contract) (m : Milestone),
      (submitWork db user contractId milestoneId err files comments now).2.contracts =
        updateContract db.contracts
          { c with
            milestones := setMilestone c.milestones milestoneId
              (submitMilestone m (savedFilesOf files) comments now) } ∧
      err = none ∧ db.findContract contractId = some c ∧
      findMilestone c.milestones milestoneId = some m := by
  unfold submitWork
  repeat' (first | split | dsimp only)
  all_goals first
    | (left; rfl)
    | (right
       have h1 := (saveContract_some (by assumption)).2
       subst h1
       exact ⟨_, _, rfl, rfl, by assumption, by assumption⟩)

/-- What `reviewSubmission` does to the contract collection. -/
theorem reviewSubmission_contracts (db : Db) (user contractId milestoneId : ObjectId)
    (status : String) (feedback : Option String) (now : Nat) :
    (reviewSubmission db user contractId milestoneId status feedback now).2.contracts =
      db.contracts ∨
    ∃ (c : Contract) (m : Milestone) (current : Submission),
      (reviewSubmission db user contractId milestoneId status feedback now).2.contracts =
        updateContract db.contracts
          { c with
            milestones := setMilestone c.milestones milestoneId
              (reviewMilestone m current status feedback now) } ∧
      db.findContract contractId = some c ∧
      findMilestone c.milestones milestoneId = some m ∧
      m.currentSubmission = some current := by
  unfold reviewSubmission
  repeat' (first | split | dsimp only)
  all_goals first
    | (left; rfl)
    | (right
       have h1 := (saveContract_some (by assumption)).2
       subst h1
       exact ⟨_, _, _, rfl, by assumption, by assumption, by assumption⟩)

theorem milestones_of_update {db : Db} {contracts1 : List Contract} {call : Call}
    {contractId : ObjectId} {c c1 : Contract}
    (hcs : contracts1 = updateContract db.contracts c1)
    (hfind : db.findContract contractId = some c)
    (hms : ∀ m1 ∈ c1.milestones,
      IsNewMilestone m1 ∨ ∃ m ∈ c.milestones, MilestoneNext call m m1) :
    ∀ x ∈ contracts1, ∀ m1 ∈ x.milestones,
      IsNewMilestone m1 ∨ ∃ c0 ∈ db.contracts, ∃ m ∈ c0.milestones, MilestoneNext call m m1 := by
  intro x hx m1 hm1
  rw [hcs] at hx
  rcases mem_updateContract hx with hx | rfl
  · exact Or.inr ⟨x, hx, m1, hm1, MilestoneNext.same call m1⟩
  · rcases hms m1 hm1 with h | ⟨m, hm, hnext⟩
    · exact Or.inl h
    · exact Or.inr ⟨c, List.mem_of_find?_eq_some hfind, m, hm, hnext⟩

theorem milestones_of_same {db : Db} {contracts1 : List Contract} (call : Call)
    (hcs : contracts1 = db.contracts) :
    ∀ x ∈ contracts1, ∀ m1 ∈ x.milestones,
      IsNewMilestone m1 ∨ ∃ c0 ∈ db.contracts, ∃ m ∈ c0.milestones, MilestoneNext call m m1 := by
  intro x hx m1 hm1
  rw [hcs] at hx
  exact Or.inr ⟨x, hx, m1, hm1, MilestoneNext.same call m1⟩

/-- Every milestone stored after a request is new, or comes from a milestone stored before by
one of the changes of `MilestoneNext`. -/
theorem step_milestones (db : Db) (call : Call) :
    ∀ x ∈ (step db call).contracts, ∀ m1 ∈ x.milestones,
      IsNewMilestone m1 ∨ ∃ c0 ∈ db.contracts, ∃ m ∈ c0.milestones, MilestoneNext call m m1 := by
  cases call with
  | createContract u p b =>
    rcases createContract_contracts db u p b with h | ⟨created, hnew, -, h⟩
    · exact milestones_of_same _ h
    · intro x hx m1 hm1
      have hx1 : x ∈ db.contracts ++ [created] := by
        rw [← h]
        exact hx
      rcases List.mem_append.mp hx1 with hx2 | hx2
      · exact Or.inr ⟨x, hx2, m1, hm1, MilestoneNext.same _ m1⟩
      · rw [List.mem_singleton.mp hx2] at hm1
        exact Or.inl (hnew m1 hm1)
  | fundEscrow u c a =>
    rcases fundEscrow_contracts db u c a with h | ⟨c0, a0, h, hfind⟩
    · exact milestones_of_same _ h
    · exact milestones_of_update h hfind
        (fun m1 hm1 => Or.inr ⟨m1, hm1, MilestoneNext.same _ m1⟩)
  | activateContract u c n =>
    rcases activateContract_contracts db u c n with h | ⟨c0, h, hfind⟩
    · exact milestones_of_same _ h
    · exact milestones_of_update h hfind
        (fun m1 hm1 => Or.inr ⟨m1, hm1, MilestoneNext.same _ m1⟩)
  | completeContract u c n =>
    rcases completeContract_contracts db u c n with h | ⟨c0, h, hfind⟩
    · exact milestones_of_same _ h
    · exact milestones_of_update h hfind
        (fun m1 hm1 => Or.inr ⟨m1, hm1, MilestoneNext.same _ m1⟩)
  | addMilestone u c b =>
    rcases addMilestone_contracts db u c b with h | ⟨c0, pushed, h, hfind, hnew, -⟩
    · exact milestones_of_same _ h
    · refine milestones_of_update h hfind (fun m1 hm1 => ?_)
      rcases List.mem_append.mp hm1 with hm2 | hm2
      · exact Or.inr ⟨m1, hm2, MilestoneNext.same _ m1⟩
      · rw [List.mem_singleton.mp hm2]
        exact Or.inl hnew
  | releasePayment u c mid =>
    rcases releasePayment_contracts db u c mid with h | ⟨c0, m, h, hfind, hm, hst⟩
    · exact milestones_of_same _ h
    · refine milestones_of_update h hfind (fun m1 hm1 => ?_)
      rcases mem_setMilestone hm1 with hm2 | hm2
      · exact Or.inr ⟨m1, hm2, MilestoneNext.same _ m1⟩
      · rw [hm2]
        exact Or.inr ⟨m, List.mem_of_find?_eq_some hm, MilestoneNext.paid u c mid m hst⟩
  | submitWork u c mid e f k n =>
    rcases submitWork_contracts db u c mid e f k n with h | ⟨c0, m, h, he, hfind, hm⟩
    · exact milestones_of_same _ h
    · subst he
      refine milestones_of_update h hfind (fun m1 hm1 => ?_)
      rcases mem_setMilestone hm1 with hm2 | hm2
      · exact Or.inr ⟨m1, hm2, MilestoneNext.same _ m1⟩
      · rw [hm2]
        exact Or.inr ⟨m, List.mem_of_find?_eq_some hm, MilestoneNext.submitted u c mid f k n m⟩
  | reviewSubmission u c mid s f n =>
    rcases reviewSubmission_contracts db u c mid s f n with h | ⟨c0, m, cur, h, hfind, hm, hcur⟩
    · exact milestones_of_same _ h
    · refine milestones_of_update h hfind (fun m1 hm1 => ?_)
      rcases mem_setMilestone hm1 with hm2 | hm2
      · exact Or.inr ⟨m1, hm2, MilestoneNext.same _ m1⟩
      · rw [hm2]
        exact Or.inr ⟨m, List.mem_of_find?_eq_some hm,
          MilestoneNext.reviewed u c mid s f n m cur hcur⟩

/-! ## The submission history is ordered newest first -/

theorem sortHistory_of_pairwise (h : List Submission)
    (hp : h.Pairwise (fun a b => b.submittedAt ≤ a.submittedAt)) : sortHistory h = h := by
  induction h with
  | nil => rfl
  | cons x xs ih =>
    obtain ⟨hx, hxs⟩ := List.pairwise_cons.mp hp
    simp only [sortHistory]
    rw [ih hxs]
    cases xs with
    | nil => rfl
    | cons y ys =>
      have hy : y.submittedAt ≤ x.submittedAt := hx y (List.mem_cons_self _ _)
      simp [insertByDate, hy]

theorem orderedUpTo_mono {t t1 : Nat} {m : Milestone} (ht : t ≤ t1) (h : OrderedUpTo t m) :
    OrderedUpTo t1 m := by
  obtain ⟨hp, hb, hc⟩ := h
  refine ⟨hp, fun s hs => Nat.le_trans (hb s hs) ht, fun cur hcur => ?_⟩
  exact ⟨Nat.le_trans (hc cur hcur).1 ht, (hc cur hcur).2⟩

theorem orderedUpTo_new (t : Nat) {m : Milestone} (hh : m.submissionHistory = [])
    (hc : m.currentSubmission = none) : OrderedUpTo t m := by
  refine ⟨?_, ?_, ?_⟩
  · rw [hh]
    exact List.Pairwise.nil
  · intro s hs
    rw [hh] at hs
    cases hs
  · intro cur hcur
    rw [hc] at hcur
    cases hcur

theorem orderedUpTo_submit {t now : Nat} {m : Milestone} (savedFiles : List FileMeta)
    (comments : Option String) (ht : t ≤ now) (h : OrderedUpTo t m) :
    OrderedUpTo now (submitMilestone m savedFiles comments now) := by
  obtain ⟨hp, hb, hc⟩ := h
  cases hcur : m.currentSubmission with
  | none =>
    refine ⟨?_, ?_, ?_⟩
    · simpa [submitMilestone, hcur] using hp
    · intro s hs
      have hs1 : s ∈ m.submissionHistory := by simpa [submitMilestone, hcur] using hs
      exact Nat.le_trans (hb s hs1) ht
    · intro cur hcur1
      have hcur2 : cur.submittedAt = now := by
        simp only [submitMilestone, Option.some.injEq] at hcur1
        rw [← hcur1]
      refine ⟨Nat.le_of_eq hcur2, fun s hs => ?_⟩
      have hs1 : s ∈ m.submissionHistory := by simpa [submitMilestone, hcur] using hs
      rw [hcur2]
      exact Nat.le_trans (hb s hs1) ht
  | some current =>
    obtain ⟨hct, hcb⟩ := hc current hcur
    have hhist : (submitMilestone m savedFiles comments now).submissionHistory =
        { current with
          status := if current.status == "" then "pending" else current.status } ::
          m.submissionHistory := by
      simp [submitMilestone, hcur, sortHistory_of_pairwise _ hp]
    refine ⟨?_, ?_, ?_⟩
    · rw [hhist]
      exact List.pairwise_cons.mpr ⟨fun s hs => hcb s hs, hp⟩
    · intro s hs
      rw [hhist] at hs
      rcases List.mem_cons.mp hs with rfl | hs1
      · exact Nat.le_trans hct ht
      · exact Nat.le_trans (hb s hs1) ht
    · intro cur hcur1
      have hcur2 : cur.submittedAt = now := by
        simp only [submitMilestone, Option.some.injEq] at hcur1
        rw [← hcur1]
      refine ⟨Nat.le_of_eq hcur2, fun s hs => ?_⟩
      rw [hhist] at hs
      rw [hcur2]
      rcases List.mem_cons.mp hs with rfl | hs1
      · exact Nat.le_trans hct ht
      · exact Nat.le_trans (hb s hs1) ht

theorem stampSubmission_submittedAt (current : Submission) (status : String)
    (feedback : Option String) (now : Nat) :
    (stampSubmission current status feedback now).submittedAt = current.submittedAt := by
  unfold stampSubmission
  split <;> rfl

theorem orderedUpTo_review {t : Nat} {m : Milestone} {current : Submission} (status : String)
    (feedback : Option String) (now : Nat) (hcur : m.currentSubmission = some current)
    (h : OrderedUpTo t m) : OrderedUpTo t (reviewMilestone m current status feedback now) := by
  obtain ⟨hp, hb, hc⟩ := h
  obtain ⟨hct, hcb⟩ := hc current hcur
  have harchive : OrderedUpTo t
      { m with
        submissionHistory :=
          { stampSubmission current status feedback now with
            status := status, feedbackAt := some now } :: sortHistory m.submissionHistory
        currentSubmission := none } := by
    rw [sortHistory_of_pairwise _ hp]
    refine ⟨?_, ?_, ?_⟩
    · refine List.pairwise_cons.mpr ⟨fun s hs => ?_, hp⟩
      show s.submittedAt ≤ (stampSubmission current status feedback now).submittedAt
      rw [stampSubmission_submittedAt]
      exact hcb s hs
    · intro s hs
      rcases List.mem_cons.mp hs with rfl | hs1
      · show (stampSubmission current status feedback now).submittedAt ≤ t
        rw [stampSubmission_submittedAt]
        exact hct
      · exact hb s hs1
    · intro cur hcur1
      cases hcur1
  unfold reviewMilestone
  dsimp only
  split
  · exact harchive
  · split
    · exact harchive
    · refine ⟨hp, hb, ?_⟩
      intro cur hcur1
      simp only [Option.some.injEq] at hcur1
      subst hcur1
      rw [stampSubmission_submittedAt]
      exact ⟨hct, hcb⟩

theorem orderedUpTo_next {t : Nat} {call : Call} {m m1 : Milestone}
    (hnext : MilestoneNext call m m1) (ht : t ≤ (submitTime call).getD t)
    (h : OrderedUpTo t m) : OrderedUpTo ((submitTime call).getD t) m1 := by
  cases hnext with
  | same => exact orderedUpTo_mono ht h
  | paid => exact h
  | submitted => exact orderedUpTo_submit _ _ ht h
  | reviewed => exact orderedUpTo_review _ _ _ (by assumption) h

theorem orderedUpTo_step (db : Db) (call : Call) (t : Nat)
    (ht : t ≤ (submitTime call).getD t)
    (h : ∀ c ∈ db.contracts, ∀ m ∈ c.milestones, OrderedUpTo t m) :
    ∀ c ∈ (step db call).contracts, ∀ m ∈ c.milestones,
      OrderedUpTo ((submitTime call).getD t) m := by
  intro c1 hc1 m1 hm1
  rcases step_milestones db call c1 hc1 m1 hm1 with hnew | ⟨c, hc, m, hm, hnext⟩
  · exact orderedUpTo_new _ hnew.2.1 hnew.2.2
  · exact orderedUpTo_next hnext ht (h c hc m hm)

theorem orderedUpTo_run (calls : List Call) (db : Db) (t : Nat)
    (ht : timesOrdered t calls = true)
    (h : ∀ c ∈ db.contracts, ∀ m ∈ c.milestones, OrderedUpTo t m) :
    ∃ t1, ∀ c ∈ (run db calls).contracts, ∀ m ∈ c.milestones, OrderedUpTo t1 m := by
  induction calls generalizing db t with
  | nil => exact ⟨t, h⟩
  | cons call rest ih =>
    have hle : t ≤ (submitTime call).getD t ∧
        timesOrdered ((submitTime call).getD t) rest = true := by
      unfold timesOrdered at ht
      cases hs : submitTime call with
      | none =>
        rw [hs] at ht
        exact ⟨Nat.le_refl _, ht⟩
      | some now =>
        rw [hs] at ht
        simp only [Bool.and_eq_true, decide_eq_true_eq] at ht
        exact ht
    exact ih (step db call) _ hle.2 (orderedUpTo_step db call t hle.1 h)

theorem historyOrdered_of_upTo {t : Nat} {m : Milestone} (h : OrderedUpTo t m) :
    HistoryOrdered m := by
  obtain ⟨hp, -, hc⟩ := h
  refine ⟨List.Pairwise.chain' hp, ?_⟩
  intro current head hcur hhead
  exact (hc current hcur).2 head (List.mem_of_mem_head? hhead)

/-- C21: start from a store in which every milestone has an empty history and no current
submission, and serve any sequence of contract requests in which the request times of the
`submitWork` calls never go back. Then for every stored milestone each history entry's
`submittedAt` is at least that of the entry after it, the current submission, if any, is at
least as new as the head of the history, and the sorting getter of `submissionHistory` leaves
the stored order as it is. -/
theorem history_newest_first (db : Db) (calls : List Call) (t : Nat)
    (hnew : ∀ c ∈ db.contracts, ∀ m ∈ c.milestones,
      m.submissionHistory = [] ∧ m.currentSubmission = none)
    (htimes : timesOrdered t calls = true) :
    ∀ c ∈ (run db calls).contracts, ∀ m ∈ c.milestones,
      HistoryOrdered m ∧ sortHistory m.submissionHistory = m.submissionHistory := by
  obtain ⟨t1, h⟩ := orderedUpTo_run calls db t htimes
    (fun c hc m hm => orderedUpTo_new t (hnew c hc m hm).1 (hnew c hc m hm).2)
  intro c hc m hm
  exact ⟨historyOrdered_of_upTo (h c hc m hm), sortHistory_of_pairwise _ (h c hc m hm).1⟩

/-- Witness for C21: `historyCalls` on `draftDb`; the stored history then holds the
submissions of time 2000 and of time 1000, in this order, and the current one is of time
3000. -/
theorem history_newest_first_witness :
    (∀ c ∈ draftDb.contracts, ∀ m ∈ c.milestones,
      m.submissionHistory = [] ∧ m.currentSubmission = none) ∧
    timesOrdered 0 historyCalls = true ∧
    (run draftDb historyCalls).contracts.map (fun c => c.milestones.map (fun m =>
      (m.submissionHistory.map (fun s => s.submittedAt),
        m.currentSubmission.map (fun s => s.submittedAt)))) =
      [[([2000, 1000], some 3000)]] ∧
    ∀ c ∈ (run draftDb historyCalls).contracts, ∀ m ∈ c.milestones,
      HistoryOrdered m ∧ sortHistory m.submissionHistory = m.submissionHistory :=
  ⟨by decide, by decide, by decide,
    history_newest_first draftDb historyCalls 0 (by decide) (by decide)⟩

/-! ## The submission history is append-only -/

theorem findMilestone_setMilestone_ne (ms : List Milestone) (id other : ObjectId)
    (m1 : Milestone) (hid : m1.id = id) (hne : id ≠ other) :
    findMilestone (setMilestone ms id m1) other = findMilestone ms other := by
  induction ms with
  | nil => rfl
  | cons x xs ih =>
    unfold setMilestone
    split
    · rename_i hx
      have hx1 : x.id = id := by simpa using hx
      have h1 : ¬ m1.id = other := by rw [hid]; exact hne
      have h2 : ¬ x.id = other := by rw [hx1]; exact hne
      simp [findMilestone, List.find?_cons, h1, h2]
    · by_cases hx2 : x.id = other
      · simp [findMilestone, List.find?_cons, hx2]
      · have ih1 : List.find? (fun m => m.id == other) (setMilestone xs id m1) =
            List.find? (fun m => m.id == other) xs := ih
        simp [findMilestone, List.find?_cons, hx2, ih1]

theorem findMilestone_append (ms : List Milestone) (pushed : Milestone) (id : ObjectId)
    (m : Milestone) (h : findMilestone ms id = some m) :
    findMilestone (ms ++ [pushed]) id = some m := by
  unfold findMilestone at h ⊢
  rw [List.find?_append, h]
  rfl

theorem findContract_append (db : Db) (created : Contract) (id : ObjectId) (c : Contract)
    (h : db.findContract id = some c) :
    (db.contracts ++ [created]).find? (fun x => x.id == id) = some c := by
  unfold Db.findContract at h
  rw [List.find?_append, h]
  rfl

/-- The contract found under `contractId` after the contract found under `target` was saved
as `c1`. -/
theorem find_after_update {db db1 : Db} {target contractId : ObjectId} {c0 c1 c : Contract}
    (hcs : db1.contracts = updateContract db.contracts c1)
    (hfind0 : db.findContract target = some c0) (hid : c1.id = c0.id)
    (hfind : db.findContract contractId = some c) :
    (target = contractId ∧ c0 = c ∧ db1.findContract contractId = some c1) ∨
    (target ≠ contractId ∧ db1.findContract contractId = some c) := by
  by_cases ht : target = contractId
  · subst ht
    have hc : c0 = c := by
      rw [hfind0] at hfind
      exact Option.some.inj hfind
    refine Or.inl ⟨rfl, hc, ?_⟩
    unfold Db.findContract
    rw [hcs]
    exact find_updateContract db.contracts c0 c1 target hfind0 (hid.trans (find_id_eq hfind0))
  · refine Or.inr ⟨ht, ?_⟩
    unfold Db.findContract
    rw [hcs]
    have hne : c1.id ≠ contractId := by
      rw [hid, find_id_eq hfind0]
      exact ht
    rw [find_updateContract_ne db.contracts c1 contractId hne]
    exact hfind

/-- The milestone found under `milestoneId` after the milestone found under `target` was
replaced by `m1`. -/
theorem findMilestone_after_set {ms : List Milestone} {target milestoneId : ObjectId}
    {m0 m1 m : Milestone} (hfind0 : findMilestone ms target = some m0) (hid : m1.id = m0.id)
    (hfind : findMilestone ms milestoneId = some m) :
    (target = milestoneId ∧ m0 = m ∧
      findMilestone (setMilestone ms target m1) milestoneId = some m1) ∨
    (target ≠ milestoneId ∧ findMilestone (setMilestone ms target m1) milestoneId = some m) := by
  have hid0 : m0.id = target := findMilestone_id_eq hfind0
  by_cases ht : target = milestoneId
  · subst ht
    have hc : m0 = m := by
      rw [hfind0] at hfind
      exact Option.some.inj hfind
    exact Or.inl ⟨rfl, hc, findMilestone_setMilestone ms target m0 m1 hfind0 (hid.trans hid0)⟩
  · refine Or.inr ⟨ht, ?_⟩
    rw [findMilestone_setMilestone_ne ms target milestoneId m1 (hid.trans hid0) ht]
    exact hfind

theorem found_unchanged {db db1 : Db} {contractId milestoneId : ObjectId} {c : Contract}
    {m : Milestone} (P : Milestone → Prop) (hP : P m)
    (hcs : db1.contracts = db.contracts) (hfind : db.findContract contractId = some c)
    (hm : findMilestone c.milestones milestoneId = some m) :
    ∃ c1 m1, db1.findContract contractId = some c1 ∧
      findMilestone c1.milestones milestoneId = some m1 ∧ P m1 := by
  refine ⟨c, m, ?_, hm, hP⟩
  unfold Db.findContract at hfind ⊢
  rw [hcs]
  exact hfind

theorem found_after_update {db db1 : Db} {target contractId milestoneId : ObjectId}
    {c0 c1 c : Contract} {m : Milestone} (P : Milestone → Prop) (hP : P m)
    (hcs : db1.contracts = updateContract db.contracts c1)
    (hfind0 : db.findContract target = some c0) (hid : c1.id = c0.id)
    (hfind : db.findContract contractId = some c)
    (hm : findMilestone c.milestones milestoneId = some m)
    (hms : target = contractId → c0 = c →
      ∃ m1, findMilestone c1.milestones milestoneId = some m1 ∧ P m1) :
    ∃ c2 m1, db1.findContract contractId = some c2 ∧
      findMilestone c2.milestones milestoneId = some m1 ∧ P m1 := by
  rcases find_after_update hcs hfind0 hid hfind with ⟨ht, hc, h1⟩ | ⟨-, h1⟩
  · obtain ⟨m1, hm1, hp1⟩ := hms ht hc
    exact ⟨c1, m1, h1, hm1, hp1⟩
  · exact ⟨c, m, h1, hm, hP⟩

/-- What one request does to a stored milestone, found by the `_id`s of its contract and of
the milestone itself: nothing, or the change of a `releasePayment`, `submitWork` or
`reviewSubmission` request addressed to this milestone. -/
theorem step_findMilestone (db : Db) (call : Call) (contractId milestoneId : ObjectId)
    (c : Contract) (m : Milestone) (hfind : db.findContract contractId = some c)
    (hm : findMilestone c.milestones milestoneId = some m) :
    ∃ c1 m1, (step db call).findContract contractId = some c1 ∧
      findMilestone c1.milestones milestoneId = some m1 ∧
      (m1 = m ∨
       (∃ user, call = .releasePayment user contractId milestoneId ∧
          m.status = "completed" ∧ m1 = { m with status := "paid" }) ∨
       (∃ user files comments now,
          call = .submitWork user contractId milestoneId none files comments now ∧
          m1 = submitMilestone m (savedFilesOf files) comments now) ∨
       (∃ user status feedback now current,
          call = .reviewSubmission user contractId milestoneId status feedback now ∧
          m.currentSubmission = some current ∧
          m1 = reviewMilestone m current status feedback now)) := by
  cases call with
  | createContract u p b =>
    rcases createContract_contracts db u p b with h | ⟨created, -, -, h⟩
    · exact found_unchanged _ (Or.inl rfl) h hfind hm
    · refine ⟨c, m, ?_, hm, Or.inl rfl⟩
      show (createContract db u p b).2.contracts.find? _ = _
      rw [h]
      exact findContract_append db created contractId c hfind
  | fundEscrow u cid a =>
    rcases fundEscrow_contracts db u cid a with h | ⟨c0, a0, h, hfind0⟩
    · exact found_unchanged _ (Or.inl rfl) h hfind hm
    · refine found_after_update _ (Or.inl rfl) h hfind0 rfl hfind hm (fun _ hc => ?_)
      subst hc
      exact ⟨m, hm, Or.inl rfl⟩
  | activateContract u cid n =>
    rcases activateContract_contracts db u cid n with h | ⟨c0, h, hfind0⟩
    · exact found_unchanged _ (Or.inl rfl) h hfind hm
    · refine found_after_update _ (Or.inl rfl) h hfind0 rfl hfind hm (fun _ hc => ?_)
      subst hc
      exact ⟨m, hm, Or.inl rfl⟩
  | completeContract u cid n =>
    rcases completeContract_contracts db u cid n with h | ⟨c0, h, hfind0⟩
    · exact found_unchanged _ (Or.inl rfl) h hfind hm
    · refine found_after_update _ (Or.inl rfl) h hfind0 rfl hfind hm (fun _ hc => ?_)
      subst hc
      exact ⟨m, hm, Or.inl rfl⟩
  | addMilestone u cid b =>
    rcases addMilestone_contracts db u cid b with h | ⟨c0, pushed, h, hfind0, -, -⟩
    · exact found_unchanged _ (Or.inl rfl) h hfind hm
    · refine found_after_update _ (Or.inl rfl) h hfind0 rfl hfind hm (fun _ hc => ?_)
      subst hc
      exact ⟨m, findMilestone_append _ pushed milestoneId m hm, Or.inl rfl⟩
  | releasePayment u cid mid =>
    rcases releasePayment_contracts db u cid mid with h | ⟨c0, m0, h, hfind0, hm0, hst⟩
    · exact found_unchanged _ (Or.inl rfl) h hfind hm
    · refine found_after_update _ (Or.inl rfl) h hfind0 rfl hfind hm (fun ht hc => ?_)
      subst hc
      subst ht
      rcases @findMilestone_after_set _ _ _ _ { m0 with status := "paid" } _ hm0 rfl hm with
        ⟨ht, hmm, h1⟩ | ⟨-, h1⟩
      · subst hmm
        subst ht
        exact ⟨_, h1, Or.inr (Or.inl ⟨u, rfl, hst, rfl⟩)⟩
      · exact ⟨m, h1, Or.inl rfl⟩
  | submitWork u cid mid e f k n =>
    rcases submitWork_contracts db u cid mid e f k n with h | ⟨c0, m0, h, he, hfind0, hm0⟩
    · exact found_unchanged _ (Or.inl rfl) h hfind hm
    · subst he
      refine found_after_update _ (Or.inl rfl) h hfind0 rfl hfind hm (fun ht hc => ?_)
      subst hc
      subst ht
      rcases @findMilestone_after_set _ _ _ _ (submitMilestone m0 (savedFilesOf f) k n) _ hm0
        (submitMilestone_id m0 _ k n) hm with ⟨ht, hmm, h1⟩ | ⟨-, h1⟩
      · subst hmm
        subst ht
        exact ⟨_, h1, Or.inr (Or.inr (Or.inl ⟨u, f, k, n, rfl, rfl⟩))⟩
      · exact ⟨m, h1, Or.inl rfl⟩
  | reviewSubmission u cid mid s f n =>
    rcases reviewSubmission_contracts db u cid mid s f n with
      h | ⟨c0, m0, cur, h, hfind0, hm0, hcur⟩
    · exact found_unchanged _ (Or.inl rfl) h hfind hm
    · refine found_after_update _ (Or.inl rfl) h hfind0 rfl hfind hm (fun ht hc => ?_)
      subst hc
      subst ht
      rcases @findMilestone_after_set _ _ _ _ (reviewMilestone m0 cur s f n) _ hm0
        (reviewMilestone_id m0 cur s f n) hm with ⟨ht, hmm, h1⟩ | ⟨-, h1⟩
      · subst hmm
        subst ht
        exact ⟨_, h1, Or.inr (Or.inr (Or.inr ⟨u, s, f, n, cur, rfl, hcur, rfl⟩))⟩
      · exact ⟨m, h1, Or.inl rfl⟩

theorem pairwise_of_newestFirst {h : List Submission} (hn : NewestFirst h) :
    h.Pairwise (fun a b => b.submittedAt ≤ a.submittedAt) := by
  have htrans : IsTrans Submission (fun a b => b.submittedAt ≤ a.submittedAt) :=
    ⟨fun _ _ _ hab hbc => Nat.le_trans hbc hab⟩
  exact List.chain'_iff_pairwise.mp hn

theorem validSubmission_status {s : Submission} (h : validSubmission s = true) :
    s.status ≠ "" := by
  simp only [validSubmission, Bool.and_eq_true] at h
  intro he
  rw [he] at h
  exact absurd h.2 (by decide)

theorem valid_current {c : Contract} {m : Milestone} {id : ObjectId} {current : Submission}
    (hv : validContract c = true) (hm : findMilestone c.milestones id = some m)
    (hcur : m.currentSubmission = some current) : validSubmission current = true := by
  have hvm := validMilestone_of_mem (valid_milestones c hv) hm
  simp only [validMilestone, Bool.and_eq_true, hcur] at hvm
  exact hvm.2

theorem submitMilestone_history (m : Milestone) (savedFiles : List FileMeta)
    (comments : Option String) (now : Nat)
    (hord : NewestFirst m.submissionHistory)
    (hvalid : ∀ current, m.currentSubmission = some current → current.status ≠ "") :
    (submitMilestone m savedFiles comments now).submissionHistory =
      match m.currentSubmission with
      | none => m.submissionHistory
      | some current => current :: m.submissionHistory := by
  cases hcur : m.currentSubmission with
  | none => simp [submitMilestone, hcur]
  | some current =>
    have hs : (current.status == "") = false := by simpa using hvalid current hcur
    simp [submitMilestone, hcur, hs, sortHistory_of_pairwise _ (pairwise_of_newestFirst hord)]

theorem reviewMilestone_history (m : Milestone) (current : Submission) (status : String)
    (feedback : Option String) (now : Nat) (hord : NewestFirst m.submissionHistory) :
    (reviewMilestone m current status feedback now).submissionHistory =
      if status = "approved" ∨ status = "changes_requested" then
        { stampSubmission current status feedback now with
          status := status, feedbackAt := some now } :: m.submissionHistory
      else m.submissionHistory := by
  have hsort := sortHistory_of_pairwise _ (pairwise_of_newestFirst hord)
  by_cases h1 : status = "approved"
  · simp [reviewMilestone, h1, hsort]
  · by_cases h2 : status = "changes_requested"
    · simp [reviewMilestone, h2, hsort]
    · simp [reviewMilestone, h1, h2]

/-- Counterexample to C22 as stated: the client approves the pending submission of
`submittedContract`; the entry put at the head of the history has status "approved" and
`feedbackAt = 2000`, so it is not equal to the prior current submission, which has status
"pending" and no `feedbackAt`. -/
theorem reviewSubmission_entry_not_verbatim_counterexample :
    submittedDb.findContract 10 = some submittedContract ∧
    findMilestone submittedContract.milestones 11 = some submittedMilestone ∧
    submittedMilestone.currentSubmission = some pendingSubmission ∧
    submittedMilestone.submissionHistory = [] ∧
    (reviewSubmission submittedDb 100 10 11 "approved" none 2000).1.code = 200 ∧
    (((reviewSubmission submittedDb 100 10 11 "approved" none 2000).2.findContract 10).bind
      (fun c => findMilestone c.milestones 11)).map (fun m => m.submissionHistory) =
      some [{ files := [], comments := "done", submittedAt := 1000, status := "approved",
              feedbackAt := some 2000 }] ∧
    ({ files := [], comments := "done", submittedAt := 1000, status := "approved",
       feedbackAt := some 2000 } : Submission) ≠ pendingSubmission := by
  decide

/-- C22 (amended): for every stored milestone of a schema-valid contract whose history is
ordered newest first, every contract request leaves the old history as an unchanged suffix
of the new one and adds at most one entry, at the head. An entry is added only by a
`submitWork` request addressed to this milestone, and then it is the prior current submission
unchanged, or by a `reviewSubmission` request addressed to this milestone with status
"approved" or "changes_requested", and then it is the prior current submission with the
review stamped on it: the status of the review, `feedbackAt = now` and the client feedback
when given. Every other request leaves the history equal to the old one. -/
theorem history_append_only (db : Db) (call : Call) (contractId milestoneId : ObjectId)
    (c : Contract) (m : Milestone) (hfind : db.findContract contractId = some c)
    (hm : findMilestone c.milestones milestoneId = some m)
    (hvalid : validContract c = true) (hord : NewestFirst m.submissionHistory) :
    ∃ c1 m1, (step db call).findContract contractId = some c1 ∧
      findMilestone c1.milestones milestoneId = some m1 ∧
      m.submissionHistory <:+ m1.submissionHistory ∧
      (m1.submissionHistory = m.submissionHistory ∨
       (∃ user files comments now current,
          call = .submitWork user contractId milestoneId none files comments now ∧
          m.currentSubmission = some current ∧
          m1.submissionHistory = current :: m.submissionHistory) ∨
       (∃ user status feedback now current,
          call = .reviewSubmission user contractId milestoneId status feedback now ∧
          (status = "approved" ∨ status = "changes_requested") ∧
          m.currentSubmission = some current ∧
          m1.submissionHistory =
            { stampSubmission current status feedback now with
              status := status, feedbackAt := some now } :: m.submissionHistory)) := by
  obtain ⟨c1, m1, hfind1, hm1, hnext⟩ := step_findMilestone db call contractId milestoneId c m
    hfind hm
  have hmain : m1.submissionHistory = m.submissionHistory ∨
       (∃ user files comments now current,
          call = .submitWork user contractId milestoneId none files comments now ∧
          m.currentSubmission = some current ∧
          m1.submissionHistory = current :: m.submissionHistory) ∨
       (∃ user status feedback now current,
          call = .reviewSubmission user contractId milestoneId status feedback now ∧
          (status = "approved" ∨ status = "changes_requested") ∧
          m.currentSubmission = some current ∧
          m1.submissionHistory =
            { stampSubmission current status feedback now with
              status := status, feedbackAt := some now } :: m.submissionHistory) := by
    rcases hnext with rfl | ⟨u, -, -, rfl⟩ | ⟨u, files, comments, now, hcall, rfl⟩ |
      ⟨u, status, feedback, now, current, hcall, hcur, rfl⟩
    · exact Or.inl rfl
    · exact Or.inl rfl
    · have hh := submitMilestone_history m (savedFilesOf files) comments now hord
        (fun current hcur => validSubmission_status (valid_current hvalid hm hcur))
      cases hcur : m.currentSubmission with
      | none =>
        rw [hcur] at hh
        exact Or.inl hh
      | some current =>
        rw [hcur] at hh
        exact Or.inr (Or.inl ⟨u, files, comments, now, current, hcall, rfl, hh⟩)
    · have hh := reviewMilestone_history m current status feedback now hord
      by_cases hs : status = "approved" ∨ status = "changes_requested"
      · rw [if_pos hs] at hh
        exact Or.inr (Or.inr ⟨u, status, feedback, now, current, hcall, hs, hcur, hh⟩)
      · rw [if_neg hs] at hh
        exact Or.inl hh
  refine ⟨c1, m1, hfind1, hm1, ?_, hmain⟩
  rcases hmain with h | ⟨_, _, _, _, _, _, _, h⟩ | ⟨_, _, _, _, _, _, _, _, h⟩
  · exact h ▸ List.suffix_refl _
  · rw [h]
    exact List.suffix_cons _ _
  · rw [h]
    exact List.suffix_cons _ _

/-- Witness for C22 (amended): the freelancer of `archiveContract` submits once more at time
4000; the prior current submission `archiveCurrent` is put in front of the two older history
entries. -/
theorem history_append_only_witness :
    archiveDb.findContract 60 = some archiveContract ∧
    findMilestone archiveContract.milestones 61 = some archiveMilestone ∧
    validContract archiveContract = true ∧
    NewestFirst archiveMilestone.submissionHistory ∧
    (((step archiveDb (.submitWork 200 60 61 none [] (some "fourth") 4000)).findContract
        60).bind (fun c => findMilestone c.milestones 61)).map (fun m => m.submissionHistory) =
      some (archiveCurrent :: archiveMilestone.submissionHistory) ∧
    ∃ c1 m1,
      (step archiveDb (.submitWork 200 60 61 none [] (some "fourth") 4000)).findContract 60 =
        some c1 ∧
      findMilestone c1.milestones 61 = some m1 ∧
      archiveMilestone.submissionHistory <:+ m1.submissionHistory ∧
      (m1.submissionHistory = archiveMilestone.submissionHistory ∨
       (∃ user files comments now current,
          Call.submitWork 200 60 61 none [] (some "fourth") 4000 =
            .submitWork user 60 61 none files comments now ∧
          archiveMilestone.currentSubmission = some current ∧
          m1.submissionHistory = current :: archiveMilestone.submissionHistory) ∨
       (∃ user status feedback now current,
          Call.submitWork 200 60 61 none [] (some "fourth") 4000 =
            .reviewSubmission user 60 61 status feedback now ∧
          (status = "approved" ∨ status = "changes_requested") ∧
          archiveMilestone.currentSubmission = some current ∧
          m1.submissionHistory =
            { stampSubmission current status feedback now with
              status := status, feedbackAt := some now } ::
              archiveMilestone.submissionHistory)) :=
  ⟨by decide, by decide, by decide, by simp [NewestFirst, archiveMilestone], by decide,
    history_append_only archiveDb (.submitWork 200 60 61 none [] (some "fourth") 4000) 60 61
      archiveContract archiveMilestone (by decide) (by decide) (by decide)
      (by simp [NewestFirst, archiveMilestone])⟩

/-! ## Applications to a job that is not open -/

theorem createContract_failed_or_created (db : Db) (user proposalId : ObjectId)
    (body : ContractInput) :
    (createContract db user proposalId body).2 = db ∨
    (createContract db user proposalId body).1.code = 201 := by
  unfold createContract
  repeat' (first | split | dsimp only)
  all_goals first
    | (left; rfl)
    | (right; rfl)

/-- What a contract request does to the job collection: nothing, or one `findByIdAndUpdate`
of a status other than "open". -/
theorem step_jobs (db : Db) (call : Call) :
    (step db call).jobs = db.jobs ∨
    ∃ id status, status ≠ "open" ∧ (step db call).jobs = (db.setJobStatus id status).jobs := by
  cases call with
  | createContract u p b =>
    rcases createContract_failed_or_created db u p b with h | h
    · left
      show (createContract db u p b).2.jobs = db.jobs
      rw [h]
    · obtain ⟨ms, proposal, job, title, scope, terms, totalAmount, built, db1, -, -, -, -, -, -,
        -, -, -, -, -, hins, hrun⟩ := createContract_created db u p b h
      obtain ⟨-, -, hj⟩ := insertContract_some hins
      right
      refine ⟨job.id, "in-progress", by decide, ?_⟩
      show (createContract db u p b).2.jobs = _
      rw [hrun]
      simp only [Db.setJobStatus, Db.setProposalStatus, hj]
  | fundEscrow u c a =>
    show (fundEscrow db u c a).2.jobs = db.jobs ∨ _
    unfold fundEscrow
    repeat' (first | split | dsimp only)
    all_goals first
      | (left; rfl)
      | (left
         have h1 := (saveContract_some (by assumption)).2
         subst h1
         rfl)
  | activateContract u c n =>
    show (activateContract db u c n).2.jobs = db.jobs ∨ _
    unfold activateContract
    repeat' (first | split | dsimp only)
    all_goals first
      | (left; rfl)
      | (left
         have h1 := (saveContract_some (by assumption)).2
         subst h1
         rfl)
  | addMilestone u c b =>
    show (addMilestone db u c b).2.jobs = db.jobs ∨ _
    unfold addMilestone
    repeat' (first | split | dsimp only)
    all_goals first
      | (left; rfl)
      | (left
         have h1 := (saveContract_some (by assumption)).2
         subst h1
         rfl)
  | submitWork u c m e f k n =>
    show (submitWork db u c m e f k n).2.jobs = db.jobs ∨ _
    unfold submitWork
    repeat' (first | split | dsimp only)
    all_goals first
      | (left; rfl)
      | (left
         have h1 := (saveContract_some (by assumption)).2
         subst h1
         rfl)
  | reviewSubmission u c m s f n =>
    show (reviewSubmission db u c m s f n).2.jobs = db.jobs ∨ _
    unfold reviewSubmission
    repeat' (first | split | dsimp only)
    all_goals first
      | (left; rfl)
      | (left
         have h1 := (saveContract_some (by assumption)).2
         subst h1
         rfl)
  | releasePayment u c m =>
    show (releasePayment db u c m).2.jobs = db.jobs ∨ _
    unfold releasePayment
    repeat' (first | split | dsimp only)
    all_goals first
      | (left; rfl)
      | (left
         have h1 := (saveContract_some (by assumption)).2
         subst h1
         rfl)
  | completeContract u c n =>
    simp only [step]
    unfold completeContract
    repeat' (first | split | dsimp only)
    all_goals first
      | (left; rfl)
      | (left
         have h1 := (saveContract_some (by assumption)).2
         subst h1
         rfl)
      | (right
         have h1 := (saveContract_some (by assumption)).2
         subst h1
         exact ⟨_, "completed", by decide, rfl⟩)

theorem findJob_map_status (jobs : List Job) (id jobId : ObjectId) (status : String) :
    (jobs.map (fun j => if j.id == id then { j with status := status } else j)).find?
        (fun j => j.id == jobId) =
      (jobs.find? (fun j => j.id == jobId)).map
        (fun j => if j.id == id then { j with status := status } else j) := by
  rw [List.find?_map]
  have hp : ((fun j : Job => j.id == jobId) ∘
      (fun j : Job => if j.id == id then { j with status := status } else j)) =
      (fun j : Job => j.id == jobId) := by
    funext j
    simp only [Function.comp]
    split <;> rfl
  rw [hp]

/-- A job that is not open is still stored and still not open after a contract request. -/
theorem closed_job_step (db : Db) (call : Call) (jobId : ObjectId) (job : Job)
    (hjob : db.findJob jobId = some job) (hclosed : job.status ≠ "open") :
    ∃ job1, (step db call).findJob jobId = some job1 ∧ job1.status ≠ "open" := by
  rcases step_jobs db call with h | ⟨id, status, hs, h⟩
  · refine ⟨job, ?_, hclosed⟩
    unfold Db.findJob at hjob ⊢
    rw [h]
    exact hjob
  · unfold Db.findJob at hjob ⊢
    rw [h]
    simp only [Db.setJobStatus]
    rw [findJob_map_status, hjob]
    by_cases hid : job.id = id
    · refine ⟨{ job with status := status }, by simp [hid], hs⟩
    · exact ⟨job, by simp [hid], hclosed⟩

theorem closed_job_run (calls : List Call) (db : Db) (jobId : ObjectId) (job : Job)
    (hjob : db.findJob jobId = some job) (hclosed : job.status ≠ "open") :
    ∃ job1, (run db calls).findJob jobId = some job1 ∧ job1.status ≠ "open" := by
  induction calls generalizing db job with
  | nil => exact ⟨job, hjob, hclosed⟩
  | cons call rest ih =>
    obtain ⟨job1, h1, hc1⟩ := closed_job_step db call jobId job hjob hclosed
    exact ih (step db call) job1 h1 hc1

theorem createProposal_closed_job (db : Db) (user : User) (jobId : ObjectId) (job : Job)
    (body : ProposalInput) (hjob : db.findJob jobId = some job) (hclosed : job.status ≠ "open") :
    (createProposal db user jobId body).2 = db ∧
    (createProposal db user jobId body).1.code ≠ 201 ∧
    (falsyStr body.coverLetter = false → body.bidAmount.isNone = false →
      falsyStr body.estimatedDuration = false → user.role = "freelancer" →
      (createProposal db user jobId body).1 =
        json 400 "This job is no longer accepting proposals") := by
  have c3 : (job.status != "open") = true := by simpa using hclosed
  by_cases c1 : (falsyStr body.coverLetter || body.bidAmount.isNone ||
      falsyStr body.estimatedDuration) = true
  · refine ⟨by simp [createProposal, c1], by simp [createProposal, c1, json], ?_⟩
    intro h1 h2 h3
    rw [h1, h2, h3] at c1
    exact absurd c1 (by decide)
  · by_cases c2 : (user.role != "freelancer") = true
    · refine ⟨by simp [createProposal, c1, c2], by simp [createProposal, c1, c2, json], ?_⟩
      intro _ _ _ hrole
      rw [hrole] at c2
      exact absurd c2 (by decide)
    · refine ⟨by simp [createProposal, c1, c2, hjob, c3], by simp [createProposal, c1, c2, hjob, c3, json], ?_⟩
      intro _ _ _ _
      simp [createProposal, c1, c2, hjob, c3]

theorem applyToJob_closed_job (db : Db) (user : User) (jobId : ObjectId) (job : Job)
    (body : ApplicationInput) (hjob : db.findJob jobId = some job)
    (hclosed : job.status ≠ "open") :
    (applyToJob db user jobId body).2 = db ∧
    (applyToJob db user jobId body).1.code ≠ 200 ∧
    (falsyStr body.proposalText = false → falsyNum body.proposedBudget = false →
      falsyStr body.estimatedDuration = false → user.role = "freelancer" →
      (applyToJob db user jobId body).1 =
        json 400 "This job is no longer accepting applications") := by
  have c3 : (job.status != "open") = true := by simpa using hclosed
  by_cases c1 : (falsyStr body.proposalText || falsyNum body.proposedBudget ||
      falsyStr body.estimatedDuration) = true
  · refine ⟨by simp [applyToJob, c1], by simp [applyToJob, c1, json], ?_⟩
    intro h1 h2 h3
    rw [h1, h2, h3] at c1
    exact absurd c1 (by decide)
  · by_cases c2 : (user.role != "freelancer") = true
    · refine ⟨by simp [applyToJob, c1, c2], by simp [applyToJob, c1, c2, json], ?_⟩
      intro _ _ _ hrole
      rw [hrole] at c2
      exact absurd c2 (by decide)
    · refine ⟨by simp [applyToJob, c1, c2, hjob, c3], by simp [applyToJob, c1, c2, hjob, c3, json], ?_⟩
      intro _ _ _ _
      simp [applyToJob, c1, c2, hjob, c3]

theorem createContract_job_in_progress (db : Db) (user proposalId : ObjectId)
    (body : ContractInput) (proposal : Proposal)
    (hp : db.findProposal proposalId = some proposal)
    (hok : (createContract db user proposalId body).1.code = 201) :
    ∃ job1, (createContract db user proposalId body).2.findJob proposal.job = some job1 ∧
      job1.status = "in-progress" := by
  obtain ⟨ms, p, job, title, scope, terms, totalAmount, built, db1, -, -, -, hp1, hj, -,
    -, -, -, -, -, hins, hrun⟩ := createContract_created db user proposalId body hok
  have hpp : p = proposal := by
    rw [hp] at hp1
    exact (Option.some.inj hp1).symm
  subst hpp
  obtain ⟨-, -, hjobs⟩ := insertContract_some hins
  have hjid : job.id = p.job := by
    have := List.find?_some hj
    simpa using this
  rw [hrun]
  have h := findJob_setJobStatus (db1.setProposalStatus p.id "accepted") job.id "in-progress"
  have hA : (db1.setProposalStatus p.id "accepted").findJob job.id = some job := by
    unfold Db.findJob Db.setProposalStatus
    simp only
    rw [hjobs, hjid]
    exact hj
  rw [hA] at h
  rw [← hjid]
  exact ⟨{ job with status := "in-progress" }, h, rfl⟩

/-- Counterexample to C23 as stated: `createContract` succeeds on the job of `postedDb` and
leaves it "in-progress"; the client then sets the job's status back to "open" with
`updateJobStatus`, and the later application of `freelancerG` to this job is answered 201 and
stores a proposal. -/
theorem application_after_reopen_counterexample :
    validJob postedJob = true ∧
    (createContract postedDb 100 2 sampleBody).1.code = 201 ∧
    ((createContract postedDb 100 2 sampleBody).2.findJob 1).map (fun j => j.status) =
      some "in-progress" ∧
    (updateJobStatus (createContract postedDb 100 2 sampleBody).2 100 1 (some "open")).1 =
      json 200 "Job updated successfully" ∧
    (createProposal
      (updateJobStatus (createContract postedDb 100 2 sampleBody).2 100 1 (some "open")).2
      freelancerG 1 proposalBody).1 = json 201 "Proposal submitted successfully" ∧
    (createProposal
      (updateJobStatus (createContract postedDb 100 2 sampleBody).2 100 1 (some "open")).2
      freelancerG 1 proposalBody).2.proposals =
      [{ id := 2, job := 1, freelancer := 200, status := "accepted" },
       { id := 12, job := 1, freelancer := 300 }] := by
  decide

/-- C23 (amended): when the job is stored with a status other than "open", then in this store
and in every store reached from it by contract requests, `createProposal` and `applyToJob`
for this job leave the store unchanged (no proposal, no notification) and are not answered
with their success code; a complete request of a freelancer is answered 400 "This job is no
longer accepting proposals", respectively "This job is no longer accepting applications".
Every `createContract` answered 201 leaves the job of its proposal with status
"in-progress", so this holds for that job from then on, as long as no other request sets the
status back to "open". -/
theorem application_rejected_unless_open (db : Db) (calls : List Call) (user : User)
    (jobId : ObjectId) (job : Job) (body : ProposalInput) (application : ApplicationInput)
    (hjob : db.findJob jobId = some job) (hclosed : job.status ≠ "open") :
    (createProposal (run db calls) user jobId body).2 = run db calls ∧
    (createProposal (run db calls) user jobId body).1.code ≠ 201 ∧
    (falsyStr body.coverLetter = false → body.bidAmount.isNone = false →
      falsyStr body.estimatedDuration = false → user.role = "freelancer" →
      (createProposal (run db calls) user jobId body).1 =
        json 400 "This job is no longer accepting proposals") ∧
    (applyToJob (run db calls) user jobId application).2 = run db calls ∧
    (applyToJob (run db calls) user jobId application).1.code ≠ 200 ∧
    (falsyStr application.proposalText = false → falsyNum application.proposedBudget = false →
      falsyStr application.estimatedDuration = false → user.role = "freelancer" →
      (applyToJob (run db calls) user jobId application).1 =
        json 400 "This job is no longer accepting applications") ∧
    (∀ (db0 : Db) (client proposalId : ObjectId) (contractBody : ContractInput)
        (proposal : Proposal),
      db0.findProposal proposalId = some proposal →
      (createContract db0 client proposalId contractBody).1.code = 201 →
      ∃ job1,
        (createContract db0 client proposalId contractBody).2.findJob proposal.job =
          some job1 ∧
        job1.status = "in-progress") := by
  obtain ⟨job1, hjob1, hclosed1⟩ := closed_job_run calls db jobId job hjob hclosed
  obtain ⟨h1, h2, h3⟩ := createProposal_closed_job (run db calls) user jobId job1 body hjob1
    hclosed1
  obtain ⟨h4, h5, h6⟩ := applyToJob_closed_job (run db calls) user jobId job1 application
    hjob1 hclosed1
  exact ⟨h1, h2, h3, h4, h5, h6, fun db0 client proposalId contractBody proposal hp hok =>
    createContract_job_in_progress db0 client proposalId contractBody proposal hp hok⟩

/-- Witness for C23 (amended): after `createContract` on `postedDb` the job is
"in-progress"; the client funds the escrow and the freelancer submits work; the application
of `freelancerG` is then answered with the job-closed error by both controllers and the
store stays as it is. -/
theorem application_rejected_unless_open_witness :
    (createContract postedDb 100 2 sampleBody).1.code = 201 ∧
    (createContract postedDb 100 2 sampleBody).2.findJob 1 =
      some { postedJob with status := "in-progress" } ∧
    ({ postedJob with status := "in-progress" } : Job).status ≠ "open" ∧
    createProposal
      (run (createContract postedDb 100 2 sampleBody).2
        [.fundEscrow 100 10 (some 50), .submitWork 200 10 11 none [] (some "done") 1000])
      freelancerG 1 proposalBody =
      (json 400 "This job is no longer accepting proposals",
        run (createContract postedDb 100 2 sampleBody).2
          [.fundEscrow 100 10 (some 50), .submitWork 200 10 11 none [] (some "done") 1000]) ∧
    applyToJob
      (run (createContract postedDb 100 2 sampleBody).2
        [.fundEscrow 100 10 (some 50), .submitWork 200 10 11 none [] (some "done") 1000])
      freelancerG 1 applicationBody =
      (json 400 "This job is no longer accepting applications",
        run (createContract postedDb 100 2 sampleBody).2
          [.fundEscrow 100 10 (some 50), .submitWork 200 10 11 none [] (some "done") 1000]) :=
  ⟨by decide, by decide, by decide,
    Prod.ext
      ((application_rejected_unless_open (createContract postedDb 100 2 sampleBody).2
        [.fundEscrow 100 10 (some 50), .submitWork 200 10 11 none [] (some "done") 1000]
        freelancerG 1 { postedJob with status := "in-progress" } proposalBody applicationBody
        (by decide) (by decide)).2.2.1 (by decide) (by decide) (by decide) (by decide))
      (application_rejected_unless_open (createContract postedDb 100 2 sampleBody).2
        [.fundEscrow 100 10 (some 50), .submitWork 200 10 11 none [] (some "done") 1000]
        freelancerG 1 { postedJob with status := "in-progress" } proposalBody applicationBody
        (by decide) (by decide)).1,
    Prod.ext
      ((application_rejected_unless_open (createContract postedDb 100 2 sampleBody).2
        [.fundEscrow 100 10 (some 50), .submitWork 200 10 11 none [] (some "done") 1000]
        freelancerG 1 { postedJob with status := "in-progress" } proposalBody applicationBody
        (by decide) (by decide)).2.2.2.2.2.1 (by decide) (by decide) (by decide) (by decide))
      (application_rejected_unless_open (createContract postedDb 100 2 sampleBody).2
        [.fundEscrow 100 10 (some 50), .submitWork 200 10 11 none [] (some "done") 1000]
        freelancerG 1 { postedJob with status := "in-progress" } proposalBody applicationBody
        (by decide) (by decide)).2.2.2.1⟩

/-! ## addMilestone -/

theorem validMilestone_new (id : ObjectId) (title description : String) (amount : Int)
    (dueDate : Nat) :
    validMilestone { id := id, title := title, description := description, amount := amount,
                     dueDate := dueDate, status := "pending" } =
      (title != "" && description != "" && decide (0 ≤ amount)) := by
  simp [validMilestone, milestoneStatusEnum]

theorem valid_push (c : Contract) (m : Milestone) (hv : validContract c = true) :
    validContract { c with milestones := c.milestones ++ [m] } = validMilestone m := by
  have hms := valid_milestones c hv
  simp only [validContract, Bool.and_eq_true] at hv
  obtain ⟨hrest, -⟩ := hv
  simp only [validContract, List.all_append, List.all_cons, List.all_nil, Bool.and_true, hms,
    Bool.true_and]
  cases hm : validMilestone m
  · simp
  · simpa using hrest

/-- Counterexample to C24 as stated: the client of `draftContract` adds a milestone with the
title " Launch "; the request is answered 200, but the milestone is stored with the title
"Launch". -/
theorem addMilestone_title_trimmed_counterexample :
    draftDb.findContract 10 = some draftContract ∧ draftContract.client = 100 ∧
    paddedMilestone.title = some " Launch " ∧
    (addMilestone draftDb 100 10 paddedMilestone).1.code = 200 ∧
    ((addMilestone draftDb 100 10 paddedMilestone).2.findContract 10).map
      (fun c => c.milestones.map (fun m => m.title)) = some ["Design", "Launch"] := by
  decide

/-- C24 (amended): for an existing (schema-valid) contract of any status, its client as
caller and a body that gives title, description, amount and due date, `addMilestone` answers
200 exactly when the title is not blank, the description is not empty and the amount is not
negative (otherwise 500, the store unchanged). Then the stored contract is the old one with
exactly one milestone added behind the old milestones: it has a fresh `_id`, the given
description, amount and due date, the given title with surrounding whitespace trimmed,
status "pending" and no submission; contract status, escrow balance and the existing
milestones are unchanged, and so is every other contract. -/
theorem addMilestone_effect (db : Db) (user contractId : ObjectId) (c : Contract)
    (body : MilestoneInput) (title description : String) (amount : Int) (dueDate : Nat)
    (hfind : db.findContract contractId = some c) (hclient : c.client = user)
    (hvalid : validContract c = true)
    (ht : body.title = some title) (hd : body.description = some description)
    (ha : body.amount = some amount) (hdue : body.dueDate = some dueDate) :
    ((addMilestone db user contractId body).1.code = 200 ↔
      (jsTrim title ≠ "" ∧ description ≠ "" ∧ 0 ≤ amount)) ∧
    ((addMilestone db user contractId body).1.code ≠ 200 →
      addMilestone db user contractId body = (json 500 "Error adding milestone", db)) ∧
    ((addMilestone db user contractId body).1.code = 200 →
      (addMilestone db user contractId body).1 = json 200 "Milestone added successfully" ∧
      (addMilestone db user contractId body).2.findContract contractId =
        some { c with
               milestones := c.milestones ++
                 [{ id := db.nextId, title := jsTrim title, description := description,
                    amount := amount, dueDate := dueDate, status := "pending" }] } ∧
      ∀ other, other ≠ contractId →
        (addMilestone db user contractId body).2.findContract other =
          db.findContract other) := by
  subst hclient
  have hbuild : buildMilestones db.nextId [body] =
      some [{ id := db.nextId, title := jsTrim title, description := description,
              amount := amount, dueDate := dueDate, status := "pending" }] := by
    simp [buildMilestones, ht, hd, ha, hdue]
  have hc : (c.client != c.client) = false := by simp
  have hrun : addMilestone db c.client contractId body =
      match db.saveContract
          { c with
            milestones := c.milestones ++
              [{ id := db.nextId, title := jsTrim title, description := description,
                 amount := amount, dueDate := dueDate, status := "pending" }] } with
      | none => (json 500 "Error adding milestone", db)
      | some db1 =>
        (json 200 "Milestone added successfully", { db1 with nextId := db.nextId + 1 }) := by
    simp only [addMilestone, hfind, hc, hbuild]
    rfl
  have hvnew := valid_push c
    { id := db.nextId, title := jsTrim title, description := description,
      amount := amount, dueDate := dueDate, status := "pending" } hvalid
  rw [validMilestone_new] at hvnew
  by_cases hcond : jsTrim title ≠ "" ∧ description ≠ "" ∧ 0 ≤ amount
  · have hv1 : validContract
        { c with
          milestones := c.milestones ++
            [{ id := db.nextId, title := jsTrim title, description := description,
               amount := amount, dueDate := dueDate, status := "pending" }] } = true := by
      rw [hvnew]
      simp [hcond.1, hcond.2.1, hcond.2.2]
    obtain ⟨db1, hsave, hstored, hother, -, -, -, -⟩ := saveContract_frame db c
      { c with
        milestones := c.milestones ++
          [{ id := db.nextId, title := jsTrim title, description := description,
             amount := amount, dueDate := dueDate, status := "pending" }] }
      contractId hfind rfl hv1
    rw [hsave] at hrun
    rw [hrun]
    refine ⟨⟨fun _ => hcond, fun _ => rfl⟩, fun h => absurd rfl h, fun _ => ⟨rfl, hstored, ?_⟩⟩
    intro other hne
    exact hother other hne
  · have hv1 : validContract
        { c with
          milestones := c.milestones ++
            [{ id := db.nextId, title := jsTrim title, description := description,
               amount := amount, dueDate := dueDate, status := "pending" }] } = false := by
      rw [hvnew]
      by_cases h1 : jsTrim title = ""
      · simp [h1]
      · by_cases h2 : description = ""
        · simp [h2]
        · have h3 : ¬ 0 ≤ amount := fun h3 => hcond ⟨h1, h2, h3⟩
          simp [h3]
    rw [saveContract_of_invalid db _ hv1] at hrun
    rw [hrun]
    refine ⟨⟨fun h => ?_, fun h => absurd h hcond⟩, fun _ => rfl, fun h => ?_⟩
    · simp [json] at h
    · simp [json] at h

/-- Witness for C24 (amended): the client of `sampleContract`, whose status is "funded", adds
the milestone `paddedMilestone`; it is stored behind the three old ones with the title
"Launch". -/
theorem addMilestone_effect_witness :
    sampleDb.findContract 10 = some sampleContract ∧ sampleContract.client = 100 ∧
    validContract sampleContract = true ∧
    jsTrim " Launch " = "Launch" ∧
    (addMilestone sampleDb 100 10 paddedMilestone).1 =
      json 200 "Milestone added successfully" ∧
    (addMilestone sampleDb 100 10 paddedMilestone).2.findContract 10 =
      some { sampleContract with
             milestones := sampleContract.milestones ++
               [{ id := 20, title := "Launch", description := "Deploy", amount := 20,
                  dueDate := 900, status := "pending" }] } ∧
    ((addMilestone sampleDb 100 10 paddedMilestone).1.code = 200 ↔
      (jsTrim " Launch " ≠ "" ∧ "Deploy" ≠ "" ∧ (0 : Int) ≤ 20)) :=
  ⟨by decide, by decide, by decide, by decide, by decide, by decide,
    (addMilestone_effect sampleDb 100 10 sampleContract paddedMilestone " Launch " "Deploy" 20
      900 (by decide) (by decide) (by decide) rfl rfl rfl rfl).1⟩

/-! ## getJobs: the order for sortBy = 'deadline' -/

theorem mem_insertJob (sortBy : String) (j x : Job) (l : List Job) :
    x ∈ insertJob sortBy j l ↔ x = j ∨ x ∈ l := by
  induction l with
  | nil => simp [insertJob]
  | cons y ys ih =>
    unfold insertJob
    split
    · simp
    · simp only [List.mem_cons, ih]
      constructor
      · rintro (h | h | h)
        · exact Or.inr (Or.inl h)
        · exact Or.inl h
        · exact Or.inr (Or.inr h)
      · rintro (h | h | h)
        · exact Or.inr (Or.inl h)
        · exact Or.inl h
        · exact Or.inr (Or.inr h)

theorem mem_sortJobs (sortBy : String) (x : Job) (l : List Job) :
    x ∈ sortJobs sortBy l ↔ x ∈ l := by
  induction l with
  | nil => simp [sortJobs]
  | cons y ys ih => simp [sortJobs, mem_insertJob, ih]

/-- Every other value of the timeline enum sorts before "urgent". -/
theorem urgent_sorts_last :
    ∀ t ∈ timelines, t ≠ "urgent" →
      binaryLt t "urgent" = true ∧ binaryLt "urgent" t = false := by
  decide

theorem sortBefore_deadline_urgent (a b : Job) (ha : a.timeline = "urgent")
    (hb : b.timeline ∈ timelines) (hbu : b.timeline ≠ "urgent") :
    sortBefore "deadline" a b = false ∧ sortBefore "deadline" b a = true := by
  obtain ⟨h1, h2⟩ := urgent_sorts_last b.timeline hb hbu
  have hne : ("urgent" == b.timeline) = false := by
    simpa using fun h => hbu h.symm
  have hd1 : ("deadline" == "oldest") = false := by decide
  have hd2 : ("deadline" == "budget-high") = false := by decide
  have hd3 : ("deadline" == "budget-low") = false := by decide
  constructor
  · simp only [sortBefore, hd1, hd2, hd3, ha, h2, hne, Bool.false_eq_true, if_false,
      beq_self_eq_true, if_true, Bool.false_and, Bool.or_false]
  · simp only [sortBefore, hd1, hd2, hd3, ha, h1, Bool.false_eq_true, if_false,
      beq_self_eq_true, if_true, Bool.true_or]

theorem insertJob_deadline (j : Job) (l : List Job) (hj : j.timeline ∈ timelines)
    (hl : ∀ x ∈ l, x.timeline ∈ timelines)
    (hp : l.Pairwise (fun a b => a.timeline = "urgent" → b.timeline = "urgent")) :
    (insertJob "deadline" j l).Pairwise
      (fun a b => a.timeline = "urgent" → b.timeline = "urgent") := by
  induction l with
  | nil => simp [insertJob]
  | cons x xs ih =>
    obtain ⟨hx, hxs⟩ := List.pairwise_cons.mp hp
    have hxt := hl x (List.mem_cons_self _ _)
    unfold insertJob
    split
    · rename_i hbefore
      have hjx : j.timeline = "urgent" → x.timeline = "urgent" := by
        intro hju
        by_contra hxu
        rw [(sortBefore_deadline_urgent j x hju hxt hxu).1] at hbefore
        exact absurd hbefore (by decide)
      refine List.pairwise_cons.mpr ⟨?_, hp⟩
      intro y hy hju
      rcases List.mem_cons.mp hy with rfl | hy1
      · exact hjx hju
      · exact hx y hy1 (hjx hju)
    · rename_i hbefore
      have hxj : x.timeline = "urgent" → j.timeline = "urgent" := by
        intro hxu
        by_contra hju
        exact hbefore (sortBefore_deadline_urgent x j hxu hj hju).2
      refine List.pairwise_cons.mpr ⟨?_, ih (fun y hy => hl y (List.mem_cons_of_mem _ hy)) hxs⟩
      intro y hy hxu
      rcases (mem_insertJob "deadline" j y xs).mp hy with rfl | hy1
      · exact hxj hxu
      · exact hx y hy1 hxu

theorem sortJobs_deadline (l : List Job) (hl : ∀ x ∈ l, x.timeline ∈ timelines) :
    (sortJobs "deadline" l).Pairwise
      (fun a b => a.timeline = "urgent" → b.timeline = "urgent") := by
  induction l with
  | nil => simp [sortJobs]
  | cons x xs ih =>
    simp only [sortJobs]
    exact insertJob_deadline x _ (hl x (List.mem_cons_self _ _))
      (fun y hy => hl y (List.mem_cons_of_mem _ ((mem_sortJobs "deadline" y xs).mp hy)))
      (ih (fun y hy => hl y (List.mem_cons_of_mem _ hy)))

theorem pageOf_sublist (page limit : Int) (jobs result : List Job)
    (h : pageOf page limit jobs = some result) : result.Sublist jobs := by
  unfold pageOf at h
  split at h
  · simp at h
  · split at h
    · simp only [Option.some.injEq] at h
      rw [← h]
      exact List.drop_sublist _ _
    · simp only [Option.some.injEq] at h
      rw [← h]
      exact (List.take_sublist _ _).trans (List.drop_sublist _ _)

/-- C25: what the code does. With `sortBy = 'deadline'` the jobs are sorted ascending on the
`timeline` string, and every other value of the timeline enum sorts before "urgent". So for
stored jobs with a timeline of the enum, in the order that `getJobs` returns, a job with
timeline "urgent" is followed by urgent jobs only: every job with another timeline stands
before every urgent job, urgent last instead of first. -/
theorem getJobs_deadline_urgent_last (db : Db) (user : ObjectId) (query : JobQuery)
    (searchHit : Job → Bool) (page limit : Int) (jobs : List Job) (pagination : Pagination)
    (hvalid : ∀ j ∈ db.jobs, j.timeline ∈ timelines)
    (hres : getJobs db user query searchHit "deadline" page limit = some (jobs, pagination)) :
    jobs.Pairwise (fun a b => a.timeline = "urgent" → b.timeline = "urgent") := by
  unfold getJobs at hres
  dsimp only at hres
  split at hres
  · simp at hres
  · rename_i page1 hpage
    simp only [Option.some.injEq, Prod.mk.injEq] at hres
    rw [← hres.1]
    refine List.Pairwise.sublist (pageOf_sublist _ _ _ _ hpage) (sortJobs_deadline _ ?_)
    intro x hx
    exact hvalid x (List.mem_of_mem_filter hx)

/-- Witness for C25: the open jobs `urgentJob` and `weekJob` of `deadlineDb` are returned with
the "1-week" job first and the "urgent" job last. -/
theorem getJobs_deadline_urgent_last_witness :
    validJob urgentJob = true ∧ validJob weekJob = true ∧
    (∀ j ∈ deadlineDb.jobs, j.timeline ∈ timelines) ∧
    (getJobs deadlineDb 200 {} (fun _ => true) "deadline" 1 10).map (fun r => r.1) =
      some [weekJob, urgentJob] ∧
    [weekJob, urgentJob].Pairwise (fun a b => a.timeline = "urgent" → b.timeline = "urgent") :=
  ⟨by decide, by decide, by decide, by decide,
    getJobs_deadline_urgent_last deadlineDb 200 {} (fun _ => true) 1 10 [weekJob, urgentJob]
      (paginationOf 1 10 2) (by decide) (by simp [getJobs, pageOf, sortJobs, insertJob,
        deadlineDb, jobFilter, sortBefore, binaryLt, ltChars, urgentJob, weekJob, postedJob,
        fieldFilter, budgetFilter])⟩

/-! ## releasePayment twice on one milestone -/

/-- C26: every call of `doubleReleaseCalls` on `postedDb` succeeds. The milestone 11 of amount
50 is "paid" after the first `releasePayment`, "submitted" again after the next `submitWork`,
"completed" after its approval and "paid" after the second `releasePayment`; the escrow
balance goes from 100 to 50 with the first release and from 50 to 0 with the second. -/
theorem releasePayment_twice :
    (answers postedDb doubleReleaseCalls).map (fun r => r.code) =
      [201, 200, 200, 200, 200, 200, 200, 200] ∧
    [4, 5, 6, 7, 8].map (fun n =>
      ((run postedDb (doubleReleaseCalls.take n)).findContract 10).map (fun c =>
        (c.escrowBalance, c.milestones.map (fun m => (m.id, m.amount, m.status))))) =
      [some (100, [(11, 50, "completed")]), some (50, [(11, 50, "paid")]),
       some (50, [(11, 50, "submitted")]), some (50, [(11, 50, "completed")]),
       some (0, [(11, 50, "paid")])] ∧
    answer (run postedDb (doubleReleaseCalls.take 4)) (.releasePayment 100 10 11) =
      json 200 "Payment released successfully" ∧
    answer (run postedDb (doubleReleaseCalls.take 7)) (.releasePayment 100 10 11) =
      json 200 "Payment released successfully" := by
  decide

/-! ## A current submission exactly on submitted milestones -/

theorem currentIffSubmitted_next {call : Call} {m m1 : Milestone}
    (hnext : MilestoneNext call m m1) (h : CurrentIffSubmitted m) : CurrentIffSubmitted m1 := by
  cases hnext with
  | same => exact h
  | paid =>
    rename_i hst
    have hnone : m.currentSubmission = none := by
      by_contra hc
      have := h.mp hc
      rw [hst] at this
      exact absurd this (by decide)
    unfold CurrentIffSubmitted
    constructor
    · intro hc
      exact absurd hnone hc
    · intro hs
      simp at hs
  | submitted =>
    unfold CurrentIffSubmitted
    simp [submitMilestone]
  | reviewed =>
    rename_i hcur
    have hsub : m.status = "submitted" := h.mp (by rw [hcur]; exact Option.some_ne_none _)
    unfold CurrentIffSubmitted reviewMilestone
    dsimp only
    split
    · simp
    · split
      · simp
      · simp [hsub]

theorem currentIffSubmitted_step (db : Db) (call : Call)
    (h : ∀ c ∈ db.contracts, ∀ m ∈ c.milestones, CurrentIffSubmitted m) :
    ∀ c ∈ (step db call).contracts, ∀ m ∈ c.milestones, CurrentIffSubmitted m := by
  intro c1 hc1 m1 hm1
  rcases step_milestones db call c1 hc1 m1 hm1 with hnew | ⟨c, hc, m, hm, hnext⟩
  · obtain ⟨hst, -, hcur⟩ := hnew
    unfold CurrentIffSubmitted
    rw [hst, hcur]
    simp
  · exact currentIffSubmitted_next hnext (h c hc m hm)

/-- C27: start from a store in which every milestone has a current submission exactly when
its status is "submitted" (a store without contracts, or one whose milestones are new), and
serve any sequence of contract requests (`createContract`, `addMilestone`, `fundEscrow`,
`activateContract`, `submitWork`, `reviewSubmission`, `releasePayment`, `completeContract`).
Then every stored milestone has a current submission if and only if its status is
"submitted". -/
theorem current_iff_submitted (db : Db) (calls : List Call)
    (h : ∀ c ∈ db.contracts, ∀ m ∈ c.milestones, CurrentIffSubmitted m) :
    ∀ c ∈ (run db calls).contracts, ∀ m ∈ c.milestones, CurrentIffSubmitted m := by
  induction calls generalizing db with
  | nil => exact h
  | cons call rest ih => exact ih (step db call) (currentIffSubmitted_step db call h)

/-- Witness for C27: `draftDb` holds one contract with a new milestone; after the funding and
the first submission of `doubleReleaseCalls` the milestone is "submitted" and has a current
submission, after all the calls it is "paid" and has none. -/
theorem current_iff_submitted_witness :
    (∀ c ∈ draftDb.contracts, ∀ m ∈ c.milestones, CurrentIffSubmitted m) ∧
    draftDb.contracts.map (fun c => c.milestones.map
      (fun m => (m.status, m.currentSubmission.isSome))) = [[("pending", false)]] ∧
    (run draftDb ((doubleReleaseCalls.drop 1).take 2)).contracts.map (fun c => c.milestones.map
      (fun m => (m.status, m.currentSubmission.isSome))) = [[("submitted", true)]] ∧
    (run draftDb (doubleReleaseCalls.drop 1)).contracts.map (fun c => c.milestones.map
      (fun m => (m.status, m.currentSubmission.isSome))) = [[("paid", false)]] ∧
    (∀ c ∈ (run draftDb ((doubleReleaseCalls.drop 1).take 2)).contracts, ∀ m ∈ c.milestones,
      CurrentIffSubmitted m) ∧
    ∀ c ∈ (run draftDb (doubleReleaseCalls.drop 1)).contracts, ∀ m ∈ c.milestones,
      CurrentIffSubmitted m :=
  ⟨by simp [draftDb, draftContract, CurrentIffSubmitted]; decide, by decide, by decide, by decide,
    current_iff_submitted draftDb ((doubleReleaseCalls.drop 1).take 2)
      (by simp [draftDb, draftContract, CurrentIffSubmitted]; decide),
    current_iff_submitted draftDb (doubleReleaseCalls.drop 1)
      (by simp [draftDb, draftContract, CurrentIffSubmitted]; decide)⟩

/-! ## completeContract on a contract without milestones -/

theorem findContract_appended (db : Db) (created : Contract)
    (hfresh : db.findContract created.id = none) :
    (db.contracts ++ [created]).find? (fun x => x.id == created.id) = some created := by
  unfold Db.findContract at hfresh
  rw [List.find?_append, hfresh]
  simp

/-- C28: a `createContract` request of the job's client with `milestones = []`, non-empty
title, scope and terms and a total amount that is not negative is answered 201 and stores a
contract with status "draft", balance 0 and no milestone. The client's `completeContract` on
this contract, with no funding and no activation in between, is answered 200: the contract
is stored with status "completed" and `endDate = now`, and the job gets the status
"completed". -/
theorem completeContract_empty_draft (db : Db) (user proposalId : ObjectId)
    (body : ContractInput) (proposal : Proposal) (job : Job) (title scope terms : String)
    (totalAmount : Int) (now : Nat)
    (hms : body.milestones = some [])
    (ht : body.title = some title) (hs : body.scope = some scope)
    (hte : body.terms = some terms) (hta : body.totalAmount = some totalAmount)
    (htn : title ≠ "") (hsn : scope ≠ "") (hten : terms ≠ "") (h0 : 0 ≤ totalAmount)
    (hp : db.findProposal proposalId = some proposal)
    (hj : db.findJob proposal.job = some job) (hc : job.client = user)
    (hfresh : db.findContract db.nextId = none) :
    (createContract db user proposalId body).1 = json 201 "Contract created successfully" ∧
    (createContract db user proposalId body).2.findContract db.nextId =
      some { id := db.nextId, job := job.id, proposal := proposalId, client := user,
             freelancer := proposal.freelancer, title := title, scope := scope,
             totalAmount := totalAmount, status := "draft", escrowBalance := 0,
             milestones := [], terms := terms } ∧
    (completeContract (createContract db user proposalId body).2 user db.nextId now).1 =
      json 200 "Contract completed successfully" ∧
    (completeContract (createContract db user proposalId body).2 user db.nextId
        now).2.findContract db.nextId =
      some { id := db.nextId, job := job.id, proposal := proposalId, client := user,
             freelancer := proposal.freelancer, title := title, scope := scope,
             totalAmount := totalAmount, status := "completed", escrowBalance := 0,
             milestones := [], endDate := some now, terms := terms } ∧
    (completeContract (createContract db user proposalId body).2 user db.nextId
        now).2.findJob proposal.job = some { job with status := "completed" } := by
  have c1 : (falsyStr body.title || falsyStr body.scope || falsyStr body.terms) = false := by
    simp [ht, hs, hte, falsyStr, htn, hsn, hten]
  have c2 : (([] : List MilestoneInput).any (fun milestone =>
      falsyStr milestone.title || falsyStr milestone.description ||
      falsyNum milestone.amount || milestone.dueDate.isNone)) = false := rfl
  have hb : buildMilestones (db.nextId + 1) [] = some [] := rfl
  have hrun := createContract_run db user proposalId body [] proposal job title scope terms
    totalAmount [] hms c1 c2 hp hj hc ht hs hte hta hb
  have hv : validContract
      { id := db.nextId, job := job.id, proposal := proposalId, client := user,
        freelancer := proposal.freelancer, title := title, scope := scope,
        totalAmount := totalAmount, terms := terms, milestones := [] } = true := by
    simp [validContract, htn, hsn, hten, h0, contractStatusEnum]
  simp only [Db.insertContract, hv, if_true] at hrun
  have hjid : job.id = proposal.job := by
    have := List.find?_some hj
    simpa using this
  have hfind1 : (createContract db user proposalId body).2.findContract db.nextId =
      some { id := db.nextId, job := job.id, proposal := proposalId, client := user,
             freelancer := proposal.freelancer, title := title, scope := scope,
             totalAmount := totalAmount, status := "draft", escrowBalance := 0,
             milestones := [], terms := terms } := by
    rw [hrun]
    exact findContract_appended db
      { id := db.nextId, job := job.id, proposal := proposalId, client := user,
        freelancer := proposal.freelancer, title := title, scope := scope,
        totalAmount := totalAmount, terms := terms, milestones := [] } hfresh
  have hjob1 : (createContract db user proposalId body).2.findJob job.id =
      some { job with status := "in-progress" } := by
    rw [hrun]
    have h := findJob_setJobStatus
      (Db.setProposalStatus
        { db with
          contracts := db.contracts ++
            [{ id := db.nextId, job := job.id, proposal := proposalId, client := user,
               freelancer := proposal.freelancer, title := title, scope := scope,
               totalAmount := totalAmount, terms := terms, milestones := [] }]
          nextId := db.nextId + 1 + 0 } proposal.id "accepted") job.id "in-progress"
    have hA : (Db.setProposalStatus
        { db with
          contracts := db.contracts ++
            [{ id := db.nextId, job := job.id, proposal := proposalId, client := user,
               freelancer := proposal.freelancer, title := title, scope := scope,
               totalAmount := totalAmount, terms := terms, milestones := [] }]
          nextId := db.nextId + 1 + 0 } proposal.id "accepted").findJob job.id = some job := by
      rw [hjid]
      exact hj
    rw [hA] at h
    exact h
  have hv2 := valid_completed _ now hv
  obtain ⟨db2, hsave, hstored⟩ := saveContract_spec (createContract db user proposalId body).2
    { id := db.nextId, job := job.id, proposal := proposalId, client := user,
      freelancer := proposal.freelancer, title := title, scope := scope,
      totalAmount := totalAmount, terms := terms, milestones := [] }
    { id := db.nextId, job := job.id, proposal := proposalId, client := user,
      freelancer := proposal.freelancer, title := title, scope := scope,
      totalAmount := totalAmount, status := "completed", escrowBalance := 0,
      milestones := [], endDate := some now, terms := terms }
    db.nextId hfind1 rfl hv2
  have hdb2 := (saveContract_some hsave).2
  have hcomplete : completeContract (createContract db user proposalId body).2 user db.nextId
      now =
      (json 200 "Contract completed successfully",
        (db2.setJobStatus job.id "completed").addNotification
          { recipient := proposal.freelancer, sender := user,
            type := "CONTRACT_COMPLETED", job := some job.id }) := by
    simp only [completeContract, hfind1, bne_self_eq_false, Bool.false_eq_true, if_false,
      List.all_nil, Bool.not_true, hsave, hjob1]
  refine ⟨by rw [hrun], hfind1, by rw [hcomplete], ?_, ?_⟩
  · rw [hcomplete]
    exact hstored
  · rw [hcomplete, ← hjid]
    show (db2.setJobStatus job.id "completed").findJob job.id = _
    rw [findJob_setJobStatus]
    have hj2 : db2.findJob job.id = some { job with status := "in-progress" } := by
      rw [hdb2]
      exact hjob1
    rw [hj2]
    rfl

/-- Witness for C28: the client of `postedJob` creates a contract from `emptyBody` and
completes it at once. -/
theorem completeContract_empty_draft_witness :
    (createContract postedDb 100 2 emptyBody).1 = json 201 "Contract created successfully" ∧
    ((createContract postedDb 100 2 emptyBody).2.findContract 10).map
      (fun c => (c.status, c.escrowBalance, c.milestones)) = some ("draft", 0, []) ∧
    (completeContract (createContract postedDb 100 2 emptyBody).2 100 10 5000).1 =
      json 200 "Contract completed successfully" ∧
    ((completeContract (createContract postedDb 100 2 emptyBody).2 100 10
        5000).2.findContract 10).map (fun c => (c.status, c.endDate)) =
      some ("completed", some 5000) ∧
    (completeContract (createContract postedDb 100 2 emptyBody).2 100 10
        5000).2.findJob 1 = some { postedJob with status := "completed" } :=
  ⟨(completeContract_empty_draft postedDb 100 2 emptyBody
      { id := 2, job := 1, freelancer := 200 } postedJob "Landing page" "Design and build"
      "Net 30" 50 5000 rfl rfl rfl rfl rfl (by decide) (by decide) (by decide) (by decide)
      (by decide) (by decide) (by decide) (by decide)).1,
    by decide, by decide, by decide, by decide⟩

/-! ## reviewSubmission with the status "pending" -/

theorem reviewMilestone_pending (m : Milestone) (current : Submission)
    (feedback : Option String) (now : Nat) :
    reviewMilestone m current "pending" feedback now =
      { m with currentSubmission := some (stampSubmission current "pending" feedback now) } := by
  simp [reviewMilestone]

theorem stampSubmission_files (current : Submission) (status : String)
    (feedback : Option String) (now : Nat) :
    (stampSubmission current status feedback now).files = current.files := by
  unfold stampSubmission
  split <;> rfl

theorem stampSubmission_comments (current : Submission) (status : String)
    (feedback : Option String) (now : Nat) :
    (stampSubmission current status feedback now).comments = current.comments := by
  unfold stampSubmission
  split <;> rfl

theorem stampSubmission_status (current : Submission) (status : String)
    (feedback : Option String) (now : Nat) :
    (stampSubmission current status feedback now).status = status := by
  unfold stampSubmission
  split <;> rfl

theorem validMilestone_pending_review (m : Milestone) (current : Submission)
    (feedback : Option String) (now : Nat) (hv : validMilestone m = true)
    (hcur : m.currentSubmission = some current) :
    validMilestone
      { m with currentSubmission := some (stampSubmission current "pending" feedback now) } =
      true := by
  simp only [validMilestone, Bool.and_eq_true, hcur] at hv
  obtain ⟨hrest, hc⟩ := hv
  simp only [validSubmission, Bool.and_eq_true] at hc
  simp only [validMilestone, Bool.and_eq_true]
  refine ⟨hrest, ?_⟩
  simp only [validSubmission, Bool.and_eq_true, stampSubmission_files, stampSubmission_status]
  exact ⟨hc.1, by decide⟩

/-- Counterexample to C29 as stated: the client reviews the pending submission of
`submittedContract` with the status "pending" and the feedback "more contrast"; the request
is answered 200 and nothing is archived, but the current submission is not unchanged: it now
carries the feedback and `feedbackAt = 2000`. -/
theorem reviewSubmission_pending_feedback_counterexample :
    submittedDb.findContract 10 = some submittedContract ∧
    findMilestone submittedContract.milestones 11 = some submittedMilestone ∧
    submittedMilestone.currentSubmission = some pendingSubmission ∧
    (reviewSubmission submittedDb 100 10 11 "pending" (some "more contrast") 2000).1.code =
      200 ∧
    (((reviewSubmission submittedDb 100 10 11 "pending" (some "more contrast")
        2000).2.findContract 10).bind (fun c => findMilestone c.milestones 11)).map
      (fun m => (m.status, m.submissionHistory, m.currentSubmission)) =
      some ("submitted", [],
        some { files := [], comments := "done", submittedAt := 1000, status := "pending",
               clientFeedback := "more contrast", feedbackAt := some 2000 }) ∧
    ({ files := [], comments := "done", submittedAt := 1000, status := "pending",
       clientFeedback := "more contrast", feedbackAt := some 2000 } : Submission) ≠
      pendingSubmission := by
  decide

/-- C29 (amended): for an existing (schema-valid) contract whose job is stored, its client as
caller and a milestone with a current submission, `reviewSubmission` with the status
"pending" is answered 200 and archives nothing: the milestone's status and its history are
unchanged, and the current submission stays the current one, with the same files, comments
and `submittedAt`, its status set to "pending" and, when feedback is given, `clientFeedback`
set to it and `feedbackAt` to the request time. It is unchanged when no feedback is given
and its status was "pending" already. The freelancer is sent one notification of type
MILESTONE_CHANGES_REQUESTED. -/
theorem reviewSubmission_pending (db : Db) (user contractId milestoneId : ObjectId)
    (feedback : Option String) (now : Nat) (c : Contract) (m : Milestone)
    (current : Submission) (job : Job)
    (hfind : db.findContract contractId = some c)
    (hm : findMilestone c.milestones milestoneId = some m)
    (hcur : m.currentSubmission = some current) (hclient : c.client = user)
    (hvalid : validContract c = true) (hjob : db.findJob c.job = some job) :
    (reviewSubmission db user contractId milestoneId "pending" feedback now).1 =
      json 200 "Submission reviewed successfully" ∧
    (reviewSubmission db user contractId milestoneId "pending" feedback now).2.notifications =
      db.notifications ++
        [{ recipient := c.freelancer, sender := user, type := "MILESTONE_CHANGES_REQUESTED",
           job := some job.id }] ∧
    ∃ c1 m1 current1,
      (reviewSubmission db user contractId milestoneId "pending" feedback now).2.findContract
        contractId = some c1 ∧
      findMilestone c1.milestones milestoneId = some m1 ∧
      m1.status = m.status ∧ m1.submissionHistory = m.submissionHistory ∧
      m1.currentSubmission = some current1 ∧
      current1.files = current.files ∧ current1.comments = current.comments ∧
      current1.submittedAt = current.submittedAt ∧ current1.status = "pending" ∧
      (falsyStr feedback = true →
        current1.clientFeedback = current.clientFeedback ∧
        current1.feedbackAt = current.feedbackAt) ∧
      (falsyStr feedback = false →
        current1.clientFeedback = feedback.getD "" ∧ current1.feedbackAt = some now) ∧
      (falsyStr feedback = true → current.status = "pending" → current1 = current) := by
  subst hclient
  have hmid : m.id = milestoneId := findMilestone_id_eq hm
  have hvm : validMilestone m = true := validMilestone_of_mem (valid_milestones c hvalid) hm
  have hv1 : validContract
      { c with
        milestones := setMilestone c.milestones milestoneId
          (reviewMilestone m current "pending" feedback now) } = true := by
    rw [reviewMilestone_pending]
    exact valid_with_milestones c _ hvalid
      (all_setMilestone c.milestones milestoneId _ (valid_milestones c hvalid)
        (validMilestone_pending_review m current feedback now hvm hcur))
  obtain ⟨db1, hsave, hstored⟩ := saveContract_spec db c
    { c with
      milestones := setMilestone c.milestones milestoneId
        (reviewMilestone m current "pending" feedback now) } contractId hfind rfl hv1
  obtain ⟨-, hdb1⟩ := saveContract_some hsave
  have hc : (c.client != c.client) = false := by simp
  have hrun : reviewSubmission db c.client contractId milestoneId "pending" feedback now =
      (json 200 "Submission reviewed successfully",
        db1.addNotification
          { recipient := c.freelancer, sender := c.client,
            type := "MILESTONE_CHANGES_REQUESTED", job := some job.id }) := by
    simp only [reviewSubmission, hfind, hc, hm, hcur, hsave, hjob]
    simp
  rw [hrun]
  refine ⟨rfl, ?_,
    { c with
      milestones := setMilestone c.milestones milestoneId
        (reviewMilestone m current "pending" feedback now) },
    reviewMilestone m current "pending" feedback now,
    stampSubmission current "pending" feedback now, hstored, ?_, ?_⟩
  · simp only [Db.addNotification]
    rw [hdb1]
  · exact findMilestone_setMilestone c.milestones milestoneId m _ hm
      ((reviewMilestone_id m current "pending" feedback now).trans hmid)
  · rw [reviewMilestone_pending]
    refine ⟨rfl, rfl, rfl, stampSubmission_files _ _ _ _, stampSubmission_comments _ _ _ _,
      stampSubmission_submittedAt _ _ _ _, stampSubmission_status _ _ _ _, ?_, ?_, ?_⟩
    · intro hf
      simp [stampSubmission, hf]
    · intro hf
      simp [stampSubmission, hf]
    · intro hf hst
      simp only [stampSubmission, hf, if_true]
      rw [← hst]

/-- Witness for C29 (amended): the client reviews the pending submission of
`submittedContract` with the status "pending" and no feedback; the milestone is stored as it
was and the freelancer gets a MILESTONE_CHANGES_REQUESTED notification. -/
theorem reviewSubmission_pending_witness :
    submittedDb.findContract 10 = some submittedContract ∧
    findMilestone submittedContract.milestones 11 = some submittedMilestone ∧
    submittedMilestone.currentSubmission = some pendingSubmission ∧
    validContract submittedContract = true ∧
    (((reviewSubmission submittedDb 100 10 11 "pending" none 2000).2.findContract 10).bind
      (fun c => findMilestone c.milestones 11)) = some submittedMilestone ∧
    (reviewSubmission submittedDb 100 10 11 "pending" none 2000).1 =
      json 200 "Submission reviewed successfully" ∧
    (reviewSubmission submittedDb 100 10 11 "pending" none 2000).2.notifications =
      submittedDb.notifications ++
        [{ recipient := submittedContract.freelancer, sender := 100,
           type := "MILESTONE_CHANGES_REQUESTED", job := some 1 }] :=
  ⟨by decide, by decide, by decide, by decide, by decide,
    (reviewSubmission_pending submittedDb 100 10 11 none 2000 submittedContract
      submittedMilestone pendingSubmission
      { id := 1, client := 100, title := "Landing page", status := "in-progress" }
      (by decide) (by decide) rfl (by decide) (by decide) (by decide)).1,
    (reviewSubmission_pending submittedDb 100 10 11 none 2000 submittedContract
      submittedMilestone pendingSubmission
      { id := 1, client := 100, title := "Landing page", status := "in-progress" }
      (by decide) (by decide) rfl (by decide) (by decide) (by decide)).2.1⟩

/-! ## The pagination block of getJobs and getMyJobs -/

theorem pageCount_pos (totalJobs : Nat) (limit : Int) (hlimit : 1 ≤ limit) :
    pageCount totalJobs limit = some ⌈(totalJobs : ℚ) / (limit : ℚ)⌉ := by
  have h0 : limit ≠ 0 := by omega
  simp [pageCount, h0]

theorem lt_ceil_div_iff (page limit : Int) (totalJobs : Nat) (hlimit : 1 ≤ limit) :
    page < ⌈(totalJobs : ℚ) / (limit : ℚ)⌉ ↔ page * limit < totalJobs := by
  have hl : (0 : ℚ) < (limit : ℚ) := by
    have : (0 : Int) < limit := by omega
    exact_mod_cast this
  rw [Int.lt_ceil, lt_div_iff₀ hl]
  constructor
  · intro h
    exact_mod_cast h
  · intro h
    exact_mod_cast h

theorem ceil_div_bounds (limit : Int) (totalJobs : Nat) (hlimit : 1 ≤ limit) :
    (totalJobs : Int) ≤ ⌈(totalJobs : ℚ) / (limit : ℚ)⌉ * limit ∧
    ⌈(totalJobs : ℚ) / (limit : ℚ)⌉ * limit < totalJobs + limit := by
  have hl : (0 : ℚ) < (limit : ℚ) := by
    have : (0 : Int) < limit := by omega
    exact_mod_cast this
  constructor
  · have h := Int.le_ceil ((totalJobs : ℚ) / (limit : ℚ))
    rw [div_le_iff₀ hl] at h
    exact_mod_cast h
  · have h := Int.ceil_lt_add_one ((totalJobs : ℚ) / (limit : ℚ))
    have h2 : (⌈(totalJobs : ℚ) / (limit : ℚ)⌉ : ℚ) * (limit : ℚ) <
        ((totalJobs : ℚ) / (limit : ℚ) + 1) * (limit : ℚ) :=
      mul_lt_mul_of_pos_right h hl
    have h3 : ((totalJobs : ℚ) / (limit : ℚ) + 1) * (limit : ℚ) =
        (totalJobs : ℚ) + (limit : ℚ) := by
      field_simp
    rw [h3] at h2
    exact_mod_cast h2

theorem pageOf_some (page limit : Int) (jobs : List Job) (hpage : 1 ≤ page)
    (hlimit : 1 ≤ limit) :
    pageOf page limit jobs =
      some ((jobs.drop ((page - 1) * limit).toNat).take limit.natAbs) := by
  have h1 : ¬ (page - 1) * limit < 0 := by
    have : 0 ≤ (page - 1) * limit := Int.mul_nonneg (by omega) (by omega)
    omega
  have h2 : limit ≠ 0 := by omega
  simp [pageOf, h1, h2]

/-- C30: for `page ≥ 1`, `limit ≥ 1` and any number `totalJobs` of matching jobs, the
`pagination` block of `getJobs` and of `getMyJobs` reports
`totalPages = Math.ceil(totalJobs / limit)`, which is the least number of pages of `limit`
jobs that holds `totalJobs` jobs; `hasPrevPage` is true exactly when `page > 1`;
`hasNextPage` is true exactly when `page < totalPages`, and this is the case if and only if
`page * limit < totalJobs`, that is, when jobs remain beyond the current page. Both
controllers answer with this block for the count of the jobs that match their filter. -/
theorem pagination_block (page limit : Int) (totalJobs : Nat) (hpage : 1 ≤ page)
    (hlimit : 1 ≤ limit) :
    ∃ totalPages : Int,
      (paginationOf page limit totalJobs).totalPages = some totalPages ∧
      totalPages = ⌈(totalJobs : ℚ) / (limit : ℚ)⌉ ∧
      (totalJobs : Int) ≤ totalPages * limit ∧ totalPages * limit < totalJobs + limit ∧
      (paginationOf page limit totalJobs).currentPage = page ∧
      (paginationOf page limit totalJobs).totalJobs = totalJobs ∧
      ((paginationOf page limit totalJobs).hasPrevPage = true ↔ 1 < page) ∧
      ((paginationOf page limit totalJobs).hasNextPage = true ↔ page < totalPages) ∧
      (page < totalPages ↔ page * limit < totalJobs) ∧
      (∀ (db : Db) (user : ObjectId) (query : JobQuery) (searchHit : Job → Bool)
          (sortBy : String),
        (getJobs db user query searchHit sortBy page limit).map (fun r => r.2) =
          some (paginationOf page limit
            (db.jobs.filter (jobFilter query searchHit
              ((db.proposals.filter (fun p =>
                p.freelancer == user && p.status == "accepted")).map
                  (fun p => p.job)))).length)) ∧
      (∀ (db : Db) (user : User) (status : Option String), user.role = "client" →
        (getMyJobs db user status page limit).1 = 200 ∧
        (getMyJobs db user status page limit).2.map (fun r => r.2) =
          some (paginationOf page limit
            (db.jobs.filter (fun job =>
              job.client == user.id && fieldFilter status job.status)).length)) := by
  have hcount := pageCount_pos totalJobs limit hlimit
  obtain ⟨hb1, hb2⟩ := ceil_div_bounds limit totalJobs hlimit
  refine ⟨⌈(totalJobs : ℚ) / (limit : ℚ)⌉, ?_, rfl, hb1, hb2, rfl, rfl, ?_, ?_,
    lt_ceil_div_iff page limit totalJobs hlimit, ?_, ?_⟩
  · simp only [paginationOf, hcount]
  · simp [paginationOf]
  · simp only [paginationOf, hcount]
    simp
  · intro db user query searchHit sortBy
    simp only [getJobs, pageOf_some _ _ _ hpage hlimit, Option.map_some']
  · intro db user status hrole
    simp [getMyJobs, hrole, pageOf_some _ _ _ hpage hlimit]

/-- Witness for C30: page 2 of 25 jobs with 10 jobs per page. -/
theorem pagination_block_witness :
    (1 : Int) ≤ 2 ∧ (1 : Int) ≤ 10 ∧
    (paginationOf 2 10 25).hasPrevPage = true ∧
    (∃ totalPages : Int,
      (paginationOf 2 10 25).totalPages = some totalPages ∧
      totalPages = ⌈((25 : Nat) : ℚ) / ((10 : Int) : ℚ)⌉ ∧
      ((25 : Nat) : Int) ≤ totalPages * 10 ∧ totalPages * 10 < (25 : Nat) + 10 ∧
      (paginationOf 2 10 25).currentPage = 2 ∧
      (paginationOf 2 10 25).totalJobs = 25 ∧
      ((paginationOf 2 10 25).hasPrevPage = true ↔ 1 < (2 : Int)) ∧
      ((paginationOf 2 10 25).hasNextPage = true ↔ 2 < totalPages) ∧
      ((2 : Int) < totalPages ↔ (2 : Int) * 10 < (25 : Nat)) ∧
      (∀ (db : Db) (user : ObjectId) (query : JobQuery) (searchHit : Job → Bool)
          (sortBy : String),
        (getJobs db user query searchHit sortBy 2 10).map (fun r => r.2) =
          some (paginationOf 2 10
            (db.jobs.filter (jobFilter query searchHit
              ((db.proposals.filter (fun p =>
                p.freelancer == user && p.status == "accepted")).map
                  (fun p => p.job)))).length)) ∧
      (∀ (db : Db) (user : User) (status : Option String), user.role = "client" →
        (getMyJobs db user status 2 10).1 = 200 ∧
        (getMyJobs db user status 2 10).2.map (fun r => r.2) =
          some (paginationOf 2 10
            (db.jobs.filter (fun job =>
              job.client == user.id && fieldFilter status job.status)).length))) :=
  ⟨by decide, by decide, by decide, pagination_block 2 10 25 (by decide) (by decide)⟩

end GigPanda
